import Mathlib

/-!
# Event-builder contribution pipeline (psdaq/eb)

A shallow embedding of the contribution posters of the event builder,
`TebContributor` (psdaq/eb/TebContributor.cc) and `MebContributor`
(psdaq/eb/MebContributor.cc), with the constants of psdaq/eb/eb.hh; of the
monitor request server (psdaq/monreq/monReqServer.cc): its `main`, the
connection parameters of `MebApp` and the free list, the requests and the copy
of `MyXtcMonitorServer`; of the ageing counter of `EbEvent` (psdaq/eb/EbEvent.hh);
and of `get_kwargs` (drp/drp.cc); followed by theorems about them.

Conventions of the embedding.

* C++ objects become structures; a member function becomes a function from
  the object's state to an `Outcome`: the state at the point where control
  left the function, and either the value returned or the text thrown.
* A datagram pointer becomes the datagram record itself; the record carries
  its own address (`addr`), so that two datagrams at different places differ.
* Effects on the outside world are recorded in logs kept in the state: `eol`
  (datagrams on which `setEOL()` was called), `handed` (the `(start, end)`
  pairs given to the batch `_post`) and `posts` (the arguments of every
  `EbLfCltLink::post` call, in order).
* Machine integers are naturals, reduced modulo `2^w` where the C++ type
  truncates: offsets held in an `unsigned` modulo `2^32`, sizes and the event
  and batch counters modulo `2^64`.
* Classes and functions that the sources use but do not define (the batch
  manager, the link, the datagram header, the pending queue) are collected in
  `Env`, so that the functions are defined for every behaviour of those parts;
  the definitions marked "Modelled from the spec" give the documented behaviour.
-/

namespace Pds
namespace Eb

/-! ## Constants of eb.hh -/

/-- Maximum number of entries of a batch: `MAX_ENTRIES` of eb.hh. -/
def MAX_ENTRIES : Nat := 64

/-- Duration of a batch in pulse-ID ticks: `BATCH_DURATION` of eb.hh. -/
def BATCH_DURATION : Nat := MAX_ENTRIES

/-- Maximum latency in pulse-ID ticks: `MAX_LATENCY` of eb.hh. -/
def MAX_LATENCY : Nat := 4 * 1024 * 1024

/-- Maximum number of batches in circulation: `MAX_BATCHES` of eb.hh. -/
def MAX_BATCHES : Nat := MAX_LATENCY / MAX_ENTRIES

/-! ## Parts declared outside the source tree -/

/-- Modelled from the spec: the transition kinds of a datagram, the
enumeration `TransitionId::Value` of xtcdata, which is not in the source tree.
The spec names L1Accept, SlowUpdate, Configure, Enable and Disable; the other
kinds complete the enumeration. -/
inductive TransitionId where
  | ClearReadout
  | Reset
  | Configure
  | Unconfigure
  | BeginRun
  | EndRun
  | BeginStep
  | EndStep
  | Enable
  | Disable
  | SlowUpdate
  | Unused_11
  | L1Accept
  deriving DecidableEq

/-- Modelled from the spec: the number a transition kind converts to when it
is used as an `unsigned` (its position in the enumeration). -/
def TransitionId.toNat : TransitionId → Nat
  | .ClearReadout => 0
  | .Reset => 1
  | .Configure => 2
  | .Unconfigure => 3
  | .BeginRun => 4
  | .EndRun => 5
  | .BeginStep => 6
  | .EndStep => 7
  | .Enable => 8
  | .Disable => 9
  | .SlowUpdate => 10
  | .Unused_11 => 11
  | .L1Accept => 12

/-- Modelled from the spec: the contribution datagram `EbDgram` (declared in
psdaq/service/EbDgram.hh, not in the source tree), reduced to the header
fields the posters read: pulse ID, transition kind, readout-group bitmask,
environment word, source index (`xtc.src.value()`), payload size
(`xtc.sizeofPayload()`), and the address at which the datagram lies. -/
structure EbDgram where
  addr : Nat
  pulseId : Nat
  service : TransitionId
  readoutGroups : Nat
  env : Nat
  src : Nat
  payload : Nat
  deriving DecidableEq

/-- Modelled from the spec: `isEvent()` of the datagram header. Transitions
other than L1Accept are the non-event transitions that are forwarded (the
source notes that this also captures SlowUpdate). -/
def EbDgram.isEvent (d : EbDgram) : Bool :=
  d.service == TransitionId.L1Accept

namespace ImmData

/-- Modelled from the spec: flag `Buffer` of the immediate word. -/
def Buffer : Nat := 0x01

/-- Modelled from the spec: flag `Transition` of the immediate word. -/
def Transition : Nat := 0x02

/-- Modelled from the spec: flag `Response` of the immediate word. -/
def Response : Nat := 0x04

/-- Modelled from the spec: flag `NoResponse` of the immediate word. -/
def NoResponse : Nat := 0x08

/-- Modelled from the spec: `ImmData::value`, the 32-bit immediate word (class
`ImmData` is not in the source tree). The wire layout of the spec is
bits 31..24 the kind flags, bits 23..16 the source id, bits 15..0 the index. -/
def value (flags src idx : Nat) : Nat :=
  (flags % 256) * 2 ^ 24 + (src % 256) * 2 ^ 16 + idx % 2 ^ 16

/-- Modelled from the spec: `ImmData::flg`, bits 31..24 of the immediate word. -/
def flg (data : Nat) : Nat := (data / 2 ^ 24) % 256

/-- Modelled from the spec: `ImmData::src`, bits 23..16 of the immediate word. -/
def src (data : Nat) : Nat := (data / 2 ^ 16) % 256

/-- Modelled from the spec: `ImmData::idx`, bits 15..0 of the immediate word. -/
def idx (data : Nat) : Nat := data % 2 ^ 16

end ImmData

namespace Batch

/-- Modelled from the spec: `Batch::index` (Batch.hh is not in the source
tree): `batchIndex = (pulseId / BATCH_DURATION) mod MAX_BATCHES`. -/
def index (pid : Nat) : Nat := (pid / BATCH_DURATION) % MAX_BATCHES

end Batch

namespace BatchManager

/-- Modelled from the spec: `BatchManager::expired` (BatchManager.hh is not in
the source tree): true if `(now - batchStart) ≥ BATCH_DURATION` or the two
pulse IDs lie on different sides of an epoch boundary. -/
def expired (now batchStart : Nat) : Bool :=
  decide (BATCH_DURATION ≤ now - batchStart) ||
    decide (now / BATCH_DURATION ≠ batchStart / BATCH_DURATION)

end BatchManager

/-- The arguments of one `EbLfCltLink::post(buffer, size, offset, data)` call
and the link it is made on. For a post on `_links[dst]` the link is `dst`; for
a post made while iterating over `_links` it is the link's `id()` (configure
stores the link whose remote id is `r` at position `r`). -/
structure LinkPost where
  link : Nat
  buffer : EbDgram
  size : Nat
  offset : Nat
  data : Nat
  deriving DecidableEq

/-- The parts the posters use but the source tree does not define. -/
structure Env where
  /-- The static `Batch::index(pid)`. -/
  index : Nat → Nat
  /-- The batch manager's `expired(pid, start)`. -/
  expired : Nat → Nat → Bool
  /-- The batch manager's `batchRegionSize()`. -/
  batchRegionSize : Nat
  /-- The size of the datagram header, `sizeof(EbDgram)`. -/
  sizeofDgram : Nat
  /-- The capacity of the pending queue, `_pending.size()`. -/
  pendingSize : Nat
  /-- The function `roundUpSize` of utilities.hh. -/
  roundUpSize : Nat → Nat
  /-- The return code of `EbLfCltLink::post`, given the posts made before. -/
  post : List LinkPost → LinkPost → Int

/-- Modelled from the spec: the environment in which the batch index and the
expiry test are the ones the spec documents. -/
def specEnv (batchRegionSize sizeofDgram pendingSize : Nat) (roundUpSize : Nat → Nat)
    (post : List LinkPost → LinkPost → Int) : Env :=
  { index := Batch.index
    expired := BatchManager.expired
    batchRegionSize := batchRegionSize
    sizeofDgram := sizeofDgram
    pendingSize := pendingSize
    roundUpSize := roundUpSize
    post := post }

/-- What a member function leaves behind: the object's state when control left
the function, and the value returned or the text of the exception thrown. -/
structure Outcome (σ α : Type) where
  state : σ
  result : Except String α

/-- Whether the function threw. -/
def Outcome.raised {σ α : Type} (o : Outcome σ α) : Bool :=
  match o.result with
  | .ok _ => false
  | .error _ => true

/-- Sequencing of two statements: the second runs only if the first did not
throw. -/
def Outcome.andThen {σ α : Type} (o : Outcome σ Unit) (f : σ → Outcome σ α) : Outcome σ α :=
  match o.result with
  | .ok _ => f o.state
  | .error e => { state := o.state, result := .error e }

/-! ## eb.hh: parameters -/

/-- The fields of `TebCtrbParams` (eb.hh) that `TebContributor` reads after
configuration. -/
structure TebCtrbParams where
  partition : Nat
  id : Nat
  builders : Nat
  maxInputSize : Nat
  contractor : Nat
  batching : Bool

/-- The fields of `MebCtrbParams` (eb.hh) that `MebContributor` reads. -/
structure MebCtrbParams where
  id : Nat
  maxEvents : Nat
  maxEvSize : Nat
  maxTrSize : Nat
  verbose : Nat

/-! ## TebContributor.cc -/

/-- The state of a `TebContributor`: its data members, the pending queue as
the list of its entries (oldest first), and the logs of its effects. -/
structure TebContributor where
  prms : TebCtrbParams
  links : List Nat
  id : Nat
  numEbs : Nat
  pending : List EbDgram
  batchStart : Option EbDgram
  batchEnd : Option EbDgram
  contractor : Nat
  eventCount : Nat
  batchCount : Nat
  eol : List EbDgram
  handed : List (EbDgram × EbDgram)
  posts : List LinkPost

namespace TebContributor

/-- The method `startup`: the receiver thread it starts is not modelled. -/
def startup (s : TebContributor) : TebContributor :=
  { s with batchStart := none, batchEnd := none, eventCount := 0, batchCount := 0 }

/-- The destination of a batch index, as both `_post` overloads compute it:
`(idx / MAX_ENTRIES) % _numEbs`. With no builder at all the C++ remainder is
undefined; here it is the dividend. -/
def dst (numEbs idx : Nat) : Nat := (idx / MAX_ENTRIES) % numEbs

/-- The text of `__PRETTY_FUNCTION__` in `process`. -/
def processFn : String := "void Pds::Eb::TebContributor::process(const Pds::EbDgram*)"

/-- The text of `__PRETTY_FUNCTION__` in `_post(start, end)`. -/
def postFn : String :=
  "void Pds::Eb::TebContributor::_post(const Pds::EbDgram*, const Pds::EbDgram*)"

/-- Modelled from the spec: the bounded in-flight queue (its class is not in
the source tree) as a list, with the statements that follow every push in
TebContributor.cc: `_pending.push(dg)`, then the throw of `fn + ": _pending
overflow"` unless `guess_size()`, the number of queued entries, is below
`size()`, the capacity. -/
def pendingPush (E : Env) (fn : String) (s : TebContributor) (dg : EbDgram) :
    Outcome TebContributor Unit :=
  let s1 := { s with pending := s.pending ++ [dg] }
  if ¬ (s1.pending.length < E.pendingSize) then
    { state := s1, result := .error (fn ++ ": _pending overflow") }
  else
    { state := s1, result := .ok () }

/-- The arguments that `_post(start, end)` computes for the link post: the
link `_links[dst]`, named by its position `dst`, the extent from `start`
through `end` (a `size_t`), the remote offset (an `unsigned`) and the
immediate word; the batch index is held in a `uint32_t`. -/
def batchPost (E : Env) (s : TebContributor) (start end_ : EbDgram) : LinkPost :=
  let pid := start.pulseId
  let idx := E.index pid % 2 ^ 32
  let extent := ((end_.addr + 2 ^ 64 - start.addr) % 2 ^ 64 + s.prms.maxInputSize) % 2 ^ 64
  let offset := (idx * s.prms.maxInputSize) % 2 ^ 32
  let data := ImmData.value (ImmData.Buffer ||| ImmData.Response) s.id idx
  { link := dst s.numEbs idx, buffer := start, size := extent, offset := offset, data := data }

/-- The method `_post(start, end)`: posts a batch to the selected builder. -/
def _post (E : Env) (s : TebContributor) (start end_ : EbDgram) : Outcome TebContributor Unit :=
  let p := batchPost E s start end_
  let s1 := { s with eol := s.eol ++ [end_], handed := s.handed ++ [(start, end_)] }
  (pendingPush E postFn s1 start).andThen fun s2 =>
    let s3 := { s2 with posts := s2.posts ++ [p] }
    if E.post s2.posts p < 0 then
      { state := s3, result := .ok () }
    else
      { state := { s3 with batchCount := (s3.batchCount + 1) % 2 ^ 64 }, result := .ok () }

/-- The arguments that `_post(dgram)` computes for the post of a transition on
the link with the given id: the size of a datagram header, the remote offset
(an `unsigned`) past the batch region, and the immediate word. -/
def forwardPost (E : Env) (s : TebContributor) (dgram : EbDgram) (id : Nat) : LinkPost :=
  let tr := dgram.service.toNat
  let data := ImmData.value (ImmData.Transition ||| ImmData.NoResponse) s.id tr
  let extent := E.sizeofDgram
  let offset := (E.batchRegionSize + tr * E.sizeofDgram) % 2 ^ 32
  { link := id, buffer := dgram, size := extent, offset := offset, data := data }

/-- The method `_post(dgram)`: forwards a transition to every builder but the
one that got the batch containing it. The return codes of these posts are not
looked at. -/
def _postDgram (E : Env) (s : TebContributor) (dgram : EbDgram) : Outcome TebContributor Unit :=
  if s.links.length < 2 then
    { state := s, result := .ok () }
  else
    let pid := dgram.pulseId
    let idx := E.index pid % 2 ^ 32
    let d := dst s.numEbs idx
    if dgram.payload ≠ 0 then
      { state := s, result := .error "Unexpected XTC payload" }
    else
      let fwd := (s.links.filter fun id => id ≠ d).map (forwardPost E s dgram)
      { state := { s with posts := s.posts ++ fwd }, result := .ok () }

/-- The contractor bits of a datagram: `dgram->readoutGroups() & _prms.contractor`. -/
def ctrBits (s : TebContributor) (dgram : EbDgram) : Nat :=
  dgram.readoutGroups &&& s.prms.contractor

/-- The first block of `process` on the common path: the batch start is the
first datagram seen, `if (!_batchStart) { ... }`. -/
def openBatch (s : TebContributor) (dgram : EbDgram) : TebContributor :=
  match s.batchStart with
  | some _ => s
  | none => { s with batchStart := some dgram, contractor := ctrBits s dgram }

/-- The flag `flush` of `process`: the datagram is neither an L1Accept nor a
SlowUpdate, or batching is disabled. -/
def flush (s : TebContributor) (dgram : EbDgram) : Bool :=
  (!((dgram.service == TransitionId.L1Accept) || (dgram.service == TransitionId.SlowUpdate))
    || !s.prms.batching)

/-- The block `if (expired) { ... }` of `process`: post the batch that expired
if its contractor mask is not zero, and start a new batch with the datagram
that expired it. -/
def expiredBlock (E : Env) (s : TebContributor) (dgram : EbDgram) :
    Outcome TebContributor Unit :=
  let start := s.batchStart.getD dgram
  let posted : Outcome TebContributor Unit :=
    if s.contractor ≠ 0 then _post E s start (s.batchEnd.getD start)
    else { state := s, result := .ok () }
  posted.andThen fun s2 =>
    { state := { s2 with batchStart := some dgram
                         batchEnd := some dgram
                         contractor := ctrBits s2 dgram },
      result := .ok () }

/-- The block `if (flush) { ... }` of `process`: post the batch together with
the transition if the contractor mask is not zero, and start a new batch. -/
def flushBlock (E : Env) (s : TebContributor) (dgram : EbDgram) :
    Outcome TebContributor Unit :=
  let s4 := { s with contractor := s.contractor ||| ctrBits s dgram }
  let posted : Outcome TebContributor Unit :=
    if s4.contractor ≠ 0 then _post E s4 (s4.batchStart.getD dgram) dgram
    else { state := s4, result := .ok () }
  posted.andThen fun s5 =>
    { state := { s5 with batchStart := none, batchEnd := none }, result := .ok () }

/-- The branch of `process` for a datagram with the common readout group. -/
def common (E : Env) (s : TebContributor) (dgram : EbDgram) : Outcome TebContributor Unit :=
  let s1 := openBatch s dgram
  let start := s1.batchStart.getD dgram
  let expired := E.expired dgram.pulseId start.pulseId
  let fl := flush s1 dgram
  if !(expired || fl) then
    -- Most frequent case when batching
    { state := { s1 with batchEnd := some dgram
                         contractor := s1.contractor ||| ctrBits s1 dgram },
      result := .ok () }
  else
    let afterExpired : Outcome TebContributor Unit :=
      if expired then expiredBlock E s1 dgram else { state := s1, result := .ok () }
    afterExpired.andThen fun s3 =>
      if fl then flushBlock E s3 dgram else { state := s3, result := .ok () }

/-- The branch of `process` for a datagram without the common readout group:
the builders are bypassed. -/
def bypass (E : Env) (s : TebContributor) (dgram : EbDgram) : Outcome TebContributor Unit :=
  let posted : Outcome TebContributor Unit :=
    match s.batchStart with
    | some start =>
      if s.contractor ≠ 0 then _post E s start (s.batchEnd.getD start)
      else { state := s, result := .ok () }
    | none => { state := s, result := .ok () }
  posted.andThen fun s1 =>
    let s2 := { s1 with eol := s1.eol ++ [dgram] }
    (pendingPush E processFn s2 dgram).andThen fun s3 =>
      { state := { s3 with batchStart := none, batchEnd := none }, result := .ok () }

/-- The last block of `process`: a datagram that is not an event is forwarded
to the builders that were not selected, if the contractor mask is not zero. -/
def forward (E : Env) (s : TebContributor) (dgram : EbDgram) : Outcome TebContributor Unit :=
  if !dgram.isEvent then
    if s.contractor ≠ 0 then _postDgram E s dgram
    else { state := s, result := .ok () }
  else { state := s, result := .ok () }

/-- The method `process`: batches a contribution, posts what is due, and
forwards a transition to the builders that were not selected. -/
def process (E : Env) (s : TebContributor) (dgram : EbDgram) : Outcome TebContributor Unit :=
  let body : Outcome TebContributor Unit :=
    if dgram.readoutGroups &&& (1 <<< s.prms.partition) ≠ 0 then common E s dgram
    else bypass E s dgram
  body.andThen fun s6 => forward E s6 dgram

/-- Feeding a stream of contributions to `process`, one after the other, as
the receiver does; an exception ends the run. -/
def run (E : Env) (s : TebContributor) : List EbDgram → Outcome TebContributor Unit
  | [] => { state := s, result := .ok () }
  | d :: ds => (process E s d).andThen fun s1 => run E s1 ds

/-- The stream of the transition-flush scenario: the datagrams at the pulse
IDs 100..110, then the datagram at pulse ID 111; `ds p` is the datagram at
pulse ID `p`. -/
def flushScenario (ds : Nat → EbDgram) : List EbDgram :=
  (List.range 11).map (fun i => ds (100 + i)) ++ [ds 111]

/-- Every pair of a list of handed batches lies in one epoch bucket: its two
ends are the same datagram, or the end is not expired relative to the start. -/
def SameEpoch (E : Env) (l : List (EbDgram × EbDgram)) : Prop :=
  ∀ p ∈ l, p.1 = p.2 ∨ E.expired p.2.pulseId p.1.pulseId = false

/-- The invariant of the batching state behind the same-epoch property: the
batches handed to `_post` since the log was `base` are same-epoch batches, the
batch end is null when the batch start is, and an open batch is a same-epoch
batch. -/
def BatchInv (E : Env) (base : List (EbDgram × EbDgram))
    (s : TebContributor) : Prop :=
  (∃ new, s.handed = base ++ new ∧ SameEpoch E new) ∧
  (s.batchStart = none → s.batchEnd = none) ∧
  (∀ st en, s.batchStart = some st → s.batchEnd = some en →
    st = en ∨ E.expired en.pulseId st.pulseId = false)

/-- The batch that the bypass branch of `process` posts before it enqueues the
bypassing datagram: the open batch, if there is one and the contractor mask is
not zero. -/
def openBatchOf (s : TebContributor) : List (EbDgram × EbDgram) :=
  match s.batchStart with
  | some start => if s.contractor ≠ 0 then [(start, s.batchEnd.getD start)] else []
  | none => []

end TebContributor

/-! ## MebContributor.cc -/

/-- Modelled from the spec: `TransitionId::name`, the printable name of a
transition kind (xtcdata, not in the source tree). -/
def TransitionId.name : TransitionId → String
  | .ClearReadout => "ClearReadout"
  | .Reset => "Reset"
  | .Configure => "Configure"
  | .Unconfigure => "Unconfigure"
  | .BeginRun => "BeginRun"
  | .EndRun => "EndRun"
  | .BeginStep => "BeginStep"
  | .EndStep => "EndStep"
  | .Enable => "Enable"
  | .Disable => "Disable"
  | .SlowUpdate => "SlowUpdate"
  | .Unused_11 => "Unused_11"
  | .L1Accept => "L1Accept"

/-- The state of a `MebContributor`: its data members (MebContributor.hh) and
the logs of its effects. -/
structure MebContributor where
  maxEvSize : Nat
  maxTrSize : Nat
  bufRegSize : Nat
  links : List Nat
  id : Nat
  verbose : Nat
  eventCount : Nat
  eol : List EbDgram
  posts : List LinkPost

namespace MebContributor

/-- The constructor `MebContributor::MebContributor`; `_id(-1)` is the largest
`unsigned`, and the product of `maxEvents` and `_maxEvSize` is a `size_t`. -/
def new (E : Env) (prms : MebCtrbParams) : MebContributor :=
  { maxEvSize := E.roundUpSize prms.maxEvSize
    maxTrSize := prms.maxTrSize
    bufRegSize := (prms.maxEvents * E.roundUpSize prms.maxEvSize) % 2 ^ 64
    links := []
    id := 2 ^ 32 - 1
    verbose := prms.verbose
    eventCount := 0
    eol := []
    posts := [] }

/-- The value that `int rc = link->post(...) < 0` gives `rc`: the comparison
binds tighter than the initialisation, so `rc` is the truth value of
`link->post(...) < 0`. -/
def postRc (code : Int) : Int := if code < 0 then 1 else 0

/-- The method `post(ddg, destination)`, the overload for L1Accepts. -/
def post (E : Env) (s : MebContributor) (ddg : EbDgram) (destination : Nat) :
    Outcome MebContributor Int :=
  let s1 := { s with eol := s.eol ++ [ddg] }
  let dst := ImmData.src destination
  let idx := ImmData.idx destination
  let sz := E.sizeofDgram + ddg.payload
  let offset := (idx * s.maxEvSize) % 2 ^ 32
  let data := ImmData.value ImmData.Buffer s.id idx
  if sz > s.maxEvSize then
    { state := s1, result := .error "L1Accept too big for target buffer" }
  else if ddg.src ≠ s.id then
    { state := s1, result := .error "L1Accept source ID mismatch" }
  else
    let p : LinkPost := { link := dst, buffer := ddg, size := sz, offset := offset, data := data }
    let s2 := { s1 with posts := s1.posts ++ [p] }
    let rc := postRc (E.post s1.posts p)
    if rc ≠ 0 then
      { state := s2, result := .ok rc }
    else
      { state := { s2 with eventCount := (s2.eventCount + 1) % 2 ^ 64 }, result := .ok 0 }

/-- The loop of `post(ddg)` over `_links`: post on each link in turn, and
return at the first post whose `rc` is not zero. -/
def postAll (E : Env) (mk : Nat → LinkPost) (s : MebContributor) :
    List Nat → Outcome MebContributor Int
  | [] => { state := s, result := .ok 0 }
  | l :: ls =>
    let s1 := { s with posts := s.posts ++ [mk l] }
    let rc := postRc (E.post s.posts (mk l))
    if rc ≠ 0 then { state := s1, result := .ok rc }
    else postAll E mk s1 ls

/-- The method `post(ddg)`, the overload for transitions. -/
def postTr (E : Env) (s : MebContributor) (ddg : EbDgram) : Outcome MebContributor Int :=
  let s1 := { s with eol := s.eol ++ [ddg] }
  let sz := E.sizeofDgram + ddg.payload
  let tr := ddg.service
  let offset := (s.bufRegSize + tr.toNat * s.maxTrSize) % 2 ^ 64
  let data := ImmData.value ImmData.Transition s.id tr.toNat
  if sz > s.maxTrSize then
    { state := s1, result := .error (tr.name ++ " too big for target buffer") }
  else if ddg.src ≠ s.id then
    { state := s1, result := .error (tr.name ++ " source ID mismatch") }
  else
    postAll E
      (fun l => { link := l, buffer := ddg, size := sz, offset := offset, data := data })
      s1 s1.links

end MebContributor

/-! ## Concrete inputs for the witnesses and counterexamples -/

/-- Parameters of the example contributor: partition 0, contributor id 5, two
builders, contributions of at most 64 bytes, contractor group 0, batching on. -/
def scenarioPrms : TebCtrbParams :=
  { partition := 0, id := 5, builders := 3, maxInputSize := 64, contractor := 1,
    batching := true }

/-- The example environment: the documented batch index and expiry test, a
batch region of 4096 bytes, datagram headers of 32 bytes, a pending queue of
capacity 16, and links whose posts all succeed. -/
def scenarioEnv : Env := specEnv 4096 32 16 (fun n => n) (fun _ _ => 0)

/-- The example contributor as `configure` leaves it: links to the builders 0
and 1, nothing pending, no batch open. -/
def scenarioState : TebContributor :=
  { prms := scenarioPrms, links := [0, 1], id := 5, numEbs := 2, pending := [],
    batchStart := none, batchEnd := none, contractor := 0, eventCount := 0, batchCount := 0,
    eol := [], handed := [], posts := [] }

/-- The example datagram at pulse ID `p`: an L1Accept up to pulse ID 110 and a
Disable after it, with readout group 0 set, from source 5, without payload. -/
def scenarioDgram (p : Nat) : EbDgram :=
  { addr := p * 64, pulseId := p,
    service := if p ≤ 110 then TransitionId.L1Accept else TransitionId.Disable,
    readoutGroups := 1, env := 0, src := 5, payload := 0 }

/-- The example contributor with a batch open from pulse ID 100 to 101 and a
contractor mask that is not zero. -/
def openState : TebContributor :=
  { scenarioState with batchStart := some (scenarioDgram 100),
                       batchEnd := some (scenarioDgram 101), contractor := 1 }

/-- An L1Accept at pulse ID 102 whose readout groups (group 1 only) do not
contain the common group 0. -/
def bypassDgram : EbDgram :=
  { addr := 102 * 64, pulseId := 102, service := TransitionId.L1Accept, readoutGroups := 2,
    env := 0, src := 5, payload := 0 }

/-- A Disable at pulse ID 200 whose readout groups are empty, so that it
bypasses the builders. -/
def bypassDisable : EbDgram :=
  { addr := 200 * 64, pulseId := 200, service := TransitionId.Disable, readoutGroups := 0,
    env := 0, src := 5, payload := 0 }

/-- The example contributor with a stale contractor mask left over from
before `startup()`. -/
def staleState : TebContributor := { scenarioState with contractor := 1 }

/-- The example contributor with contributions of at most 128 KiB. -/
def bigState : TebContributor :=
  { scenarioState with prms := { scenarioPrms with maxInputSize := 131072 } }

/-- An L1Accept at pulse ID 2097152, whose batch index is 32768. -/
def bigDgram : EbDgram :=
  { addr := 0, pulseId := 2097152, service := TransitionId.L1Accept, readoutGroups := 1,
    env := 0, src := 5, payload := 0 }

/-- The example environment with a pending queue of capacity 4. -/
def smallEnv : Env := specEnv 4096 32 4 (fun n => n) (fun _ _ => 0)

/-- The example contributor with three entries on the pending queue. -/
def fullState : TebContributor :=
  { scenarioState with
      pending := [scenarioDgram 100, scenarioDgram 101, scenarioDgram 102] }

/-- Parameters of the example monitor contributor: id 5, eight event buffers
of at most 1024 bytes, transitions of at most 256 bytes. -/
def mebPrms : MebCtrbParams :=
  { id := 5, maxEvents := 8, maxEvSize := 1024, maxTrSize := 256, verbose := 0 }

/-- The example monitor contributor as `configure` leaves it: id 5 and links
to the monitors 0 and 1. -/
def mebState : MebContributor :=
  { MebContributor.new scenarioEnv mebPrms with id := 5, links := [0, 1] }

/-- The example environment with links on which every post fails with -1. -/
def failEnv : Env := specEnv 4096 32 16 (fun n => n) (fun _ _ => -1)

/-- The immediate word of a monitor request from monitor 1 for buffer 3. -/
def mebDestination : Nat := ImmData.value ImmData.Buffer 1 3

end Eb
end Pds
namespace Pds
namespace Eb

/-! ## monReqServer.cc: the monitor server -/

/-- The constant `NUMBEROF_XFERBUFFERS` of monReqServer.cc. -/
def NUMBEROF_XFERBUFFERS : Nat := 8

/-- Maximum possible number of contributors: `MAX_DRPS` of eb.hh. -/
def MAX_DRPS : Nat := 64

/-- Maximum possible number of event builders: `MAX_TEBS` of eb.hh. -/
def MAX_TEBS : Nat := 64

/-- Maximum possible number of monitors: `MAX_MEBS` of eb.hh. -/
def MAX_MEBS : Nat := 64

/-- The constant `OUR_PORT_BASE` of eb.hh. -/
def OUR_PORT_BASE : Nat := 1024

/-- The constant `TEB_PORT_BASE` of eb.hh. -/
def TEB_PORT_BASE : Nat := OUR_PORT_BASE

/-- The constant `DRP_PORT_BASE` of eb.hh. -/
def DRP_PORT_BASE : Nat := TEB_PORT_BASE + MAX_TEBS

/-- The constant `MRQ_PORT_BASE` of eb.hh. -/
def MRQ_PORT_BASE : Nat := DRP_PORT_BASE + MAX_DRPS

/-- The constant `MEB_PORT_BASE` of eb.hh. -/
def MEB_PORT_BASE : Nat := MRQ_PORT_BASE + MAX_MEBS

/-- Number of readout groups supported: `NUM_READOUT_GROUPS` of eb.hh. -/
def NUM_READOUT_GROUPS : Nat := 16

/-- The fields of `MebParams` (monReqServer.cc, on top of `EbParams` of eb.hh)
that the monitor server reads or writes. `id`, `partition`, `maxBufferSize`
and `numEvBuffers` are `unsigned`, `contributors` and the entries of
`contractors` and `receivers` are `uint64_t`, the entries of `maxTrSize` are
`size_t`. -/
structure MebParams where
  ifAddr : String
  ebPort : String
  partition : Nat
  id : Nat
  contributors : Nat
  contractors : List Nat
  receivers : List Nat
  addrs : List String
  ports : List String
  maxTrSize : List Nat
  maxBufferSize : Nat
  numEvBuffers : Nat
  deriving DecidableEq

/-- Modelled from the spec: the queue class `FifoMT<unsigned>` of
psdaq/service/Fifo.hh (not in the source tree), the bounded credit queue of
free buffer indices: a capacity and the queued entries, oldest first. -/
structure FifoMT where
  cap : Nat
  items : List Nat
  deriving DecidableEq

namespace FifoMT

/-- Modelled from the spec: `size()`, the capacity of the queue. -/
def size (f : FifoMT) : Nat := f.cap

/-- Modelled from the spec: `count()`, the number of queued entries. -/
def count (f : FifoMT) : Nat := f.items.length

/-- Modelled from the spec: `peek(i)`, the entry `i` places behind the oldest. -/
def peek (f : FifoMT) (i : Nat) : Nat := f.items.getD i 0

/-- Modelled from the spec: `push(x)`: the entry joins the tail and the call
returns false; on a full queue nothing changes and the call returns true. -/
def push (f : FifoMT) (x : Nat) : Bool × FifoMT :=
  if f.items.length < f.cap then (false, { f with items := f.items ++ [x] })
  else (true, f)

/-- Modelled from the spec: `pop(x)`: the oldest entry leaves the queue and the
call returns false; on an empty queue ("no credit") the call returns true. -/
def pop (f : FifoMT) : Bool × Option Nat × FifoMT :=
  match f.items with
  | [] => (true, none, f)
  | x :: xs => (false, some x, { f with items := xs })

end FifoMT

/-- The arguments of one `EbLfCltLink::post(nullptr, 0, data)` call of the
monitor server and the position in `_mrqLinks` of the link it is made on. -/
structure MrqPost where
  link : Nat
  data : Nat
  deriving DecidableEq

/-- The state of a `MyXtcMonitorServer`: its data members, and the log of the
requests it posted. -/
structure MyXtcMonitorServer where
  sizeofBuffers : Nat
  iTeb : Nat
  mrqLinks : List Nat
  bufFreeList : FifoMT
  id : Nat
  posts : List MrqPost
  deriving DecidableEq

namespace Meb

/-- The environment word that `Meb::process` writes:
`(dg->env & 0xff00ffff) | (idx << 16)`, with `idx << 16` an `unsigned`. -/
def envUpdate (env idx : Nat) : Nat :=
  (env &&& 0xff00ffff) ||| ((idx <<< 16) % 2 ^ 32)

end Meb

namespace MyXtcMonitorServer

/-- The constructor `MyXtcMonitorServer::MyXtcMonitorServer`: an empty free
list of capacity `numEvBuffers`; `_id(-1u)` is the largest `unsigned`. -/
def new (prms : MebParams) : MyXtcMonitorServer :=
  { sizeofBuffers := prms.maxBufferSize
    iTeb := 0
    mrqLinks := []
    bufFreeList := { cap := prms.numEvBuffers, items := [] }
    id := 2 ^ 32 - 1
    posts := [] }

/-- The loop of `configure` that fills the free list: push the indices in
turn, and stop with `true` at the first push that fails. -/
def pushAll (f : FifoMT) : List Nat → Bool × FifoMT
  | [] => (false, f)
  | i :: is =>
    if (f.push i).1 then (true, (f.push i).2)
    else pushAll (f.push i).2 is

/-- The method `configure`. The connection of the links belongs to the
transport, which is not in the source tree: `connect` is its result, the error
code of the first link that fails to connect or prepare, or the ids of the
links by position. The call of `_init()` of the base class is not modelled. -/
def configure (prms : MebParams) (connect : Except Int (List Nat))
    (s : MyXtcMonitorServer) : Int × MyXtcMonitorServer :=
  let s1 := { s with iTeb := 0, id := prms.id }
  match connect with
  | .error rc => (rc, s1)
  | .ok links =>
    let s2 := { s1 with mrqLinks := links }
    let numBuffers := s2.bufFreeList.size
    let r := pushAll s2.bufFreeList (List.range numBuffers)
    if r.1 then (-1, { s2 with bufFreeList := r.2 })
    else (0, { s2 with bufFreeList := r.2 })

/-- The buffer index that `_deleteDatagram` recovers from the environment
word: `(dg->env >> 16) & 0xff`. -/
def deleteIndex (env : Nat) : Nat := (env >>> 16) &&& 0xff

/-- The scan of `_deleteDatagram` over the free list: whether some entry
`peek(i)`, `i < count()`, is the index. -/
def isFree (f : FifoMT) (idx : Nat) : Bool :=
  (List.range f.count).any fun i => idx == f.peek i

/-- The method `_deleteDatagram`, given the environment word of the released
datagram. It throws nothing: an index beyond the capacity and a failed push
are only logged, a double free returns early. The return of the datagram to
its pool is not modelled. -/
def _deleteDatagram (s : MyXtcMonitorServer) (env : Nat) : MyXtcMonitorServer :=
  let idx := deleteIndex env
  if isFree s.bufFreeList idx then s
  else { s with bufFreeList := (s.bufFreeList.push idx).2 }

/-- The loop of `_requestDatagram` over the links, round robin from `_iTeb`:
at most `n` posts, stopping at the first that returns 0. `_iTeb` is an
`unsigned`. -/
def requestLoop (lnk : List MrqPost → MrqPost → Int) (data : Nat) :
    Nat → MyXtcMonitorServer → MyXtcMonitorServer
  | 0, s => s
  | n + 1, s =>
    let iTeb := s.iTeb
    let next := (s.iTeb + 1) % 2 ^ 32
    let p : MrqPost := { link := iTeb, data := data }
    let s1 := { s with iTeb := if next = s.mrqLinks.length then 0 else next,
                       posts := s.posts ++ [p] }
    if lnk s.posts p = 0 then s1 else requestLoop lnk data n s1

/-- The method `_requestDatagram`; `lnk` gives the return code of a link post,
given the posts made before. It throws nothing. -/
def _requestDatagram (lnk : List MrqPost → MrqPost → Int) (s : MyXtcMonitorServer) :
    MyXtcMonitorServer :=
  match s.bufFreeList.pop with
  | (_, none, _) => s
  | (_, some idx, f) =>
    let data := ImmData.value ImmData.Buffer s.id idx
    requestLoop lnk data s.mrqLinks.length { s with bufFreeList := f }

/-- The state after `m` calls of `_requestDatagram` in a row. -/
def requests (lnk : List MrqPost → MrqPost → Int) (s : MyXtcMonitorServer) :
    Nat → MyXtcMonitorServer
  | 0 => s
  | m + 1 => _requestDatagram lnk (requests lnk s m)

/-- An operation on the monitor server: a request for a datagram, or the
release of a datagram with the given environment word. -/
inductive Op where
  | request
  | delete (env : Nat)
  deriving DecidableEq

/-- The effect of one operation. -/
def step (lnk : List MrqPost → MrqPost → Int) (s : MyXtcMonitorServer) :
    Op → MyXtcMonitorServer
  | .request => _requestDatagram lnk s
  | .delete env => _deleteDatagram s env

/-- The effect of a sequence of operations. -/
def runOps (lnk : List MrqPost → MrqPost → Int) (s : MyXtcMonitorServer)
    (ops : List Op) : MyXtcMonitorServer :=
  ops.foldl (step lnk) s

end MyXtcMonitorServer

/-! ## Concrete inputs for the monitor server -/

/-- Parameters of the example monitor: id 3, four event buffers of 1000
bytes. -/
def monPrms : MebParams :=
  { ifAddr := "", ebPort := "", partition := 0, id := 3, contributors := 0,
    contractors := [], receivers := [], addrs := ["a", "b", "c"], ports := ["1", "2", "3"],
    maxTrSize := [], maxBufferSize := 1000, numEvBuffers := 4 }

/-- Request links that accept every post. -/
def acceptAll : List MrqPost → MrqPost → Int := fun _ _ => 0

/-- The example monitor server, freshly configured with three request links. -/
def monState : MyXtcMonitorServer :=
  (MyXtcMonitorServer.configure monPrms (.ok [0, 1, 2]) (MyXtcMonitorServer.new monPrms)).2

end Eb
end Pds
namespace Pds
namespace Eb

/-! ## monReqServer.cc: the command line, the connection parameters and the replies -/

/-- The value `NO_PARTITION` of `main`: `unsigned(-1u)`. -/
def NO_PARTITION : Nat := 2 ^ 32 - 1

/-- What the option loop of `main` leaves in the variables that `main` then
checks: the partition, the instrument name, the number of event buffers, the
collection server and the alias. Without `-n` the number of event buffers is
`NUMBEROF_XFERBUFFERS`; with `-n` it is the `unsigned` that `sscanf` stored. -/
structure Options where
  partition : Nat
  instrument : String
  numEvBuffers : Nat
  collSrv : String
  alias_ : String

/-- The checks of `main` between the option loop and the construction of the
application: the exit status 1 of the first check that fails, or the number of
event buffers the application is built with. -/
def mainOptions (o : Options) : Except Nat Nat :=
  if o.partition = NO_PARTITION then .error 1
  else if o.instrument = "" then .error 1
  else if o.numEvBuffers = 0 then .error 1
  else if o.collSrv = "" then .error 1
  else if o.alias_ = "" then .error 1
  else
    let numEvBuffers :=
      if o.numEvBuffers < NUMBEROF_XFERBUFFERS then NUMBEROF_XFERBUFFERS else o.numEvBuffers
    if numEvBuffers > 255 then .error 1
    else .ok numEvBuffers

/-- The function `main` after the option loop; `app n` is the exit status of
building and running the application with `n` event buffers (0, or
`EXIT_FAILURE` when an exception is caught). -/
def main (o : Options) (app : Nat → Nat) : Nat :=
  match mainOptions o with
  | .error status => status
  | .ok numEvBuffers => app numEvBuffers

/-- Modelled from the spec: one entry of the `drp` section of the connect
message: `drp_id`, `det_info.readout`, `connect_info.max_tr_size` and
`connect_info.max_ev_size`. -/
structure DrpSpec where
  drpId : Nat
  readout : Nat
  maxTrSize : Nat
  maxEvSize : Nat
  deriving DecidableEq

/-- Modelled from the spec: one entry of the `teb` section of the connect
message: `teb_id` and `connect_info.nic_ip`. -/
structure TebSpec where
  tebId : Nat
  nicIp : String
  deriving DecidableEq

/-- Modelled from the spec: the body of the connect message as
`_parseConnectionParams` reads it: `meb_id` and `connect_info.nic_ip` of this
monitor's entry of the `meb` section, and the `drp` and `teb` sections, each
absent or the list of its entries in the order of iteration. -/
structure ConnectBody where
  mebId : Nat
  nicIp : String
  drp : Option (List DrpSpec)
  teb : Option (List TebSpec)
  deriving DecidableEq

/-- The state of a `MebApp` that the connection parameters touch: the
parameters `_prms` and the readout groups `_groups`. -/
structure MebApp where
  prms : MebParams
  groups : Nat
  deriving DecidableEq

namespace MebApp

/-- The statement `v.resize(n)` on a vector of sizes: the first `n` entries,
padded with zeros. -/
def resize (v : List Nat) (n : Nat) : List Nat :=
  v.take n ++ List.replicate (n - v.length) 0

/-- The statement `a[i] |= bits` on an array of `uint64_t`. -/
def orAt (a : List Nat) (i bits : Nat) : List Nat :=
  a.set i ((a.getD i 0 ||| bits) % 2 ^ 64)

/-- The variables of the loop of `_parseConnectionParams` over the `drp`
section: the application and the two running sums, both `size_t`. -/
structure DrpLoop where
  app : MebApp
  maxTrSize : Nat
  maxBufferSize : Nat

/-- The body of the loop over the `drp` section for one entry: the return
value 1 with the application as it is at the return, or the variables after
the entry. A store past the end of `_prms.maxTrSize` is undefined in C++; here
it leaves the vector as it is, and the value added to the sum is the one
stored. -/
def drpEntry (v : DrpLoop) (d : DrpSpec) : Except MebApp DrpLoop :=
  let drpId := d.drpId % 2 ^ 32
  if drpId > MAX_DRPS - 1 then .error v.app
  else
    let a1 := { v.app with prms := { v.app.prms with
      contributors := (v.app.prms.contributors ||| (1 <<< drpId)) % 2 ^ 64 } }
    let group := d.readout % 2 ^ 32
    if group > NUM_READOUT_GROUPS - 1 then .error a1
    else
      let a2 : MebApp :=
        { prms := { a1.prms with
            contractors := orAt a1.prms.contractors group (1 <<< drpId),
            receivers := a1.prms.receivers.set group 0,
            maxTrSize := a1.prms.maxTrSize.set drpId (d.maxTrSize % 2 ^ 64) },
          groups := (a1.groups ||| (1 <<< group)) % 2 ^ 16 }
      .ok { app := a2,
            maxTrSize := (v.maxTrSize + d.maxTrSize % 2 ^ 64) % 2 ^ 64,
            maxBufferSize := (v.maxBufferSize + d.maxEvSize % 2 ^ 64) % 2 ^ 64 }

/-- The loop over the `drp` section. -/
def drpLoop (v : DrpLoop) : List DrpSpec → Except MebApp DrpLoop
  | [] => .ok v
  | d :: ds =>
    match drpEntry v d with
    | .error a => .error a
    | .ok v1 => drpLoop v1 ds

/-- The loop over the `teb` section: the return value 1 with the application
as it is at the return, or the application after the last entry. -/
def tebLoop (mrqPortBase : Nat) (a : MebApp) : List TebSpec → Except MebApp MebApp
  | [] => .ok a
  | t :: ts =>
    let tebId := t.tebId % 2 ^ 32
    if tebId > MAX_TEBS - 1 then .error a
    else
      tebLoop mrqPortBase
        { a with prms := { a.prms with
            addrs := a.prms.addrs ++ [t.nicIp],
            ports := a.prms.ports ++ [toString ((mrqPortBase + tebId) % 2 ^ 32)] } }
        ts

/-- The method `_parseConnectionParams`: its return value and the application
after the call. The accessors of the JSON body are taken to succeed. -/
def _parseConnectionParams (a : MebApp) (body : ConnectBody) : Int × MebApp :=
  let numPorts := MAX_DRPS + MAX_TEBS + MAX_TEBS + MAX_MEBS
  let mrqPortBase := (MRQ_PORT_BASE + numPorts * a.prms.partition) % 2 ^ 32
  let mebPortBase := (MEB_PORT_BASE + numPorts * a.prms.partition) % 2 ^ 32
  let a1 := { a with prms := { a.prms with id := body.mebId % 2 ^ 32 } }
  if a1.prms.id ≥ MAX_MEBS then (1, a1)
  else
    let a2 := { a1 with prms := { a1.prms with
      ifAddr := body.nicIp,
      ebPort := toString ((mebPortBase + a1.prms.id) % 2 ^ 32) } }
    match body.drp with
    | none => (1, a2)
    | some drps =>
      let a3 : MebApp :=
        { prms := { a2.prms with
            contributors := 0,
            maxBufferSize := 0,
            maxTrSize := resize a2.prms.maxTrSize drps.length,
            contractors := List.replicate NUM_READOUT_GROUPS 0,
            receivers := List.replicate NUM_READOUT_GROUPS 0 },
          groups := 0 }
      match drpLoop { app := a3, maxTrSize := 0, maxBufferSize := 0 } drps with
      | .error a4 => (1, a4)
      | .ok v =>
        -- shmem buffers must fit both built events and transitions of worst case size
        let a5 := { v.app with prms := { v.app.prms with
          maxBufferSize :=
            (if v.maxBufferSize > v.maxTrSize then v.maxBufferSize else v.maxTrSize)
              % 2 ^ 32 } }
        match body.teb with
        | none => (1, a5)
        | some tebs =>
          let a6 := { a5 with prms := { a5.prms with addrs := [], ports := [] } }
          match tebLoop mrqPortBase a6 tebs with
          | .error a7 => (1, a7)
          | .ok a8 => (0, a8)

/-- Modelled from the spec: the body of a reply, a JSON object, as the list of
its keys with their values. -/
abbrev ReplyBody := List (String × String)

/-- The method `handleConnect`: the application after the call and the body of
the reply it sends. -/
def handleConnect (a : MebApp) (body : ConnectBody) : MebApp × ReplyBody :=
  let r := _parseConnectionParams a body
  if r.1 ≠ 0 then (r.2, [("err_info", "Error parsing connect parameters")])
  else (r.2, [])

/-- The method `handlePhase1`, as far as the body of its reply goes: `key` is
the key of the transition and `errMsg` the text that `_configure` returns for
it (empty on success). The method `_configure` builds the metrics exporter,
the builder and the monitor server, none of which is in the source tree. -/
def handlePhase1 (key : String) (errMsg : String) : ReplyBody :=
  if key = "configure" then
    if errMsg ≠ "" then [("error_info", "Phase 1 error: " ++ errMsg)]
    else []
  else []

end MebApp

/-! ## Concrete inputs for the command line and the connection parameters -/

/-- Options with everything mandatory given and `n` event buffers asked for. -/
def optionsWith (n : Nat) : Options :=
  { partition := 0, instrument := "tst", numEvBuffers := n, collSrv := "drp-tst",
    alias_ := "meb0" }

/-- The example application before a connect: monitor id 5. -/
def appState : MebApp :=
  { prms := { monPrms with id := 5 }, groups := 0 }

/-- A connect body whose monitor id 64 is out of range. -/
def badMebBody : ConnectBody :=
  { mebId := 64, nicIp := "10.0.0.1", drp := some [], teb := some [] }

/-- A connect body with two contributors whose events are up to 2 GiB each,
and one builder. -/
def bigEventBody : ConnectBody :=
  { mebId := 1, nicIp := "10.0.0.1",
    drp := some [{ drpId := 0, readout := 0, maxTrSize := 4096, maxEvSize := 2147483648 },
                 { drpId := 1, readout := 0, maxTrSize := 4096, maxEvSize := 2147483648 }],
    teb := some [{ tebId := 0, nicIp := "10.0.0.2" }] }

end Eb
end Pds
namespace Pds
namespace Eb

/-! ## Concrete inputs for the cases of `process` -/

/-- A Disable at pulse ID 99 with the readout groups 0 and 1, from source 5,
without payload. -/
def bothGroupsDisable : EbDgram :=
  { addr := 99 * 64, pulseId := 99, service := TransitionId.Disable, readoutGroups := 3,
    env := 0, src := 5, payload := 0 }

/-- The example contributor as a contractor for the readout groups 0 and 1. -/
def twoGroupState : TebContributor :=
  { scenarioState with prms := { scenarioPrms with contractor := 3 } }

/-- The two-group contributor after it processed the Disable at pulse ID 99:
no batch is open, and the contractor mask is still 3. -/
def twoGroupClosed : TebContributor :=
  (TebContributor.process scenarioEnv twoGroupState bothGroupsDisable).state

/-- The example contributor as a contractor for the readout group 1 only (the
common group is group 0). -/
def groupOneState : TebContributor :=
  { scenarioState with prms := { scenarioPrms with contractor := 2 } }

/-- The group-1 contributor after it processed the Disable at pulse ID 99: no
batch is open, and the contractor mask is still 2. -/
def groupOneClosed : TebContributor :=
  (TebContributor.process scenarioEnv groupOneState bothGroupsDisable).state

/-- The group-1 contributor with batching disabled. -/
def unbatchedState : TebContributor :=
  { scenarioState with prms := { scenarioPrms with contractor := 2, batching := false } }

namespace MyXtcMonitorServer

/-- The round-robin state: the cursor is the number of posts made so far,
modulo the number of links, and post number `k` went to link `k mod L`. -/
def RoundRobin (links : List Nat) (s : MyXtcMonitorServer) : Prop :=
  s.mrqLinks = links ∧ s.iTeb = s.posts.length % links.length ∧
  s.posts.map (fun p => p.link) = (List.range s.posts.length).map (fun k => k % links.length)

/-- The state reached from `configure` on a fresh server, with the links
connected, by a sequence of requests and releases. -/
def reached (lnk : List MrqPost → MrqPost → Int) (prms : MebParams) (links : List Nat)
    (ops : List Op) : MyXtcMonitorServer :=
  runOps lnk (configure prms (.ok links) (new prms)).2 ops

end MyXtcMonitorServer

/-! ## Concrete inputs for the monitor requests -/

/-- The environment word of a released datagram whose index field holds 200. -/
def strayEnv : Nat := 200 <<< 16

/-- Two requests, the release of buffer 0, and three more requests. -/
def requestOps : List MyXtcMonitorServer.Op :=
  [.request, .request, .delete 0, .request, .request, .request]

end Eb
end Pds
namespace Pds
namespace Eb

/-! ## EbEvent.hh: the ageing counter -/

/-- Modelled from the spec: a contribution as the monitor's event builder
holds it (`EbDgram`, declared in psdaq/service/EbDgram.hh, not in the source
tree): the pulse ID and the environment word of its header, the source id and
the damage of its XTC, and the bytes of its XTC, header and payload, whose
number is the XTC's `extent`. -/
structure Contribution where
  pulseId : Nat
  env : Nat
  src : Nat
  damage : Nat
  xtc : List Nat
  deriving DecidableEq

/-- The field `xtc.extent` of a contribution: the size of its XTC in bytes. -/
def Contribution.extent (c : Contribution) : Nat := c.xtc.length

/-- The data members of an `EbEvent` (EbEvent.hh); `contributions` holds the
entries of `_contributions` from `begin()` up to `end()`, and `_living` is an
`int`. -/
structure EbEvent where
  size : Nat
  remaining : Nat
  contract : Nat
  living : Int
  prm : Nat
  damage : Nat
  contributions : List Contribution
  deriving DecidableEq

namespace EbEvent

/-- The value of an `int` expression: the 32-bit two's complement wrap-around
(in C++ the overflow itself is undefined). -/
def toInt (x : Int) : Int := (x + 2 ^ 31) % 2 ^ 32 - 2 ^ 31

/-- The method `_alive`: `return --_living > 0;`, the value returned and the
event after the call. -/
def _alive (e : EbEvent) : Bool × EbEvent :=
  let living := toInt (e.living - 1)
  (decide (living > 0), { e with living := living })

/-- The method `alive`, a `const` method: `return _living > 0;`. -/
def alive (e : EbEvent) : Bool := decide (e.living > 0)

/-- The event after `k` calls of `_alive` in a row. -/
def aged (e : EbEvent) : Nat → EbEvent
  | 0 => e
  | k + 1 => (_alive (aged e k)).2

end EbEvent

/-! ## monReqServer.cc: `_copyDatagram` -/

/-- The datagram `odg` that `_copyDatagram` builds at the start of the buffer,
and the log of its `memcpy` calls: the pulse ID and environment word copied
from the first contribution, the damage and the payload size
(`xtc.sizeofPayload()`) of the outer XTC, the bytes copied behind the header so
far, and for each `memcpy` the offset of its destination in the buffer and its
length. The source and type that the outer XTC is given are constants of
xtcdata and are not modelled. -/
structure ShmemDgram where
  pulseId : Nat
  env : Nat
  damage : Nat
  sizeofPayload : Nat
  payload : List Nat
  copies : List (Nat × Nat)
  deriving DecidableEq

namespace MyXtcMonitorServer

/-- The loop `do { ... } while (++ctrb != last)` of `_copyDatagram` from the
contribution under `ctrb` on. Modelled from the spec as far as class `Xtc` of
xtcdata goes: `damage.increase(v)` ORs `v` into the damage, and `alloc(n)`
returns the address behind the payload, `sizeofDgram + sizeofPayload` bytes
into the buffer, and adds `n` to the extent, which is counted exactly. -/
def copyLoop (sizeofDgram sizeofBuffers : Nat) (odg : ShmemDgram) :
    List Contribution → Outcome ShmemDgram Unit
  | [] => { state := odg, result := .ok () }
  | idg :: rest =>
    let buf := sizeofDgram + odg.sizeofPayload
    let odg1 := { odg with damage := odg.damage ||| idg.damage,
                           sizeofPayload := odg.sizeofPayload + idg.extent }
    if sizeofDgram + odg1.sizeofPayload > sizeofBuffers then
      { state := odg1, result := .error "Fatal: Datagram is too large for buffer" }
    else
      copyLoop sizeofDgram sizeofBuffers
        { odg1 with payload := odg1.payload ++ idg.xtc.take idg.extent,
                    copies := odg1.copies ++ [(buf, idg.extent)] }
        rest

/-- The method `_copyDatagram` on a directory whose first entry is `first`
(the loop is a `do ... while`, which reads the first entry before it tests for
the end): the header is built in place at the start of the buffer (`sizeofDgram`
bytes, before any check) from the first contribution, with an empty payload,
then the contributions are appended; `sizeofDgram` is `sizeof(Dgram)`. -/
def _copyDatagram (sizeofDgram : Nat) (s : MyXtcMonitorServer) (first : Contribution)
    (rest : List Contribution) : Outcome ShmemDgram Unit :=
  let odg : ShmemDgram :=
    { pulseId := first.pulseId, env := first.env, damage := first.damage,
      sizeofPayload := 0, payload := [], copies := [] }
  copyLoop sizeofDgram s.sizeofBuffers odg (first :: rest)

/-- The payload the spec describes: the XTCs of the contributions, each its
full extent, concatenated in the order of their source ids. -/
def sourceOrderPayload (dir : List Contribution) : List Nat :=
  ((dir.insertionSort fun a b => a.src ≤ b.src).map fun c => c.xtc.take c.extent).flatten

/-- The sum of the extents of the contributions of a directory. -/
def sumExtents (dir : List Contribution) : Nat := (dir.map Contribution.extent).sum

end MyXtcMonitorServer

/-! ## drp.cc: `get_kwargs` -/

namespace Drp

/-- The value `std::string::npos`, the largest `size_t`. -/
def npos : Nat := 2 ^ 64 - 1

/-- The items that `while (getline(ss, kwarg, ','))` reads from the stream, in
turn: the texts between the commas; behind the last comma there is an item only
if there is text (`getline` fails when it extracts nothing at the end of the
stream). `cur` holds the characters of the current item, last first. -/
def getlines (cur : List Char) : List Char → List (List Char)
  | [] => if cur = [] then [] else [cur.reverse]
  | c :: cs => if c = ',' then cur.reverse :: getlines [] cs else getlines (c :: cur) cs

/-- The call `kwarg.find("=", 0)`: the position of the first `=`, or `npos`. -/
def find (kwarg : List Char) : Nat :=
  if kwarg.indexOf '=' < kwarg.length then kwarg.indexOf '=' else npos

/-- The call `s.substr(pos, n)`: the text from position `pos` on, at most `n`
characters; it throws `std::out_of_range` when `pos` is beyond the end. -/
def substr (s : List Char) (pos n : Nat) : Except String (List Char) :=
  if pos > s.length then .error "basic_string::substr" else .ok ((s.drop pos).take n)

/-- The assignment `para.kwargs[key] = value` on the map, held as the list of
its keys with their values. -/
def assign (kwargs : List (List Char × List Char)) (key value : List Char) :
    List (List Char × List Char) :=
  if kwargs.any (fun e => e.1 == key) then
    kwargs.map fun e => if e.1 == key then (key, value) else e
  else kwargs ++ [(key, value)]

/-- The body of the loop of `get_kwargs` for one item. -/
def kwargItem (kwargs : List (List Char × List Char)) (item : List Char) :
    Outcome (List (List Char × List Char)) Unit :=
  let kwarg := item.filter fun c => c ≠ ' '
  let pos := find kwarg
  if pos = 0 then
    { state := kwargs,
      result := .error "drp.cc error: keyword argument with no equal sign: " }
  else
    match substr kwarg 0 pos, substr kwarg ((pos + 1) % 2 ^ 64) kwarg.length with
    | .ok key, .ok value => { state := assign kwargs key value, result := .ok () }
    | .error e, _ => { state := kwargs, result := .error e }
    | _, .error e => { state := kwargs, result := .error e }

/-- The loop of `get_kwargs` over the items. -/
def kwargLoop (kwargs : List (List Char × List Char)) :
    List (List Char) → Outcome (List (List Char × List Char)) Unit
  | [] => { state := kwargs, result := .ok () }
  | item :: items => (kwargItem kwargs item).andThen fun k => kwargLoop k items

/-- The function `get_kwargs`: `para.kwargs` when control leaves it, and the
exception thrown, if any (the text of the exception ends with the whole of
`kwargs_str`, which is left out here). -/
def get_kwargs (kwargs : List (List Char × List Char)) (kwargs_str : List Char) :
    Outcome (List (List Char × List Char)) Unit :=
  kwargLoop kwargs (getlines [] kwargs_str)

end Drp

/-! ## Concrete inputs for the ageing counter, the copy and the keyword arguments -/

/-- An event whose ageing counter holds `n`. -/
def eventWith (n : Int) : EbEvent :=
  { size := 0, remaining := 0, contract := 1, living := n, prm := 0, damage := 0,
    contributions := [] }

/-- A contribution from source 1 whose XTC is the two bytes 11, 12. -/
def ctrbOne : Contribution := { pulseId := 7, env := 0, src := 1, damage := 0, xtc := [11, 12] }

/-- A contribution from source 0 whose XTC is the three bytes 1, 2, 3. -/
def ctrbZero : Contribution := { pulseId := 7, env := 0, src := 0, damage := 2, xtc := [1, 2, 3] }

/-- The example monitor server with buffers of 28 bytes. -/
def tightState : MyXtcMonitorServer := { monState with sizeofBuffers := 28 }

end Eb
end Pds
/-! # Theorems -/

namespace Pds
namespace Eb

/-! ## Sequencing of outcomes -/

theorem Outcome.andThen_state_ind {σ α : Type} (P : σ → Prop) (o : Outcome σ Unit)
    (f : σ → Outcome σ α) (h1 : P o.state) (h2 : P o.state → P (f o.state).state) :
    P (o.andThen f).state := by
  unfold Outcome.andThen
  cases o.result
  · simpa using h1
  · simpa using h2 h1

/-- A first statement that returns normally hands its state to the second. -/
theorem Outcome.andThen_ok {σ α : Type} (s : σ) (f : σ → Outcome σ α) :
    Outcome.andThen { state := s, result := .ok () } f = f s := rfl

/-- Sequencing with a statement that does nothing changes nothing. -/
theorem Outcome.andThen_pure {σ : Type} (o : Outcome σ Unit) :
    (o.andThen fun s => { state := s, result := .ok () }) = o := by
  rcases o with ⟨s, _ | _⟩ <;> rfl

/-- Sequencing is associative. -/
theorem Outcome.andThen_assoc {σ α : Type} (o : Outcome σ Unit) (f : σ → Outcome σ Unit)
    (g : σ → Outcome σ α) :
    (o.andThen f).andThen g = o.andThen fun s => (f s).andThen g := by
  rcases o with ⟨s, _ | _⟩ <;> rfl

/-- If the first statement returns normally, the sequence is the second
statement run on its state. -/
theorem Outcome.andThen_of_ok {σ α : Type} (o : Outcome σ Unit) (f : σ → Outcome σ α)
    (h : o.result = .ok ()) : o.andThen f = f o.state := by
  rcases o with ⟨s, _ | _⟩
  · cases h
  · rfl

namespace TebContributor

/-! ## The pending queue and the batch post -/

/-- A push that leaves the queue below its capacity returns normally. -/
theorem pendingPush_ok (E : Env) (fn : String) (s : TebContributor) (dg : EbDgram)
    (h : s.pending.length + 1 < E.pendingSize) :
    pendingPush E fn s dg =
      { state := { s with pending := s.pending ++ [dg] }, result := .ok () } := by
  have h2 : ¬ E.pendingSize ≤ s.pending.length + 1 := by omega
  simp [pendingPush, h2]

/-- A push that leaves the queue at or above its capacity raises the overflow
error. -/
theorem pendingPush_error (E : Env) (fn : String) (s : TebContributor) (dg : EbDgram)
    (h : E.pendingSize ≤ s.pending.length + 1) :
    pendingPush E fn s dg =
      { state := { s with pending := s.pending ++ [dg] },
        result := .error (fn ++ ": _pending overflow") } := by
  simp [pendingPush, h]

/-- The batch post when the push overflows: the error is raised before the
link post. -/
theorem batch_post_error (E : Env) (s : TebContributor) (a b : EbDgram)
    (h : E.pendingSize ≤ s.pending.length + 1) :
    _post E s a b =
      { state := { s with eol := s.eol ++ [b], handed := s.handed ++ [(a, b)],
                          pending := s.pending ++ [a] },
        result := .error (postFn ++ ": _pending overflow") } := by
  have hp := pendingPush_error E postFn
    { s with eol := s.eol ++ [b], handed := s.handed ++ [(a, b)] } a h
  simp [_post, hp, Outcome.andThen]

/-- The batch post when the link post returns a negative code. -/
theorem batch_post_failed (E : Env) (s : TebContributor) (a b : EbDgram)
    (h : s.pending.length + 1 < E.pendingSize)
    (hrc : E.post s.posts (batchPost E s a b) < 0) :
    _post E s a b =
      { state := { s with eol := s.eol ++ [b], handed := s.handed ++ [(a, b)],
                          pending := s.pending ++ [a],
                          posts := s.posts ++ [batchPost E s a b] },
        result := .ok () } := by
  have hp := pendingPush_ok E postFn
    { s with eol := s.eol ++ [b], handed := s.handed ++ [(a, b)] } a h
  simp [_post, hp, Outcome.andThen, hrc]

/-- The batch post when the link post succeeds. -/
theorem batch_post_done (E : Env) (s : TebContributor) (a b : EbDgram)
    (h : s.pending.length + 1 < E.pendingSize)
    (hrc : ¬ E.post s.posts (batchPost E s a b) < 0) :
    _post E s a b =
      { state := { s with eol := s.eol ++ [b], handed := s.handed ++ [(a, b)],
                          pending := s.pending ++ [a],
                          posts := s.posts ++ [batchPost E s a b],
                          batchCount := (s.batchCount + 1) % 2 ^ 64 },
        result := .ok () } := by
  have hp := pendingPush_ok E postFn
    { s with eol := s.eol ++ [b], handed := s.handed ++ [(a, b)] } a h
  simp [_post, hp, Outcome.andThen, hrc]

/-- What the batch post leaves alone, and what it adds to the log of handed
batches. -/
theorem batch_post_fields (E : Env) (s : TebContributor) (a b : EbDgram) :
    (_post E s a b).state.handed = s.handed ++ [(a, b)] ∧
    (_post E s a b).state.batchStart = s.batchStart ∧
    (_post E s a b).state.batchEnd = s.batchEnd ∧
    (_post E s a b).state.contractor = s.contractor ∧
    (_post E s a b).state.prms = s.prms := by
  by_cases h : s.pending.length + 1 < E.pendingSize
  · by_cases hrc : E.post s.posts (batchPost E s a b) < 0
    · rw [batch_post_failed E s a b h hrc]; simp
    · rw [batch_post_done E s a b h hrc]; simp
  · rw [batch_post_error E s a b (by omega)]; simp

/-- What the forwarding of a transition leaves alone. -/
theorem forward_post_fields (E : Env) (s : TebContributor) (d : EbDgram) :
    (_postDgram E s d).state.handed = s.handed ∧
    (_postDgram E s d).state.batchStart = s.batchStart ∧
    (_postDgram E s d).state.batchEnd = s.batchEnd ∧
    (_postDgram E s d).state.contractor = s.contractor ∧
    (_postDgram E s d).state.prms = s.prms := by
  unfold _postDgram
  by_cases h1 : s.links.length < 2
  · simp [h1]
  · by_cases h2 : d.payload = 0 <;> simp [h1, h2]

/-! ## Batches stay within one epoch (C1) -/

/-- A same-epoch batch may be added to a list of same-epoch batches. -/
theorem SameEpoch_append (E : Env) (l : List (EbDgram × EbDgram)) (a b : EbDgram)
    (h : SameEpoch E l) (hab : a = b ∨ E.expired b.pulseId a.pulseId = false) :
    SameEpoch E (l ++ [(a, b)]) := by
  intro p hp
  rcases List.mem_append.mp hp with hp | hp
  · exact h p hp
  · simp only [List.mem_singleton] at hp
    subst hp
    exact hab

/-- The batch post of a same-epoch batch keeps the invariant. -/
theorem BatchInv_post (E : Env) (base : List (EbDgram × EbDgram)) (s : TebContributor)
    (a b : EbDgram) (h : BatchInv E base s)
    (hab : a = b ∨ E.expired b.pulseId a.pulseId = false) :
    BatchInv E base (_post E s a b).state := by
  obtain ⟨hh, hs, he, _, _⟩ := batch_post_fields E s a b
  obtain ⟨⟨new, hn, hnew⟩, h1, h2⟩ := h
  refine ⟨⟨new ++ [(a, b)], ?_, SameEpoch_append E new a b hnew hab⟩, ?_, ?_⟩
  · rw [hh, hn, List.append_assoc]
  · rw [hs, he]; exact h1
  · rw [hs, he]; exact h2

/-- Forwarding a transition keeps the invariant. -/
theorem BatchInv_postDgram (E : Env) (base : List (EbDgram × EbDgram)) (s : TebContributor)
    (d : EbDgram) (h : BatchInv E base s) :
    BatchInv E base (_postDgram E s d).state := by
  obtain ⟨hh, hs, he, _, _⟩ := forward_post_fields E s d
  unfold BatchInv
  rw [hh, hs, he]
  exact h

/-- A push onto the pending queue keeps the invariant. -/
theorem BatchInv_pendingPush (E : Env) (base : List (EbDgram × EbDgram)) (fn : String)
    (s : TebContributor) (d : EbDgram) (h : BatchInv E base s) :
    BatchInv E base (pendingPush E fn s d).state := by
  by_cases hp : s.pending.length + 1 < E.pendingSize
  · rw [pendingPush_ok E fn s d hp]; exact h
  · rw [pendingPush_error E fn s d (by omega)]; exact h

/-- Opening a same-epoch batch keeps the invariant. -/
theorem BatchInv_open (E : Env) (base : List (EbDgram × EbDgram)) (s : TebContributor)
    (st en : EbDgram) (c : Nat) (h : BatchInv E base s)
    (hab : st = en ∨ E.expired en.pulseId st.pulseId = false) :
    BatchInv E base { s with batchStart := some st, batchEnd := some en, contractor := c } := by
  obtain ⟨hh, _, _⟩ := h
  refine ⟨hh, by simp, ?_⟩
  intro st1 en1 h1 h2
  simp only [Option.some.injEq] at h1 h2
  subst h1 h2
  exact hab

/-- Closing the batch keeps the invariant. -/
theorem BatchInv_closed (E : Env) (base : List (EbDgram × EbDgram)) (s : TebContributor)
    (h : BatchInv E base s) :
    BatchInv E base { s with batchStart := none, batchEnd := none } := by
  obtain ⟨hh, _, _⟩ := h
  exact ⟨hh, by simp, by simp⟩

/-- Changing the contractor mask keeps the invariant. -/
theorem BatchInv_contractor (E : Env) (base : List (EbDgram × EbDgram)) (s : TebContributor)
    (c : Nat) (h : BatchInv E base s) :
    BatchInv E base { s with contractor := c } := h

/-- The first block of the common path keeps the invariant and leaves a batch
open, started by this datagram or before. -/
theorem BatchInv_openBatch (E : Env) (base : List (EbDgram × EbDgram)) (s : TebContributor)
    (d : EbDgram) (h : BatchInv E base s) :
    BatchInv E base (openBatch s d) ∧
      ∃ st, (openBatch s d).batchStart = some st ∧
        (st = d ∨ s.batchStart = some st) := by
  unfold openBatch
  rcases hs : s.batchStart with _ | st
  · refine ⟨⟨h.1, by simp, ?_⟩, d, rfl, Or.inl rfl⟩
    intro st en _ h2
    have := h.2.1 hs
    simp [this] at h2
  · exact ⟨h, st, hs, Or.inr rfl⟩

/-- The expired block keeps the invariant. -/
theorem BatchInv_expiredBlock (E : Env) (base : List (EbDgram × EbDgram)) (s : TebContributor)
    (d : EbDgram) (h : BatchInv E base s) (hs : s.batchStart ≠ none) :
    BatchInv E base (expiredBlock E s d).state := by
  unfold expiredBlock
  obtain ⟨st, hst⟩ := Option.ne_none_iff_exists'.mp hs
  apply Outcome.andThen_state_ind (BatchInv E base)
  · simp only [hst, Option.getD_some]
    split
    · apply BatchInv_post E base s _ _ h
      rcases he : s.batchEnd with _ | en
      · simp
      · simpa using h.2.2 st en hst he
    · exact h
  · intro h1
    exact BatchInv_open E base _ d d _ h1 (Or.inl rfl)

/-- The flush block keeps the invariant when the open batch and the datagram
make a same-epoch batch. -/
theorem BatchInv_flushBlock (E : Env) (base : List (EbDgram × EbDgram)) (s : TebContributor)
    (d st : EbDgram) (h : BatchInv E base s) (hs : s.batchStart = some st)
    (hab : st = d ∨ E.expired d.pulseId st.pulseId = false) :
    BatchInv E base (flushBlock E s d).state := by
  have e : s.batchStart.getD d = st := by simp [hs]
  unfold flushBlock
  apply Outcome.andThen_state_ind (BatchInv E base)
  · simp only
    split
    · apply BatchInv_post E base _ _ _ (BatchInv_contractor E base s _ h)
      show s.batchStart.getD d = d ∨ E.expired d.pulseId (s.batchStart.getD d).pulseId = false
      rw [e]
      exact hab
    · exact BatchInv_contractor E base s _ h
  · intro h1
    exact BatchInv_closed E base _ h1

/-- After an expired block that returned normally the batch starts at the
datagram. -/
theorem expiredBlock_batchStart (E : Env) (s : TebContributor) (d : EbDgram) :
    (expiredBlock E s d).raised = false → (expiredBlock E s d).state.batchStart = some d := by
  unfold expiredBlock
  simp only
  generalize (if s.contractor ≠ 0 then _post E s (s.batchStart.getD d)
    (s.batchEnd.getD (s.batchStart.getD d)) else { state := s, result := Except.ok () } :
      Outcome TebContributor Unit) = posted
  rcases posted with ⟨ps, _ | _⟩ <;> simp [Outcome.andThen, Outcome.raised]

/-- The common path keeps the invariant. -/
theorem BatchInv_common (E : Env) (base : List (EbDgram × EbDgram)) (s : TebContributor)
    (d : EbDgram) (h : BatchInv E base s) :
    BatchInv E base (common E s d).state := by
  obtain ⟨h1, st, hst, hor⟩ := BatchInv_openBatch E base s d h
  unfold common
  simp only [hst, Option.getD_some]
  rcases hexp : E.expired d.pulseId st.pulseId with _ | _
  · rcases hfl : flush (openBatch s d) d with _ | _
    · simp only [Bool.or_self, Bool.not_false, if_true]
      obtain ⟨hh, _, _⟩ := h1
      refine ⟨hh, by simp [hst], ?_⟩
      intro st1 en1 e1 e2
      simp only [hst, Option.some.injEq] at e1 e2
      subst e1 e2
      exact Or.inr hexp
    · simp only [Bool.or_true, Bool.not_true, Bool.false_eq_true, if_false, if_true,
        Outcome.andThen_ok]
      exact BatchInv_flushBlock E base _ d st h1 hst (Or.inr hexp)
  · simp only [Bool.true_or, Bool.not_true, Bool.false_eq_true, if_false, if_true]
    have h2 := BatchInv_expiredBlock E base _ d h1 (by simp [hst])
    have h3 := expiredBlock_batchStart E (openBatch s d) d
    unfold Outcome.andThen
    rcases hr : (expiredBlock E (openBatch s d) d).result with e | u
    · simpa using h2
    · simp only
      split
      · exact BatchInv_flushBlock E base _ d d h2 (h3 (by simp [Outcome.raised, hr]))
          (Or.inl rfl)
      · exact h2

/-- The bypass path keeps the invariant. -/
theorem BatchInv_bypass (E : Env) (base : List (EbDgram × EbDgram)) (s : TebContributor)
    (d : EbDgram) (h : BatchInv E base s) :
    BatchInv E base (bypass E s d).state := by
  unfold bypass
  apply Outcome.andThen_state_ind (BatchInv E base)
  · rcases hs : s.batchStart with _ | st
    · exact h
    · simp only
      split
      · apply BatchInv_post E base s _ _ h
        rcases he : s.batchEnd with _ | en
        · simp
        · simpa using h.2.2 st en hs he
      · exact h
  · intro h1
    apply Outcome.andThen_state_ind (BatchInv E base)
    · exact BatchInv_pendingPush E base _ _ _ h1
    · intro h2
      exact BatchInv_closed E base _ h2

/-- The last block of `process` keeps the invariant. -/
theorem BatchInv_forward (E : Env) (base : List (EbDgram × EbDgram)) (s : TebContributor)
    (d : EbDgram) (h : BatchInv E base s) :
    BatchInv E base (forward E s d).state := by
  unfold forward
  split
  · split
    · exact BatchInv_postDgram E base _ d h
    · exact h
  · exact h

/-- The method `process` keeps the invariant. -/
theorem BatchInv_process (E : Env) (base : List (EbDgram × EbDgram)) (s : TebContributor)
    (d : EbDgram) (h : BatchInv E base s) :
    BatchInv E base (process E s d).state := by
  unfold process
  apply Outcome.andThen_state_ind (BatchInv E base)
  · split
    · exact BatchInv_common E base s d h
    · exact BatchInv_bypass E base s d h
  · intro h1
    exact BatchInv_forward E base _ d h1

/-- A run over any stream keeps the invariant. -/
theorem BatchInv_run (E : Env) (base : List (EbDgram × EbDgram)) (ds : List EbDgram) :
    ∀ s : TebContributor, BatchInv E base s → BatchInv E base (run E s ds).state := by
  induction ds with
  | nil => intro s h; exact h
  | cons d ds ih =>
    intro s h
    unfold run
    apply Outcome.andThen_state_ind (BatchInv E base)
    · exact BatchInv_process E base s d h
    · intro h1
      exact ih _ h1

/-- The invariant holds right after `startup()`, with the log of handed
batches as it was. -/
theorem BatchInv_startup (E : Env) (s : TebContributor) :
    BatchInv E s.handed (startup s) :=
  ⟨⟨[], by simp [startup], by intro p hp; simp at hp⟩, by simp [startup], by simp [startup]⟩

/-- C1. For every sequence of contributions fed to `process` after `startup()`,
every batch handed to `_post(start, end)` during the run has its members in one
epoch bucket: `start` and `end` are the same datagram, or
`expired(end.pulseId, start.pulseId)` is false. -/
theorem process_batches_same_epoch (E : Env) (s0 : TebContributor) (ds : List EbDgram) :
    ∃ new, (run E (startup s0) ds).state.handed = s0.handed ++ new ∧
      ∀ p ∈ new, p.1 = p.2 ∨ E.expired p.2.pulseId p.1.pulseId = false :=
  (BatchInv_run E s0.handed ds (startup s0) (BatchInv_startup E s0)).1

/-! ## Round robin over batch indices (C2) -/

/-- The destination is periodic in the batch index, with period `numEbs *
MAX_ENTRIES`. -/
theorem dst_add_period (n idx : Nat) : dst n (idx + n * MAX_ENTRIES) = dst n idx := by
  unfold dst
  rw [Nat.add_mul_div_right _ _ (by decide : 0 < MAX_ENTRIES), Nat.add_mod_right]

/-- Counting over a window moved by one position: the element that leaves and
the one that enters agree. -/
theorem countP_range'_shift (p : Nat → Bool) (a P : Nat) (h : p (a + P) = p a) :
    (List.range' (a + 1) P).countP p = (List.range' a P).countP p := by
  have h1 : List.range' a (P + 1) = a :: List.range' (a + 1) P := List.range'_succ a P 1
  have h2 : List.range' a (P + 1) = List.range' a P ++ [a + P] := by
    rw [List.range'_concat]; simp
  have h3 := congrArg (List.countP p) (h1.symm.trans h2)
  simp only [List.countP_cons, List.countP_append, List.countP_nil, h] at h3
  omega

/-- Within the block of index values number `m`, every value or none belongs
to block `peer`. -/
theorem countP_block (peer m : Nat) :
    (List.range' (m * MAX_ENTRIES) MAX_ENTRIES).countP (fun i => decide (i / MAX_ENTRIES = peer)) =
      if peer = m then MAX_ENTRIES else 0 := by
  have hin : ∀ i ∈ List.range' (m * MAX_ENTRIES) MAX_ENTRIES, i / MAX_ENTRIES = m := by
    intro i hi
    rw [List.mem_range'_1] at hi
    have : 0 < MAX_ENTRIES := by decide
    apply Nat.div_eq_of_lt_le
    · exact hi.1
    · rw [Nat.succ_mul]; exact hi.2
  by_cases hp : peer = m
  · rw [if_pos hp, List.countP_eq_length.mpr]
    · simp
    · intro i hi; simp [hin i hi, hp]
  · rw [if_neg hp, List.countP_eq_zero.mpr]
    intro i hi
    simp [hin i hi, Ne.symm hp]

/-- Among the first `m` blocks of index values, block `peer` accounts for
`MAX_ENTRIES` values if it is one of them. -/
theorem countP_blocks (peer m : Nat) :
    (List.range' 0 (m * MAX_ENTRIES)).countP (fun i => decide (i / MAX_ENTRIES = peer)) =
      if peer < m then MAX_ENTRIES else 0 := by
  induction m with
  | zero => simp
  | succ m ih =>
    have hs : List.range' 0 ((m + 1) * MAX_ENTRIES) =
        List.range' 0 (m * MAX_ENTRIES) ++ List.range' (m * MAX_ENTRIES) MAX_ENTRIES := by
      have := List.range'_append_1 0 (m * MAX_ENTRIES) MAX_ENTRIES
      rw [Nat.zero_add] at this
      rw [this, Nat.succ_mul, Nat.add_comm]
    rw [hs, List.countP_append, ih, countP_block]
    by_cases h1 : peer < m
    · have : peer ≠ m := by omega
      have : peer < m + 1 := by omega
      simp [*]
    · by_cases h2 : peer = m
      · have : peer < m + 1 := by omega
        simp [*]
      · have : ¬ peer < m + 1 := by omega
        simp [*]

/-- Over the first period every builder is selected for `MAX_ENTRIES` index
values. -/
theorem countP_dst_period_zero (n peer : Nat) (hp : peer < n) :
    (List.range' 0 (n * MAX_ENTRIES)).countP (fun i => decide (dst n i = peer)) = MAX_ENTRIES := by
  have hc : (List.range' 0 (n * MAX_ENTRIES)).countP (fun i => decide (dst n i = peer)) =
      (List.range' 0 (n * MAX_ENTRIES)).countP (fun i => decide (i / MAX_ENTRIES = peer)) := by
    apply List.countP_congr
    intro i hi
    rw [List.mem_range'_1] at hi
    have hlt : i / MAX_ENTRIES < n := by
      apply Nat.div_lt_of_lt_mul
      rw [Nat.mul_comm]; omega
    simp [dst, Nat.mod_eq_of_lt hlt]
  rw [hc, countP_blocks, if_pos hp]

/-- Over a period starting anywhere every builder is selected for
`MAX_ENTRIES` index values. -/
theorem countP_dst_period (n peer : Nat) (hp : peer < n) (a : Nat) :
    (List.range' a (n * MAX_ENTRIES)).countP (fun i => decide (dst n i = peer)) = MAX_ENTRIES := by
  induction a with
  | zero => exact countP_dst_period_zero n peer hp
  | succ a ih =>
    rw [countP_range'_shift _ a (n * MAX_ENTRIES) (by rw [dst_add_period]), ih]

/-- Over `k` periods starting anywhere every builder is selected for `k *
MAX_ENTRIES` index values. -/
theorem countP_dst_periods (n peer : Nat) (hp : peer < n) (k : Nat) :
    ∀ a, (List.range' a (k * n * MAX_ENTRIES)).countP (fun i => decide (dst n i = peer)) =
      k * MAX_ENTRIES := by
  induction k with
  | zero => intro a; simp
  | succ k ih =>
    intro a
    have hs : List.range' a ((k + 1) * n * MAX_ENTRIES) =
        List.range' a (k * n * MAX_ENTRIES) ++
          List.range' (a + k * n * MAX_ENTRIES) (n * MAX_ENTRIES) := by
      rw [List.range'_append_1, Nat.succ_mul, Nat.add_mul, Nat.add_comm]
    rw [hs, List.countP_append, ih, countP_dst_period n peer hp, Nat.succ_mul]

/-- C2 (as amended). Round robin over batch indices: for every number of
builders `numEbs ≥ 1`, every `k` and every run of `k * numEbs * MAX_ENTRIES`
consecutive batch-index values starting at any `idx0`, the destination computed
by `_post`, `(idx / MAX_ENTRIES) % numEbs`, selects every builder `peer < numEbs`
for exactly `k * MAX_ENTRIES` of these values. -/
theorem dst_round_robin (numEbs k idx0 peer : Nat) (hp : peer < numEbs) :
    (List.range' idx0 (k * numEbs * MAX_ENTRIES)).countP
      (fun idx => decide (dst numEbs idx = peer)) = k * MAX_ENTRIES :=
  countP_dst_periods numEbs peer hp k idx0

/-- Witness for C2: three builders, two rounds, starting at index 1000, builder 1. -/
theorem dst_round_robin_witness :
    (List.range' 1000 (2 * 3 * MAX_ENTRIES)).countP
      (fun idx => decide (dst 3 idx = 1)) = 2 * MAX_ENTRIES :=
  dst_round_robin 3 2 1000 1 (by decide)

/-- C2 (counterexample). With three builders, the 192 consecutive pulse IDs
starting at 4194240 (they straddle the point where the batch index wraps) send
nothing to builder 2, which the claim says receives 64. -/
theorem dst_round_robin_counterexample :
    (List.range' 4194240 (1 * 3 * MAX_ENTRIES)).countP
      (fun pid => decide (dst 3 (Batch.index pid) = 2)) ≠ 1 * MAX_ENTRIES := by
  decide

/-! ## The transition-flush scenario (C3) -/

/-- The batch post when the pending queue has room, whatever the link returns.
-/
theorem batch_post_room (E : Env) (s : TebContributor) (a b : EbDgram)
    (h : s.pending.length + 1 < E.pendingSize) :
    _post E s a b =
      { state := { s with eol := s.eol ++ [b], handed := s.handed ++ [(a, b)],
                          pending := s.pending ++ [a],
                          posts := s.posts ++ [batchPost E s a b],
                          batchCount :=
                            if E.post s.posts (batchPost E s a b) < 0 then s.batchCount
                            else (s.batchCount + 1) % 2 ^ 64 },
        result := .ok () } := by
  by_cases hrc : E.post s.posts (batchPost E s a b) < 0
  · rw [batch_post_failed E s a b h hrc, if_pos hrc]
  · rw [batch_post_done E s a b h hrc, if_neg hrc]

/-- An L1Accept does not flush when batching is enabled. -/
theorem flush_l1a (s : TebContributor) (d : EbDgram) (hb : s.prms.batching = true)
    (hsvc : d.service = TransitionId.L1Accept) : flush s d = false := by
  simp [flush, hb, hsvc]

/-- An L1Accept is not forwarded. -/
theorem forward_event (E : Env) (s : TebContributor) (d : EbDgram)
    (hsvc : d.service = TransitionId.L1Accept) :
    forward E s d = { state := s, result := .ok () } := by
  simp [forward, EbDgram.isEvent, hsvc]

/-- The extend case of `process`: an L1Accept that is not expired joins the
open batch. -/
theorem process_extend (E : Env) (s : TebContributor) (d st : EbDgram)
    (hc : d.readoutGroups &&& (1 <<< s.prms.partition) ≠ 0)
    (hs : s.batchStart = some st)
    (hexp : E.expired d.pulseId st.pulseId = false)
    (hb : s.prms.batching = true) (hsvc : d.service = TransitionId.L1Accept) :
    process E s d =
      { state := { s with batchEnd := some d, contractor := s.contractor ||| ctrBits s d },
        result := .ok () } := by
  have ho : openBatch s d = s := by simp [openBatch, hs]
  have hf : flush s d = false := flush_l1a s d hb hsvc
  simp [process, hc, common, ho, hs, hexp, hf, Outcome.andThen, forward_event E _ d hsvc]

/-- The extend case of `process` when no batch is open: the L1Accept opens
one. -/
theorem process_first (E : Env) (s : TebContributor) (d : EbDgram)
    (hc : d.readoutGroups &&& (1 <<< s.prms.partition) ≠ 0)
    (hs : s.batchStart = none)
    (hexp : E.expired d.pulseId d.pulseId = false)
    (hb : s.prms.batching = true) (hsvc : d.service = TransitionId.L1Accept) :
    process E s d =
      { state := { s with batchStart := some d, batchEnd := some d,
                          contractor := ctrBits s d },
        result := .ok () } := by
  have ho : openBatch s d = { s with batchStart := some d, contractor := ctrBits s d } := by
    simp [openBatch, hs]
  have hf : flush { s with batchStart := some d, contractor := ctrBits s d } d = false :=
    flush_l1a _ d hb hsvc
  simp [process, hc, common, ho, hexp, hf, Outcome.andThen, forward_event E _ d hsvc]
  simp [ctrBits]

/-- The run over the empty stream. -/
theorem run_nil (E : Env) (s : TebContributor) :
    run E s [] = { state := s, result := .ok () } := rfl

/-- The run over a stream with a first datagram. -/
theorem run_cons (E : Env) (s : TebContributor) (d : EbDgram) (ds : List EbDgram) :
    run E s (d :: ds) = (process E s d).andThen fun s1 => run E s1 ds := rfl

/-- The run over one datagram is `process`. -/
theorem run_singleton (E : Env) (s : TebContributor) (d : EbDgram) :
    run E s [d] = process E s d := by
  rw [run_cons]
  exact Outcome.andThen_pure _

/-- The run over two streams in a row. -/
theorem run_append (E : Env) (l1 l2 : List EbDgram) :
    ∀ s, run E s (l1 ++ l2) = (run E s l1).andThen fun s1 => run E s1 l2 := by
  induction l1 with
  | nil => intro s; rfl
  | cons d l1 ih =>
    intro s
    simp only [List.cons_append, run_cons, Outcome.andThen_assoc]
    congr 1
    funext s1
    exact ih s1

/-- A run of L1Accepts that are not expired relative to the open batch only
moves the batch end and the contractor mask. -/
theorem run_l1a (E : Env) (st : EbDgram) (l : List EbDgram) :
    ∀ s : TebContributor, s.batchStart = some st → s.prms.batching = true →
      (∀ d ∈ l, d.readoutGroups &&& (1 <<< s.prms.partition) ≠ 0 ∧
        d.service = TransitionId.L1Accept ∧ E.expired d.pulseId st.pulseId = false) →
      ∃ en c, run E s l =
        { state := { s with batchEnd := en, contractor := c }, result := .ok () } := by
  induction l with
  | nil =>
    intro s _ _ _
    exact ⟨s.batchEnd, s.contractor, rfl⟩
  | cons d l ih =>
    intro s hs hb hall
    obtain ⟨hc, hsvc, hexp⟩ := hall d (List.mem_cons_self d l)
    obtain ⟨en, c, hrun⟩ := ih
      { s with batchEnd := some d, contractor := s.contractor ||| ctrBits s d } hs hb
      (fun x hx => hall x (List.mem_cons_of_mem d hx))
    refine ⟨en, c, ?_⟩
    rw [run_cons, process_extend E s d st hc hs hexp hb hsvc, Outcome.andThen_ok, hrun]

/-- The flush block when the contractor mask is not zero and the pending queue
has room. -/
theorem flushBlock_room (E : Env) (s : TebContributor) (d st : EbDgram)
    (hs : s.batchStart = some st)
    (hctr : s.contractor ||| ctrBits s d ≠ 0)
    (hroom : s.pending.length + 1 < E.pendingSize) :
    flushBlock E s d =
      { state := { s with contractor := s.contractor ||| ctrBits s d,
                          eol := s.eol ++ [d],
                          handed := s.handed ++ [(st, d)],
                          pending := s.pending ++ [st],
                          posts := s.posts ++ [batchPost E s st d],
                          batchCount :=
                            if E.post s.posts (batchPost E s st d) < 0 then s.batchCount
                            else (s.batchCount + 1) % 2 ^ 64,
                          batchStart := none,
                          batchEnd := none },
        result := .ok () } := by
  have hp := batch_post_room E { s with contractor := s.contractor ||| ctrBits s d } st d hroom
  have e : s.batchStart.getD d = st := by simp [hs]
  unfold flushBlock
  simp only [e, hctr, ne_eq, not_false_eq_true, if_true, hp, Outcome.andThen_ok]
  rfl

/-- On the common path a datagram that flushes but is not expired goes to the
flush block. -/
theorem common_flush (E : Env) (s : TebContributor) (d st : EbDgram)
    (hs : s.batchStart = some st)
    (hexp : E.expired d.pulseId st.pulseId = false)
    (hfl : flush s d = true) :
    common E s d = flushBlock E s d := by
  have ho : openBatch s d = s := by simp [openBatch, hs]
  unfold common
  simp only [ho, hs, Option.getD_some, hexp, hfl, Bool.or_true, Bool.not_true,
    Bool.false_eq_true, if_false, if_true, Outcome.andThen_ok]

/-- Forwarding a transition without payload over at least two links. -/
theorem forward_post_ok (E : Env) (s : TebContributor) (d : EbDgram)
    (hl : 2 ≤ s.links.length) (hpay : d.payload = 0) :
    _postDgram E s d =
      { state := { s with posts := s.posts ++
                    (s.links.filter fun id =>
                      id ≠ dst s.numEbs (E.index d.pulseId % 2 ^ 32)).map (forwardPost E s d) },
        result := .ok () } := by
  have hl2 : ¬ s.links.length < 2 := by omega
  simp [_postDgram, hl2, hpay]

/-- A non-event datagram is forwarded when the contractor mask is not zero. -/
theorem forward_transition (E : Env) (s : TebContributor) (d : EbDgram)
    (hev : d.isEvent = false) (hctr : s.contractor ≠ 0) :
    forward E s d = _postDgram E s d := by
  simp [forward, hev, hctr]

/-- The flush case of `process` for a transition without payload: the open
batch is posted through the transition, which is then forwarded. -/
theorem process_flush (E : Env) (s : TebContributor) (d st : EbDgram)
    (hc : d.readoutGroups &&& (1 <<< s.prms.partition) ≠ 0)
    (hs : s.batchStart = some st)
    (hexp : E.expired d.pulseId st.pulseId = false)
    (hfl : flush s d = true) (hev : d.isEvent = false)
    (hctr : s.contractor ||| ctrBits s d ≠ 0)
    (hroom : s.pending.length + 1 < E.pendingSize)
    (hl : 2 ≤ s.links.length) (hpay : d.payload = 0) :
    process E s d =
      { state := { s with contractor := s.contractor ||| ctrBits s d,
                          eol := s.eol ++ [d],
                          handed := s.handed ++ [(st, d)],
                          pending := s.pending ++ [st],
                          posts := s.posts ++ [batchPost E s st d] ++
                            (s.links.filter fun id =>
                              id ≠ dst s.numEbs (E.index d.pulseId % 2 ^ 32)).map
                              (forwardPost E s d),
                          batchCount :=
                            if E.post s.posts (batchPost E s st d) < 0 then s.batchCount
                            else (s.batchCount + 1) % 2 ^ 64,
                          batchStart := none,
                          batchEnd := none },
        result := .ok () } := by
  unfold process
  simp only [hc, ne_eq, not_false_eq_true, if_true, common_flush E s d st hs hexp hfl,
    flushBlock_room E s d st hs hctr hroom, Outcome.andThen_ok]
  rw [forward_transition E _ d hev hctr]
  exact forward_post_ok E _ d hl hpay

/-- A bitwise OR with a non-zero mask is not zero. -/
theorem lor_ne_zero_right (a b : Nat) (h : b ≠ 0) : a ||| b ≠ 0 := by
  intro h0
  apply h
  apply Nat.eq_of_testBit_eq
  intro i
  have := congrArg (fun x => x.testBit i) h0
  simp only [Nat.testBit_or, Nat.zero_testBit, Bool.or_eq_false_iff] at this
  simp [this.2]

/-- In the documented expiry test no pulse ID from 100 to 111 is expired
relative to 100. -/
theorem expired_scenario (p : Nat) (h1 : 100 ≤ p) (h2 : p ≤ 111) :
    BatchManager.expired p 100 = false := by
  simp only [BatchManager.expired, BATCH_DURATION, MAX_ENTRIES, Bool.or_eq_false_iff,
    decide_eq_false_iff_not]
  omega

/-- Among the forwards to the links 0..n-1 except the selected one, each other
link occurs once and the selected one never. -/
theorem countP_forward (E : Env) (s : TebContributor) (d : EbDgram) (n sel l : Nat)
    (hl : l < n) :
    (((List.range n).filter (fun id => id ≠ sel)).map (forwardPost E s d)).countP
      (fun p => p.link == l) = if l = sel then 0 else 1 := by
  rw [List.countP_map, List.countP_filter]
  by_cases h : l = sel
  · rw [if_pos h, List.countP_eq_zero]
    intro a _
    simp [forwardPost, h]
  · rw [if_neg h]
    have hc : (List.range n).countP
        (fun a => ((fun p : LinkPost => p.link == l) ∘ forwardPost E s d) a &&
          decide (a ≠ sel)) = (List.range n).count l := by
      rw [List.count, List.countP_congr]
      intro a _
      simp only [Function.comp, forwardPost, ne_eq, decide_not, Bool.and_eq_true, beq_iff_eq,
        Bool.not_eq_true', decide_eq_false_iff_not]
      constructor
      · intro h1; exact h1.1
      · intro h1; exact ⟨h1, by rw [h1]; exact h⟩
    rw [hc]
    exact List.count_eq_one_of_mem (List.nodup_range n) (List.mem_range.mpr hl)

/-- A forwarded transition is tagged `Transition | NoResponse`. -/
theorem flg_forwardPost (E : Env) (s : TebContributor) (d : EbDgram) (l : Nat) :
    ImmData.flg (forwardPost E s d l).data = ImmData.Transition ||| ImmData.NoResponse := by
  simp only [forwardPost, ImmData.flg, ImmData.value, ImmData.Transition, ImmData.NoResponse]
  have h1 : (2 ||| 8 : Nat) = 10 := by decide
  rw [h1]
  omega

/-- C3 (as amended). Transition flush: L1Accepts at the pulse IDs 100..110 and
then a Disable without payload at pulse ID 111 (common readout group set in
every datagram, contractor bits of the Disable not zero, batching enabled,
`n ≥ 2` builders with links 0..n-1, room in the pending queue; none of the
pulse IDs expired relative to 100, and 100 and 111 selecting the same builder)
are posted as one batch: the only batch handed to `_post` starts at the
datagram 100 and ends at the Disable, which is the only datagram marked
end-of-list; it goes to the selected builder, and after it exactly one copy of
the Disable tagged `Transition | NoResponse` goes to every other builder and
none to the selected one. -/
theorem transition_flush_scenario (E : Env) (s0 : TebContributor) (n : Nat)
    (ds : Nat → EbDgram)
    (hn : 2 ≤ n) (hlinks : s0.links = List.range n) (hebs : s0.numEbs = n)
    (hb : s0.prms.batching = true)
    (hroom : s0.pending.length + 1 < E.pendingSize)
    (hexp : ∀ p, 100 ≤ p → p ≤ 111 → E.expired p 100 = false)
    (hsel : dst n (E.index 111 % 2 ^ 32) = dst n (E.index 100 % 2 ^ 32))
    (hpid : ∀ p, (ds p).pulseId = p)
    (hl1a : ∀ p, p ≤ 110 → (ds p).service = TransitionId.L1Accept)
    (hdis : (ds 111).service = TransitionId.Disable)
    (hpay : (ds 111).payload = 0)
    (hrog : ∀ p, (ds p).readoutGroups &&& (1 <<< s0.prms.partition) ≠ 0)
    (hctr : (ds 111).readoutGroups &&& s0.prms.contractor ≠ 0) :
    (run E (startup s0) (flushScenario ds)).result = .ok () ∧
    (run E (startup s0) (flushScenario ds)).state.handed = s0.handed ++ [(ds 100, ds 111)] ∧
    (run E (startup s0) (flushScenario ds)).state.eol = s0.eol ++ [ds 111] ∧
    (run E (startup s0) (flushScenario ds)).state.posts =
      s0.posts ++ [batchPost E s0 (ds 100) (ds 111)] ++
        ((List.range n).filter (fun l => l ≠ dst n (E.index 100 % 2 ^ 32))).map
          (forwardPost E s0 (ds 111)) ∧
    (batchPost E s0 (ds 100) (ds 111)).link = dst n (E.index 100 % 2 ^ 32) ∧
    (∀ l, l < n →
      (((List.range n).filter (fun l => l ≠ dst n (E.index 100 % 2 ^ 32))).map
        (forwardPost E s0 (ds 111))).countP (fun p => p.link == l) =
          if l = dst n (E.index 100 % 2 ^ 32) then 0 else 1) ∧
    (∀ l, ImmData.flg (forwardPost E s0 (ds 111) l).data =
      ImmData.Transition ||| ImmData.NoResponse) := by
  have hfirst := process_first E (startup s0) (ds 100)
    (hrog 100) rfl (by rw [hpid]; exact hexp 100 (by omega) (by omega)) hb
    (hl1a 100 (by omega))
  obtain ⟨en, c, hrest⟩ := run_l1a E (ds 100)
    ((List.range 10).map fun i => ds (100 + (i + 1)))
    { startup s0 with batchStart := some (ds 100), batchEnd := some (ds 100),
                      contractor := ctrBits (startup s0) (ds 100) }
    rfl hb (by
      intro d hd
      obtain ⟨i, hi, rfl⟩ := List.mem_map.mp hd
      rw [List.mem_range] at hi
      refine ⟨hrog _, hl1a _ (by omega), ?_⟩
      rw [hpid, hpid]
      exact hexp _ (by omega) (by omega))
  have hlen : 2 ≤ (List.range n).length := by rw [List.length_range]; exact hn
  have hflush := process_flush E
    { startup s0 with batchStart := some (ds 100), batchEnd := en, contractor := c }
    (ds 111) (ds 100) (hrog 111) rfl
    (by rw [hpid, hpid]; exact hexp 111 (by omega) (by omega))
    (by simp [flush, hdis]) (by simp [EbDgram.isEvent, hdis])
    (lor_ne_zero_right _ _ hctr) hroom (show 2 ≤ s0.links.length by rw [hlinks]; exact hlen)
    hpay
  have hrun : run E (startup s0) (flushScenario ds) =
      process E
        { startup s0 with batchStart := some (ds 100), batchEnd := en, contractor := c }
        (ds 111) := by
    rw [flushScenario, List.range_succ_eq_map, List.map_cons, List.map_map, List.cons_append,
      run_cons, hfirst, Outcome.andThen_ok, run_append]
    rw [show ((fun i => ds (100 + i)) ∘ Nat.succ) = fun i => ds (100 + (i + 1)) from rfl,
      hrest, Outcome.andThen_ok, run_singleton]
  rw [hrun, hflush]
  refine ⟨rfl, rfl, rfl, ?_, ?_, ?_, ?_⟩
  · show s0.posts ++ _ ++ List.map _ (List.filter _ s0.links) = _
    rw [hlinks]
    show _ ++ List.map _ (List.filter
      (fun id => decide (id ≠ dst s0.numEbs (E.index (ds 111).pulseId % 2 ^ 32)))
      (List.range n)) = _
    rw [hebs, hpid, hsel]
    rfl
  · show dst s0.numEbs (E.index (ds 100).pulseId % 2 ^ 32) = _
    rw [hpid, hebs]
  · intro l hl
    exact countP_forward E s0 (ds 111) n _ l hl
  · intro l
    exact flg_forwardPost E s0 (ds 111) l

/-- Witness for C3: two builders, contributor 5, the example datagrams, and
the batch index and expiry test of the spec. -/
theorem transition_flush_scenario_witness :
    (run scenarioEnv (startup scenarioState) (flushScenario scenarioDgram)).state.handed =
      [(scenarioDgram 100, scenarioDgram 111)] :=
  (transition_flush_scenario scenarioEnv scenarioState 2 scenarioDgram
    (by decide) (by decide) rfl rfl (by decide) expired_scenario (by decide) (fun _ => rfl)
    (fun p hp => by simp [scenarioDgram, hp]) (by decide) rfl
    (fun _ => (by decide : (1 &&& 1 <<< 0 : Nat) ≠ 0)) (by decide)).2.1

/-- C3 (counterexample). In the example run no batch from pulse ID 100 to 110
is handed to `_post`: the only batch runs from 100 to the Disable at 111, and
the link posts are that batch (12 datagrams of 64 bytes, starting at pulse ID
100) and one copy of the Disable (a datagram header of 32 bytes). -/
theorem transition_flush_counterexample :
    (scenarioDgram 100, scenarioDgram 110) ∉
      (run scenarioEnv (startup scenarioState) (flushScenario scenarioDgram)).state.handed ∧
    (run scenarioEnv (startup scenarioState) (flushScenario scenarioDgram)).state.handed =
      [(scenarioDgram 100, scenarioDgram 111)] ∧
    (run scenarioEnv (startup scenarioState) (flushScenario scenarioDgram)).state.posts.map
      (fun p => (p.buffer.pulseId, p.size)) = [(100, 768), (111, 32)] := by
  decide

/-! ## Bypass of the builders (C4) -/

/-- The bypass path when the pending queue has room for two entries. -/
theorem bypass_fields (E : Env) (s : TebContributor) (d : EbDgram)
    (hroom : s.pending.length + 2 < E.pendingSize) :
    (bypass E s d).result = .ok () ∧
    (bypass E s d).state.handed = s.handed ++ openBatchOf s ∧
    (bypass E s d).state.eol = s.eol ++ (openBatchOf s).map Prod.snd ++ [d] ∧
    (bypass E s d).state.pending = s.pending ++ (openBatchOf s).map Prod.fst ++ [d] ∧
    (bypass E s d).state.batchStart = none ∧
    (bypass E s d).state.batchEnd = none := by
  have hlt1 : s.pending.length + 1 < E.pendingSize := by omega
  have hlt2 : s.pending.length + 1 + 1 < E.pendingSize := by omega
  unfold bypass openBatchOf
  rcases s.batchStart with _ | st
  · simp [Outcome.andThen_ok, pendingPush_ok, hlt1]
  · by_cases hctr : s.contractor = 0
    · simp [hctr, Outcome.andThen_ok, pendingPush_ok, hlt1]
    · simp [hctr, Outcome.andThen_ok, pendingPush_ok, batch_post_room, hlt1, hlt2]

/-- The last block of `process` for an event or a datagram without payload
returns normally and touches only the log of posts. -/
theorem forward_fields (E : Env) (s : TebContributor) (d : EbDgram)
    (hpay : d.isEvent = true ∨ d.payload = 0) :
    (forward E s d).result = .ok () ∧
    (forward E s d).state.handed = s.handed ∧
    (forward E s d).state.eol = s.eol ∧
    (forward E s d).state.pending = s.pending ∧
    (forward E s d).state.batchStart = s.batchStart ∧
    (forward E s d).state.batchEnd = s.batchEnd := by
  unfold forward
  rcases hev : d.isEvent with _ | _
  · have hp : d.payload = 0 := by
      rcases hpay with h | h
      · rw [hev] at h; cases h
      · exact h
    by_cases hctr : s.contractor = 0
    · simp [hctr]
    · by_cases hl : s.links.length < 2
      · simp [hctr, _postDgram, hl]
      · simp [hctr, _postDgram, hl, hp]
  · simp

/-- C4 (as amended). Bypass: for every contributor state and every
contribution whose readout groups do not contain the common group, provided
the pending queue has room for two more entries and the contribution is an
event or has no payload, `process` returns normally, hands to `_post` only the
batch that was open (none if no batch was open or the contractor mask was
zero), marks the contribution end-of-list, enqueues it on the pending queue
behind that batch, and leaves `batchStart` and `batchEnd` null. -/
theorem process_bypass (E : Env) (s : TebContributor) (d : EbDgram)
    (hc : d.readoutGroups &&& (1 <<< s.prms.partition) = 0)
    (hroom : s.pending.length + 2 < E.pendingSize)
    (hpay : d.isEvent = true ∨ d.payload = 0) :
    (process E s d).result = .ok () ∧
    (process E s d).state.handed = s.handed ++ openBatchOf s ∧
    (process E s d).state.eol = s.eol ++ (openBatchOf s).map Prod.snd ++ [d] ∧
    (process E s d).state.pending = s.pending ++ (openBatchOf s).map Prod.fst ++ [d] ∧
    (process E s d).state.batchStart = none ∧
    (process E s d).state.batchEnd = none ∧
    ((s.batchStart = none ∨ s.contractor = 0) → openBatchOf s = []) := by
  obtain ⟨b1, b2, b3, b4, b5, b6⟩ := bypass_fields E s d hroom
  have hne : ¬ (d.readoutGroups &&& (1 <<< s.prms.partition) ≠ 0) := by simp [hc]
  unfold process
  simp only [hne, if_false]
  rw [Outcome.andThen_of_ok _ _ b1]
  obtain ⟨h1, h2, h3, h4, h5, h6⟩ := forward_fields E (bypass E s d).state d hpay
  rw [b2] at h2
  rw [b3] at h3
  rw [b4] at h4
  rw [b5] at h5
  rw [b6] at h6
  refine ⟨h1, h2, h3, h4, h5, h6, ?_⟩
  rintro (h | h)
  · simp [openBatchOf, h]
  · unfold openBatchOf
    cases s.batchStart <;> simp [h]

/-- Witness for C4: the example contributor with the batch 100..101 open and
the L1Accept of readout group 1 at pulse ID 102. -/
theorem process_bypass_witness :
    (process scenarioEnv openState bypassDgram).state.handed =
      [(scenarioDgram 100, scenarioDgram 101)] ∧
    (process scenarioEnv openState bypassDgram).state.pending =
      [scenarioDgram 100, bypassDgram] :=
  ⟨(process_bypass scenarioEnv openState bypassDgram (by decide) (by decide)
      (Or.inl rfl)).2.1,
   (process_bypass scenarioEnv openState bypassDgram (by decide) (by decide)
      (Or.inl rfl)).2.2.2.1⟩

/-- C4 (counterexample). With the batch 100..101 open and a contractor mask
that is not zero, a contribution without the common readout group makes
`process` post a batch: the open batch goes to builder 0. -/
theorem process_bypass_counterexample :
    bypassDgram.readoutGroups &&& (1 <<< openState.prms.partition) = 0 ∧
    (process scenarioEnv openState bypassDgram).state.posts =
      [batchPost scenarioEnv openState (scenarioDgram 100) (scenarioDgram 101)] ∧
    (process scenarioEnv openState bypassDgram).state.posts ≠ openState.posts := by
  decide

/-! ## Offsets, link results, overflow and replay (C5 to C8) -/

/-- C5 (the code at the failing input). With contributions of at most
128 KiB, the batch that starts at pulse ID 2097152 has batch index 32768; the
exact product of index and size is 4294967296, but the offset `_post` hands to
the link, an `unsigned`, is 0. The immediate word still carries the flags
`Buffer | Response`, the contributor's id and the index. -/
theorem batchPost_offset_truncated :
    Batch.index bigDgram.pulseId = 32768 ∧
    Batch.index bigDgram.pulseId * bigState.prms.maxInputSize = 4294967296 ∧
    (batchPost scenarioEnv bigState bigDgram bigDgram).offset = 0 ∧
    ImmData.flg (batchPost scenarioEnv bigState bigDgram bigDgram).data =
      ImmData.Buffer ||| ImmData.Response ∧
    ImmData.src (batchPost scenarioEnv bigState bigDgram bigDgram).data = bigState.id ∧
    ImmData.idx (batchPost scenarioEnv bigState bigDgram bigDgram).data = 32768 := by
  decide

/-- C6. When the pending queue has room (so that `_post(start, end)` reaches
the link post) and the batch counter is below the maximum of its 64 bits,
`_post` returns without raising and leaves the start datagram at the tail of
the pending queue; if the link post returns a negative code the batch count is
unchanged, and if it succeeds the batch count grows by exactly one. -/
theorem batch_post_link_result (E : Env) (s : TebContributor) (start end_ : EbDgram)
    (hroom : s.pending.length + 1 < E.pendingSize) (hcnt : s.batchCount + 1 < 2 ^ 64) :
    (_post E s start end_).result = .ok () ∧
    (_post E s start end_).state.pending = s.pending ++ [start] ∧
    (_post E s start end_).state.posts = s.posts ++ [batchPost E s start end_] ∧
    (E.post s.posts (batchPost E s start end_) < 0 →
      (_post E s start end_).state.batchCount = s.batchCount) ∧
    (0 ≤ E.post s.posts (batchPost E s start end_) →
      (_post E s start end_).state.batchCount = s.batchCount + 1) := by
  rw [batch_post_room E s start end_ hroom]
  refine ⟨rfl, rfl, rfl, ?_, ?_⟩
  · intro h
    simp [h]
  · intro h
    have h2 : ¬ E.post s.posts (batchPost E s start end_) < 0 := by omega
    simp only [h2, if_false]
    exact Nat.mod_eq_of_lt hcnt

/-- Witness for C6: the example contributor posts the batch 100..101 on links
that accept it. -/
theorem batch_post_link_result_witness :
    (_post scenarioEnv scenarioState (scenarioDgram 100) (scenarioDgram 101)).state.batchCount
      = 1 ∧
    (_post scenarioEnv scenarioState (scenarioDgram 100) (scenarioDgram 101)).state.pending
      = [scenarioDgram 100] :=
  ⟨(batch_post_link_result scenarioEnv scenarioState (scenarioDgram 100) (scenarioDgram 101)
      (by decide) (by decide)).2.2.2.2 (by decide),
   (batch_post_link_result scenarioEnv scenarioState (scenarioDgram 100) (scenarioDgram 101)
      (by decide) (by decide)).2.1⟩

/-- C7 (as amended). A push onto the pending queue raises the `_pending
overflow` error if and only if the number of queued entries after the push is
not below the capacity of the queue, in `process` (through the statements that
follow its push) as in `_post(start, end)`; a push that leaves the number of
entries strictly below the capacity does not raise. -/
theorem pending_overflow_iff (E : Env) (fn : String) (s : TebContributor)
    (dg start end_ : EbDgram) :
    ((pendingPush E fn s dg).result = .error (fn ++ ": _pending overflow") ↔
      E.pendingSize ≤ (pendingPush E fn s dg).state.pending.length) ∧
    ((pendingPush E fn s dg).result = .ok () ↔
      (pendingPush E fn s dg).state.pending.length < E.pendingSize) ∧
    (pendingPush E fn s dg).state.pending = s.pending ++ [dg] ∧
    ((_post E s start end_).raised = true ↔ E.pendingSize ≤ s.pending.length + 1) := by
  by_cases h : s.pending.length + 1 < E.pendingSize
  · rw [pendingPush_ok E fn s dg h, batch_post_room E s start end_ h]
    simp [Outcome.raised]
    omega
  · rw [pendingPush_error E fn s dg (by omega), batch_post_error E s start end_ (by omega)]
    simp [Outcome.raised]
    omega

/-- C7 (counterexample). With a pending queue of capacity 4 that holds three
entries, a push leaves four entries, which is not above the capacity, and yet
the `_pending overflow` error is raised. -/
theorem pending_overflow_counterexample :
    (pendingPush smallEnv processFn fullState bypassDgram).state.pending.length
      ≤ smallEnv.pendingSize ∧
    (pendingPush smallEnv processFn fullState bypassDgram).raised = true ∧
    (process smallEnv fullState bypassDgram).raised = true := by
  decide

/-- C8 (the code at the failing input). Two runs over the same one-datagram
stream, a Disable without the common readout group, both begun right after
`startup()` from states that differ only in the contractor mask left over from
before: the run from the stale mask forwards the transition to builder 1, the
other forwards nothing. -/
theorem replay_differs :
    (startup staleState).contractor = 1 ∧ (startup scenarioState).contractor = 0 ∧
    (run scenarioEnv (startup scenarioState) [bypassDisable]).state.posts = [] ∧
    (run scenarioEnv (startup staleState) [bypassDisable]).state.posts =
      [forwardPost scenarioEnv staleState bypassDisable 1] := by
  decide

end TebContributor

namespace MebContributor

/-! ## Posts to the monitors (C9, C10) -/

/-- The event post of a datagram that is too big raises before the link post.
-/
theorem post_too_big (E : Env) (s : MebContributor) (ddg : EbDgram) (destination : Nat)
    (h : s.maxEvSize < E.sizeofDgram + ddg.payload) :
    post E s ddg destination =
      { state := { s with eol := s.eol ++ [ddg] },
        result := .error "L1Accept too big for target buffer" } := by
  simp [post, h]

/-- The event post of a datagram from another source raises before the link
post. -/
theorem post_mismatch (E : Env) (s : MebContributor) (ddg : EbDgram) (destination : Nat)
    (h : ¬ s.maxEvSize < E.sizeofDgram + ddg.payload) (hsrc : ddg.src ≠ s.id) :
    post E s ddg destination =
      { state := { s with eol := s.eol ++ [ddg] },
        result := .error "L1Accept source ID mismatch" } := by
  simp [post, h, hsrc]

/-- The event post of a datagram that fits and comes from this source does not
raise. -/
theorem post_accepted (E : Env) (s : MebContributor) (ddg : EbDgram) (destination : Nat)
    (h : ¬ s.maxEvSize < E.sizeofDgram + ddg.payload) (hsrc : ddg.src = s.id) :
    (post E s ddg destination).raised = false := by
  unfold post
  simp only [gt_iff_lt, h, if_false, hsrc, ne_eq, not_true_eq_false]
  split <;> rfl

/-- C9. The method `post(ddg, destination)` raises if and only if the size of
the datagram, header plus payload, exceeds the maximum event size `_maxEvSize`
of the contributor or the source id of the datagram differs from the id of the
contributor; a datagram of exactly the maximum size with a matching source is
accepted, one of the maximum size plus one is rejected, and whenever `post`
raises no link post has been made and the event count is unchanged. -/
theorem post_raises_iff (E : Env) (s : MebContributor) (ddg : EbDgram) (destination : Nat) :
    ((post E s ddg destination).raised = true ↔
      (s.maxEvSize < E.sizeofDgram + ddg.payload ∨ ddg.src ≠ s.id)) ∧
    ((post E s ddg destination).raised = true →
      (post E s ddg destination).state.posts = s.posts ∧
      (post E s ddg destination).state.eventCount = s.eventCount) ∧
    (E.sizeofDgram + ddg.payload = s.maxEvSize → ddg.src = s.id →
      (post E s ddg destination).raised = false) ∧
    (E.sizeofDgram + ddg.payload = s.maxEvSize + 1 →
      (post E s ddg destination).raised = true) := by
  by_cases h : s.maxEvSize < E.sizeofDgram + ddg.payload
  · rw [post_too_big E s ddg destination h]
    simp [Outcome.raised, h]
    omega
  · by_cases hsrc : ddg.src = s.id
    · have ha := post_accepted E s ddg destination h hsrc
      rw [ha]
      simp [h, hsrc]
      omega
    · rw [post_mismatch E s ddg destination h hsrc]
      simp [Outcome.raised, h, hsrc]

/-- C10 (the code at the failing input). On links whose posts fail with -1,
both overloads of `post` return 1, not a value below zero; the event overload
leaves the event count unchanged. On links whose posts succeed the event
overload returns 0 and the event count grows by one. -/
theorem post_transport_failure_returns_one :
    (post failEnv mebState (scenarioDgram 100) mebDestination).result = .ok 1 ∧
    (postTr failEnv mebState (scenarioDgram 111)).result = .ok 1 ∧
    (post failEnv mebState (scenarioDgram 100) mebDestination).state.eventCount =
      mebState.eventCount ∧
    (post scenarioEnv mebState (scenarioDgram 100) mebDestination).result = .ok 0 ∧
    (post scenarioEnv mebState (scenarioDgram 100) mebDestination).state.eventCount =
      mebState.eventCount + 1 :=
  ⟨rfl, rfl, rfl, rfl, rfl⟩

end MebContributor

end Eb
end Pds
namespace Pds
namespace Eb

/-! ## The environment word (C13, C14) -/

/-- The bits of the mask `0xff00ffff`: all of the low 32 except 16..23. -/
theorem testBit_envMask (i : Nat) :
    (0xff00ffff : Nat).testBit i = (decide (i < 16) || (decide (24 ≤ i) && decide (i < 32))) := by
  by_cases h : i < 32
  · interval_cases i <;> decide
  · have h1 : (0xff00ffff : Nat) < 2 ^ i :=
      Nat.lt_of_lt_of_le (by decide : (0xff00ffff : Nat) < 2 ^ 32)
        (Nat.pow_le_pow_right (by decide) (by omega))
    rw [Nat.testBit_lt_two_pow h1]
    have h2 : ¬ i < 16 := by omega
    simp [h, h2]

/-- The bits of the index field that `Meb::process` ORs into the word. -/
theorem testBit_indexField (idx i : Nat) :
    ((idx <<< 16) % 2 ^ 32).testBit i =
      (decide (i < 32) && (decide (16 ≤ i) && idx.testBit (i - 16))) := by
  rw [Nat.testBit_mod_two_pow, Nat.testBit_shiftLeft]

/-- An index of at most 255 has no bit at position 8 or above. -/
theorem testBit_small_index (idx j : Nat) (h : idx ≤ 255) (hj : 8 ≤ j) :
    idx.testBit j = false :=
  Nat.testBit_lt_two_pow
    (Nat.lt_of_lt_of_le (by omega : idx < 2 ^ 8) (Nat.pow_le_pow_right (by decide) hj))

/-- The bits of the word that `Meb::process` writes. -/
theorem testBit_envUpdate (env idx i : Nat) :
    (Meb.envUpdate env idx).testBit i =
      ((env.testBit i && (decide (i < 16) || (decide (24 ≤ i) && decide (i < 32)))) ||
        (decide (i < 32) && (decide (16 ≤ i) && idx.testBit (i - 16)))) := by
  unfold Meb.envUpdate
  rw [Nat.testBit_or, Nat.testBit_and, testBit_envMask, testBit_indexField]

/-- C13. Environment-word round trip: for every env word and every buffer
index `idx ≤ 255`, the index that `_deleteDatagram` recovers,
`(env' >> 16) & 0xff`, from the word `env' = (env & 0xff00ffff) | (idx << 16)`
written by `Meb::process` is `idx`. -/
theorem env_index_round_trip (env idx : Nat) (h : idx ≤ 255) :
    MyXtcMonitorServer.deleteIndex (Meb.envUpdate env idx) = idx := by
  apply Nat.eq_of_testBit_eq
  intro j
  unfold MyXtcMonitorServer.deleteIndex
  rw [Nat.testBit_and, Nat.testBit_shiftRight, testBit_envUpdate,
    show (0xff : Nat) = 2 ^ 8 - 1 from rfl, Nat.testBit_two_pow_sub_one]
  by_cases hj : j < 8
  · have h1 : ¬ 16 + j < 16 := by omega
    have h2 : ¬ 24 ≤ 16 + j := by omega
    have h3 : 16 + j < 32 := by omega
    have h4 : 16 ≤ 16 + j := by omega
    simp [hj, h1, h2, h3, h4]
  · rw [testBit_small_index idx j h (by omega)]
    simp [hj]

/-- Witness for C13: the word 0xdeadbeef and the index 255. -/
theorem env_index_round_trip_witness :
    MyXtcMonitorServer.deleteIndex (Meb.envUpdate 0xdeadbeef 255) = 255 :=
  env_index_round_trip 0xdeadbeef 255 (by decide)

/-- C14 (as amended). For every env word and every buffer index `idx ≤ 255`
(the range that the check of the number of event buffers leaves), the env
update in `Meb::process` changes only bits 16..23: bits 0..15 and bits 24..31
of the word are the same after the update as before. -/
theorem env_update_frame (env idx i : Nat) (h : idx ≤ 255)
    (hi : i < 16 ∨ (24 ≤ i ∧ i < 32)) :
    (Meb.envUpdate env idx).testBit i = env.testBit i := by
  rw [testBit_envUpdate]
  rcases hi with hi | ⟨h1, h2⟩
  · have h3 : ¬ 16 ≤ i := by omega
    simp [hi, h3]
  · rw [testBit_small_index idx (i - 16) h (by omega)]
    have h3 : ¬ i < 16 := by omega
    simp [h1, h2, h3]

/-- Witness for C14: bit 24 of the word 0xdeadbeef under the index 255. -/
theorem env_update_frame_witness :
    (Meb.envUpdate 0xdeadbeef 255).testBit 24 = (0xdeadbeef : Nat).testBit 24 :=
  env_update_frame 0xdeadbeef 255 24 (by decide) (Or.inr ⟨by decide, by decide⟩)

/-- C14 (counterexample). The index 256, which `ImmData::idx` yields from the
parameter `{Buffer, 0, 256}`, changes bit 24 of the env word 0. -/
theorem env_update_frame_counterexample :
    ImmData.idx (ImmData.value ImmData.Buffer 0 256) = 256 ∧
    (Meb.envUpdate 0 (ImmData.idx (ImmData.value ImmData.Buffer 0 256))).testBit 24 = true ∧
    (0 : Nat).testBit 24 = false := by
  decide

end Eb
end Pds
namespace Pds
namespace Eb
namespace MyXtcMonitorServer

/-! ## The free list of the monitor server (C15, C16, C17) -/

/-- The scan of `_deleteDatagram` finds the index exactly when it is queued. -/
theorem isFree_iff (f : FifoMT) (idx : Nat) : isFree f idx = true ↔ idx ∈ f.items := by
  unfold isFree FifoMT.count FifoMT.peek
  rw [List.any_eq_true]
  constructor
  · rintro ⟨i, hi, he⟩
    rw [List.mem_range] at hi
    rw [beq_iff_eq] at he
    rw [he, List.getD_eq_getElem _ _ hi]
    exact List.getElem_mem hi
  · intro h
    obtain ⟨i, hi, he⟩ := List.getElem_of_mem h
    refine ⟨i, List.mem_range.mpr hi, ?_⟩
    rw [beq_iff_eq, List.getD_eq_getElem _ _ hi, he]

/-- The release of an index that is already free changes nothing. -/
theorem deleteDatagram_free (s : MyXtcMonitorServer) (env : Nat)
    (h : deleteIndex env ∈ s.bufFreeList.items) : _deleteDatagram s env = s := by
  unfold _deleteDatagram
  simp [(isFree_iff s.bufFreeList (deleteIndex env)).mpr h]

/-- The free list after the release of an index that is not free. -/
theorem deleteDatagram_items (s : MyXtcMonitorServer) (env : Nat)
    (h : deleteIndex env ∉ s.bufFreeList.items) :
    (_deleteDatagram s env).bufFreeList.items =
      if s.bufFreeList.items.length < s.bufFreeList.cap
      then s.bufFreeList.items ++ [deleteIndex env] else s.bufFreeList.items := by
  have hf : isFree s.bufFreeList (deleteIndex env) = false := by
    rw [← Bool.not_eq_true, isFree_iff]; exact h
  unfold _deleteDatagram FifoMT.push
  simp only [hf, Bool.false_eq_true, if_false]
  split <;> rfl

/-- C15. Double free: for every free-list state and every released datagram
whose env-encoded buffer index is already in the free list, `_deleteDatagram`
leaves the server, and so the free list with its entries, order and count, as
it was (the method throws nothing); if the index is absent and the list is not
full, the index is appended and the count grows by exactly one. -/
theorem deleteDatagram_double_free (s : MyXtcMonitorServer) (env : Nat) :
    (deleteIndex env ∈ s.bufFreeList.items → _deleteDatagram s env = s) ∧
    (deleteIndex env ∉ s.bufFreeList.items →
      s.bufFreeList.count < s.bufFreeList.size →
        (_deleteDatagram s env).bufFreeList.items =
          s.bufFreeList.items ++ [deleteIndex env] ∧
        (_deleteDatagram s env).bufFreeList.count = s.bufFreeList.count + 1) := by
  refine ⟨deleteDatagram_free s env, ?_⟩
  intro h hc
  have hi := deleteDatagram_items s env h
  unfold FifoMT.count FifoMT.size at hc
  rw [if_pos hc] at hi
  refine ⟨hi, ?_⟩
  unfold FifoMT.count
  rw [hi, List.length_append, List.length_singleton]

/-- The round-robin loop leaves the free list alone. -/
theorem requestLoop_bufFreeList (lnk : List MrqPost → MrqPost → Int) (data n : Nat) :
    ∀ s : MyXtcMonitorServer, (requestLoop lnk data n s).bufFreeList = s.bufFreeList := by
  induction n with
  | zero => intro s; rfl
  | succ n ih =>
    intro s
    unfold requestLoop
    simp only
    split
    · rfl
    · rw [ih]

/-- A request takes the oldest entry, if any, off the free list. -/
theorem requestDatagram_items (lnk : List MrqPost → MrqPost → Int) (s : MyXtcMonitorServer) :
    (_requestDatagram lnk s).bufFreeList.items = s.bufFreeList.items.tail := by
  unfold _requestDatagram FifoMT.pop
  rcases h : s.bufFreeList.items with _ | ⟨x, xs⟩
  · simp [h]
  · simp [requestLoop_bufFreeList]

/-- A request without credit changes nothing. -/
theorem requestDatagram_empty (lnk : List MrqPost → MrqPost → Int) (s : MyXtcMonitorServer)
    (h : s.bufFreeList.items = []) : _requestDatagram lnk s = s := by
  unfold _requestDatagram FifoMT.pop
  simp [h]

/-- The pushes of `configure` all succeed when the queue has room for them. -/
theorem pushAll_room (l : List Nat) :
    ∀ f : FifoMT, f.items.length + l.length ≤ f.cap →
      pushAll f l = (false, { f with items := f.items ++ l }) := by
  induction l with
  | nil => intro f _; simp [pushAll]
  | cons i is ih =>
    intro f h
    rw [List.length_cons] at h
    have h1 : f.items.length < f.cap := by omega
    have hp : f.push i = (false, { f with items := f.items ++ [i] }) := by
      simp [FifoMT.push, h1]
    unfold pushAll
    rw [hp]
    simp only [Bool.false_eq_true, if_false]
    rw [ih _ (by simp only [List.length_append, List.length_singleton]; omega)]
    simp

/-- The method `configure` on a fresh server whose links connect: the free
list holds the indices in order. -/
theorem configure_fresh (prms : MebParams) (links : List Nat) :
    configure prms (.ok links) (new prms) =
      (0, { sizeofBuffers := prms.maxBufferSize, iTeb := 0, mrqLinks := links,
            bufFreeList := { cap := prms.numEvBuffers,
                             items := List.range prms.numEvBuffers },
            id := prms.id, posts := [] }) := by
  have h := pushAll_room (List.range prms.numEvBuffers)
    { cap := prms.numEvBuffers, items := [] } (by simp)
  simp [configure, new, FifoMT.size, h]

/-- A request with credit on links that accept every post: the oldest index
is posted on the link under the cursor, and the cursor moves on by one, round
robin. -/
theorem requestDatagram_credit (lnk : List MrqPost → MrqPost → Int) (s : MyXtcMonitorServer)
    (idx : Nat) (rest : List Nat)
    (hlnk : ∀ h p, lnk h p = 0) (hitems : s.bufFreeList.items = idx :: rest)
    (hi : s.iTeb < s.mrqLinks.length) (hL : s.mrqLinks.length < 2 ^ 32) :
    _requestDatagram lnk s =
      { s with bufFreeList := { s.bufFreeList with items := rest },
               iTeb := (s.iTeb + 1) % s.mrqLinks.length,
               posts := s.posts ++
                 [{ link := s.iTeb, data := ImmData.value ImmData.Buffer s.id idx }] } := by
  obtain ⟨n, hn⟩ : ∃ n, s.mrqLinks.length = n + 1 := ⟨s.mrqLinks.length - 1, by omega⟩
  have hmod : (s.iTeb + 1) % 2 ^ 32 = s.iTeb + 1 := Nat.mod_eq_of_lt (by omega)
  have hnext : (if s.iTeb + 1 = n + 1 then 0 else s.iTeb + 1) = (s.iTeb + 1) % (n + 1) := by
    by_cases h : s.iTeb + 1 = n + 1
    · rw [if_pos h, h, Nat.mod_self]
    · rw [if_neg h, Nat.mod_eq_of_lt (by omega)]
  unfold _requestDatagram FifoMT.pop
  simp only [hitems, hn]
  unfold requestLoop
  simp only [hlnk, if_true, hmod, hn, hnext]

/-- The state after `k` requests on a freshly configured server, while credit
lasts. -/
theorem requests_credit (lnk : List MrqPost → MrqPost → Int) (prms : MebParams)
    (links : List Nat) (hlnk : ∀ h p, lnk h p = 0)
    (hL : 1 ≤ links.length) (hL2 : links.length < 2 ^ 32) :
    ∀ k, k ≤ prms.numEvBuffers →
      requests lnk (configure prms (.ok links) (new prms)).2 k =
        { sizeofBuffers := prms.maxBufferSize, iTeb := k % links.length, mrqLinks := links,
          bufFreeList := { cap := prms.numEvBuffers,
                           items := List.range' k (prms.numEvBuffers - k) },
          id := prms.id,
          posts := (List.range k).map fun i =>
            { link := i % links.length, data := ImmData.value ImmData.Buffer prms.id i } } := by
  intro k
  induction k with
  | zero =>
    intro _
    rw [requests, configure_fresh]
    simp [List.range_eq_range']
  | succ k ih =>
    intro hk
    rw [requests, ih (by omega)]
    have hr : List.range' k (prms.numEvBuffers - k) =
        k :: List.range' (k + 1) (prms.numEvBuffers - (k + 1)) := by
      rw [show prms.numEvBuffers - k = (prms.numEvBuffers - (k + 1)) + 1 by omega,
        List.range'_succ]
    rw [requestDatagram_credit lnk _ k _ hlnk hr (Nat.mod_lt _ (by omega)) hL2]
    simp only [List.range_succ, List.map_append, List.map_cons, List.map_nil,
      Nat.mod_add_mod]

/-- The state after `k` requests on a freshly configured server, once the
credit is used up: it no longer changes. -/
theorem requests_exhausted (lnk : List MrqPost → MrqPost → Int) (prms : MebParams)
    (links : List Nat) (hlnk : ∀ h p, lnk h p = 0)
    (hL : 1 ≤ links.length) (hL2 : links.length < 2 ^ 32) :
    ∀ k, prms.numEvBuffers ≤ k →
      requests lnk (configure prms (.ok links) (new prms)).2 k =
        requests lnk (configure prms (.ok links) (new prms)).2 prms.numEvBuffers := by
  intro k hk
  induction k with
  | zero =>
    have : prms.numEvBuffers = 0 := by omega
    rw [this]
  | succ k ih =>
    by_cases h : prms.numEvBuffers = k + 1
    · rw [h]
    · rw [requests, ih (by omega)]
      apply requestDatagram_empty
      rw [requests_credit lnk prms links hlnk hL hL2 _ (Nat.le_refl _)]
      simp

/-- C16. Credit exhaustion: on a monitor server configured with `n` event
buffers (at most 65536, so that the index fits the immediate word) and at
least one request link, all links accepting posts, and with no release in
between, exactly the first `n` calls of `_requestDatagram` post a request: call
number `i` posts the immediate word `{Buffer, selfId, i}`, whose index is `i`, so
the indices are the distinct 0..n-1; each later call posts nothing and leaves
the server, with its free list and round-robin cursor, unchanged. -/
theorem request_credit_exhaustion (lnk : List MrqPost → MrqPost → Int) (prms : MebParams)
    (links : List Nat) (hlnk : ∀ h p, lnk h p = 0)
    (hL : 1 ≤ links.length) (hL2 : links.length < 2 ^ 32)
    (hn : prms.numEvBuffers ≤ 2 ^ 16) :
    (configure prms (.ok links) (new prms)).1 = 0 ∧
    (∀ k, (requests lnk (configure prms (.ok links) (new prms)).2 k).posts =
      (List.range (min k prms.numEvBuffers)).map fun i =>
        { link := i % links.length, data := ImmData.value ImmData.Buffer prms.id i }) ∧
    (∀ i, i < prms.numEvBuffers →
      ImmData.idx (ImmData.value ImmData.Buffer prms.id i) = i) ∧
    (∀ k, prms.numEvBuffers ≤ k →
      _requestDatagram lnk (requests lnk (configure prms (.ok links) (new prms)).2 k) =
        requests lnk (configure prms (.ok links) (new prms)).2 k) := by
  refine ⟨by rw [configure_fresh], ?_, ?_, ?_⟩
  · intro k
    by_cases hk : k ≤ prms.numEvBuffers
    · rw [requests_credit lnk prms links hlnk hL hL2 k hk, Nat.min_eq_left hk]
    · rw [requests_exhausted lnk prms links hlnk hL hL2 k (by omega),
        requests_credit lnk prms links hlnk hL hL2 _ (Nat.le_refl _),
        Nat.min_eq_right (by omega)]
  · intro i hi
    unfold ImmData.idx ImmData.value
    omega
  · intro k hk
    apply requestDatagram_empty
    rw [requests_exhausted lnk prms links hlnk hL hL2 k hk,
      requests_credit lnk prms links hlnk hL hL2 _ (Nat.le_refl _)]
    simp

/-- Witness for C16: four buffers, three links, ten requests. -/
theorem request_credit_exhaustion_witness :
    (requests acceptAll monState 10).posts =
      [{ link := 0, data := ImmData.value ImmData.Buffer 3 0 },
       { link := 1, data := ImmData.value ImmData.Buffer 3 1 },
       { link := 2, data := ImmData.value ImmData.Buffer 3 2 },
       { link := 0, data := ImmData.value ImmData.Buffer 3 3 }] :=
  (request_credit_exhaustion acceptAll monPrms [0, 1, 2] (fun _ _ => rfl) (by decide)
    (by decide) (by decide)).2.1 10

/-- A request leaves the free list without duplicates. -/
theorem requestDatagram_nodup (lnk : List MrqPost → MrqPost → Int) (s : MyXtcMonitorServer)
    (h : s.bufFreeList.items.Nodup) : (_requestDatagram lnk s).bufFreeList.items.Nodup := by
  rw [requestDatagram_items]
  exact h.sublist (List.tail_sublist _)

/-- A release leaves the free list without duplicates. -/
theorem deleteDatagram_nodup (s : MyXtcMonitorServer) (env : Nat)
    (h : s.bufFreeList.items.Nodup) : (_deleteDatagram s env).bufFreeList.items.Nodup := by
  by_cases hm : deleteIndex env ∈ s.bufFreeList.items
  · rw [deleteDatagram_free s env hm]; exact h
  · rw [deleteDatagram_items s env hm]
    split
    · rw [List.nodup_append]
      refine ⟨h, List.nodup_singleton _, ?_⟩
      intro a ha hb
      rw [List.mem_singleton] at hb
      exact hm (hb ▸ ha)
    · exact h

/-- Every sequence of operations leaves the free list without duplicates. -/
theorem runOps_nodup (lnk : List MrqPost → MrqPost → Int) (ops : List Op) :
    ∀ s : MyXtcMonitorServer, s.bufFreeList.items.Nodup →
      (runOps lnk s ops).bufFreeList.items.Nodup := by
  induction ops with
  | nil => intro s h; exact h
  | cons op ops ih =>
    intro s h
    unfold runOps
    rw [List.foldl_cons]
    apply ih
    cases op with
    | request => exact requestDatagram_nodup lnk s h
    | delete env => exact deleteDatagram_nodup s env h

/-- An index that is not free stays so under every sequence of operations
that does not release it. -/
theorem runOps_not_mem (lnk : List MrqPost → MrqPost → Int) (idx : Nat) (ops : List Op) :
    ∀ s : MyXtcMonitorServer, idx ∉ s.bufFreeList.items →
      (∀ env, Op.delete env ∈ ops → deleteIndex env ≠ idx) →
        idx ∉ (runOps lnk s ops).bufFreeList.items := by
  induction ops with
  | nil => intro s h _; exact h
  | cons op ops ih =>
    intro s h hops
    unfold runOps
    rw [List.foldl_cons]
    apply ih
    · cases op with
      | request =>
        show idx ∉ (_requestDatagram lnk s).bufFreeList.items
        rw [requestDatagram_items]
        exact fun hm => h (List.mem_of_mem_tail hm)
      | delete env =>
        show idx ∉ (_deleteDatagram s env).bufFreeList.items
        by_cases hm : deleteIndex env ∈ s.bufFreeList.items
        · rw [deleteDatagram_free s env hm]; exact h
        · rw [deleteDatagram_items s env hm]
          split
          · intro hmem
            rcases List.mem_append.mp hmem with h1 | h1
            · exact h h1
            · rw [List.mem_singleton] at h1
              exact hops env (List.mem_cons_self _ _) h1.symm
          · exact h
    · intro env henv
      exact hops env (List.mem_cons_of_mem _ henv)

/-- C17. Free-list uniqueness: `configure` on a fresh server succeeds and
leaves each index 0..numEvBuffers-1 in the free list exactly once; in every
state reached from there by `_requestDatagram` and `_deleteDatagram` no index
occurs twice in the free list; hence the index that `_requestDatagram` hands
out in such a state is not in the free list afterwards, and stays out of it
under all further requests and releases until `_deleteDatagram` releases that
index. -/
theorem free_list_unique (lnk : List MrqPost → MrqPost → Int) (prms : MebParams)
    (links : List Nat) (ops : List Op) :
    (configure prms (.ok links) (new prms)).1 = 0 ∧
    (∀ i, (configure prms (.ok links) (new prms)).2.bufFreeList.items.count i =
      if i < prms.numEvBuffers then 1 else 0) ∧
    (runOps lnk (configure prms (.ok links) (new prms)).2 ops).bufFreeList.items.Nodup ∧
    (∀ idx rest,
      (runOps lnk (configure prms (.ok links) (new prms)).2 ops).bufFreeList.items =
        idx :: rest →
      ∀ more : List Op, (∀ env, Op.delete env ∈ more → deleteIndex env ≠ idx) →
        idx ∉ (runOps lnk
          (_requestDatagram lnk (runOps lnk (configure prms (.ok links) (new prms)).2 ops))
          more).bufFreeList.items) := by
  have hnd : (configure prms (.ok links) (new prms)).2.bufFreeList.items.Nodup := by
    rw [configure_fresh]; exact List.nodup_range _
  refine ⟨by rw [configure_fresh], ?_, runOps_nodup lnk ops _ hnd, ?_⟩
  · intro i
    rw [configure_fresh]
    by_cases hi : i < prms.numEvBuffers
    · rw [if_pos hi]
      exact List.count_eq_one_of_mem (List.nodup_range _) (List.mem_range.mpr hi)
    · rw [if_neg hi]
      exact List.count_eq_zero_of_not_mem (by rw [List.mem_range]; exact hi)
  · intro idx rest hitems more hmore
    apply runOps_not_mem lnk idx more _ _ hmore
    rw [requestDatagram_items, hitems, List.tail_cons]
    have h := runOps_nodup lnk ops _ hnd
    rw [hitems, List.nodup_cons] at h
    exact h.1

end MyXtcMonitorServer
end Eb
end Pds
namespace Pds
namespace Eb

/-! ## The command line (C12) -/

/-- C12. Event-buffer count validation in `main`: with all other mandatory
options given, the checks reject the requested count `n` with the exit status
1 if and only if `n = 0` or `n > 255`; otherwise the application is built with
`max(n, 8)` event buffers, which lies in 8..255. -/
theorem main_numEvBuffers (o : Options) (hp : o.partition ≠ NO_PARTITION)
    (hi : o.instrument ≠ "") (hc : o.collSrv ≠ "") (ha : o.alias_ ≠ "") :
    (mainOptions o = .error 1 ↔ (o.numEvBuffers = 0 ∨ 255 < o.numEvBuffers)) ∧
    (mainOptions o = .ok (max o.numEvBuffers 8) ↔
      ¬ (o.numEvBuffers = 0 ∨ 255 < o.numEvBuffers)) ∧
    (¬ (o.numEvBuffers = 0 ∨ 255 < o.numEvBuffers) →
      8 ≤ max o.numEvBuffers 8 ∧ max o.numEvBuffers 8 ≤ 255) ∧
    (∀ app : Nat → Nat, main o app =
      if o.numEvBuffers = 0 ∨ 255 < o.numEvBuffers then 1 else app (max o.numEvBuffers 8)) := by
  by_cases h0 : o.numEvBuffers = 0
  · have hm : mainOptions o = .error 1 := by simp [mainOptions, hp, hi, h0]
    simp [main, hm, h0]
  · by_cases h8 : o.numEvBuffers < 8
    · have hmax : max o.numEvBuffers 8 = 8 := by omega
      have hm : mainOptions o = .ok 8 := by
        simp [mainOptions, hp, hi, hc, ha, h0, NUMBEROF_XFERBUFFERS, h8]
      have h255 : ¬ 255 < o.numEvBuffers := by omega
      simp [main, hm, h0, hmax, h255]
    · have hmax : max o.numEvBuffers 8 = o.numEvBuffers := by omega
      by_cases h255 : 255 < o.numEvBuffers
      · have hm : mainOptions o = .error 1 := by
          simp [mainOptions, hp, hi, hc, ha, h0, NUMBEROF_XFERBUFFERS, h8, h255]
        simp [main, hm, h255]
      · have hm : mainOptions o = .ok o.numEvBuffers := by
          simp [mainOptions, hp, hi, hc, ha, h0, NUMBEROF_XFERBUFFERS, h8, h255]
        simp [main, hm, h0, hmax, h255]
        omega

/-- Witness for C12: the counts 8 and 255 boot, the count 256 is rejected. -/
theorem main_numEvBuffers_witness :
    mainOptions (optionsWith 8) = .ok 8 ∧
    mainOptions (optionsWith 255) = .ok 255 ∧
    mainOptions (optionsWith 256) = .error 1 :=
  ⟨(main_numEvBuffers (optionsWith 8) (by decide) (by decide) (by decide)
      (by decide)).2.1.mpr (by decide),
   (main_numEvBuffers (optionsWith 255) (by decide) (by decide) (by decide)
      (by decide)).2.1.mpr (by decide),
   (main_numEvBuffers (optionsWith 256) (by decide) (by decide) (by decide)
      (by decide)).1.mpr (by decide)⟩

end Eb
end Pds
namespace Pds
namespace Eb
namespace MebApp

/-! ## The connection parameters and the replies (C18, C19, C20) -/

/-- One entry of the `drp` section leaves the addresses and ports alone,
whether the loop goes on or returns. -/
theorem drpEntry_addrs (v : DrpLoop) (d : DrpSpec) :
    (∀ a, drpEntry v d = .error a →
      a.prms.addrs = v.app.prms.addrs ∧ a.prms.ports = v.app.prms.ports) ∧
    (∀ v1, drpEntry v d = .ok v1 →
      v1.app.prms.addrs = v.app.prms.addrs ∧ v1.app.prms.ports = v.app.prms.ports) := by
  unfold drpEntry
  simp only
  split
  · constructor
    · intro a h; cases h; exact ⟨rfl, rfl⟩
    · intro v1 h; cases h
  · split
    · constructor
      · intro a h; cases h; exact ⟨rfl, rfl⟩
      · intro v1 h; cases h
    · constructor
      · intro a h; cases h
      · intro v1 h; cases h; exact ⟨rfl, rfl⟩

/-- The loop over the `drp` section leaves the addresses and ports alone. -/
theorem drpLoop_addrs (ds : List DrpSpec) :
    ∀ v : DrpLoop,
      (∀ a, drpLoop v ds = .error a →
        a.prms.addrs = v.app.prms.addrs ∧ a.prms.ports = v.app.prms.ports) ∧
      (∀ v1, drpLoop v ds = .ok v1 →
        v1.app.prms.addrs = v.app.prms.addrs ∧ v1.app.prms.ports = v.app.prms.ports) := by
  induction ds with
  | nil =>
    intro v
    constructor
    · intro a h; cases h
    · intro v1 h; cases h; exact ⟨rfl, rfl⟩
  | cons d ds ih =>
    intro v
    unfold drpLoop
    rcases he : drpEntry v d with a0 | v0
    · constructor
      · intro a h; cases h; exact (drpEntry_addrs v d).1 a0 he
      · intro v1 h; cases h
    · have h0 := (drpEntry_addrs v d).2 v0 he
      constructor
      · intro a h
        have := (ih v0).1 a h
        exact ⟨this.1.trans h0.1, this.2.trans h0.2⟩
      · intro v1 h
        have := (ih v0).2 v1 h
        exact ⟨this.1.trans h0.1, this.2.trans h0.2⟩

/-- The loop over the `teb` section does not return early when every builder
id is in range. -/
theorem tebLoop_in_range (base : Nat) (ts : List TebSpec) :
    ∀ a : MebApp, (∀ t ∈ ts, t.tebId % 2 ^ 32 ≤ MAX_TEBS - 1) →
      ∃ a1, tebLoop base a ts = .ok a1 := by
  induction ts with
  | nil => intro a _; exact ⟨a, rfl⟩
  | cons t ts ih =>
    intro a h
    have ht : ¬ t.tebId % 2 ^ 32 > MAX_TEBS - 1 := by
      have := h t (List.mem_cons_self _ _); omega
    unfold tebLoop
    simp only [ht, if_false]
    exact ih _ (fun x hx => h x (List.mem_cons_of_mem _ hx))

/-- The return value of `_parseConnectionParams` is 0 or 1. -/
theorem parseConnectionParams_rc (a : MebApp) (body : ConnectBody) :
    (_parseConnectionParams a body).1 = 0 ∨ (_parseConnectionParams a body).1 = 1 := by
  unfold _parseConnectionParams
  simp only
  split
  · exact Or.inr rfl
  · split
    · exact Or.inr rfl
    · split
      · exact Or.inr rfl
      · split
        · exact Or.inr rfl
        · split
          · exact Or.inr rfl
          · exact Or.inl rfl

/-- When `_parseConnectionParams` returns non-zero and every builder id is in
range, the addresses and ports are as before the call. -/
theorem parseConnectionParams_addrs (a : MebApp) (body : ConnectBody)
    (hrc : (_parseConnectionParams a body).1 ≠ 0)
    (ht : ∀ tebs, body.teb = some tebs → ∀ t ∈ tebs, t.tebId % 2 ^ 32 ≤ MAX_TEBS - 1) :
    (_parseConnectionParams a body).2.prms.addrs = a.prms.addrs ∧
    (_parseConnectionParams a body).2.prms.ports = a.prms.ports := by
  unfold _parseConnectionParams at hrc ⊢
  simp only at hrc ⊢
  split
  · exact ⟨rfl, rfl⟩
  · rename_i hid
    simp only [hid, if_false] at hrc
    rcases hd : body.drp with _ | drps
    · exact ⟨rfl, rfl⟩
    · simp only [hd] at hrc ⊢
      split
      · rename_i a4 he
        exact (drpLoop_addrs drps _).1 a4 he
      · rename_i v he
        have hv := (drpLoop_addrs drps _).2 v he
        simp only [he] at hrc
        rcases htb : body.teb with _ | tebs
        · exact hv
        · simp only [htb] at hrc ⊢
          obtain ⟨a8, h8⟩ := tebLoop_in_range
            ((MRQ_PORT_BASE + (MAX_DRPS + MAX_TEBS + MAX_TEBS + MAX_MEBS) * a.prms.partition)
              % 2 ^ 32)
            tebs
            { prms := { ({ prms := { v.app.prms with
                maxBufferSize :=
                  (if v.maxBufferSize > v.maxTrSize then v.maxBufferSize else v.maxTrSize)
                    % 2 ^ 32 }, groups := v.app.groups } : MebApp).prms with
                addrs := [], ports := [] }, groups := v.app.groups }
            (ht tebs htb)
          simp only [h8] at hrc
          exact absurd rfl hrc

/-- C18 (as amended). When `_parseConnectionParams` returns non-zero it returns
1 and keeps the assignments made before the check that failed: for a monitor
id out of range `id` holds the new id and nothing else has changed; for a
missing `drp` section only `id`, `ifAddr` and `ebPort` have changed; and the
addresses and ports are as before the call unless the return is due to a
builder id out of range. -/
theorem parseConnectionParams_error (a : MebApp) (body : ConnectBody) :
    ((_parseConnectionParams a body).1 ≠ 0 → (_parseConnectionParams a body).1 = 1) ∧
    (MAX_MEBS ≤ body.mebId % 2 ^ 32 →
      _parseConnectionParams a body =
        (1, { a with prms := { a.prms with id := body.mebId % 2 ^ 32 } })) ∧
    (body.mebId % 2 ^ 32 < MAX_MEBS → body.drp = none →
      _parseConnectionParams a body =
        (1, { a with prms := { a.prms with
          id := body.mebId % 2 ^ 32,
          ifAddr := body.nicIp,
          ebPort := toString (((MEB_PORT_BASE +
            (MAX_DRPS + MAX_TEBS + MAX_TEBS + MAX_MEBS) * a.prms.partition) % 2 ^ 32 +
              body.mebId % 2 ^ 32) % 2 ^ 32) } })) ∧
    ((_parseConnectionParams a body).1 ≠ 0 →
      (∀ tebs, body.teb = some tebs → ∀ t ∈ tebs, t.tebId % 2 ^ 32 ≤ MAX_TEBS - 1) →
        (_parseConnectionParams a body).2.prms.addrs = a.prms.addrs ∧
        (_parseConnectionParams a body).2.prms.ports = a.prms.ports) := by
  refine ⟨fun h => (parseConnectionParams_rc a body).resolve_left h, ?_, ?_,
    parseConnectionParams_addrs a body⟩
  · intro hid
    have hid2 : body.mebId % 2 ^ 32 ≥ MAX_MEBS := hid
    unfold _parseConnectionParams
    simp only [hid2, if_true]
  · intro hid hdrp
    have hid2 : ¬ (body.mebId % 2 ^ 32 ≥ MAX_MEBS) := by omega
    unfold _parseConnectionParams
    simp only [hid2, if_false, hdrp]

/-- C18, counterexample. A connect whose monitor id 64 is out of range returns
1 and leaves 64 in `_prms.id`, which was 5 before the call: the parameters are
not as they were before the call. -/
theorem parseConnectionParams_error_counterexample :
    (_parseConnectionParams appState badMebBody).1 = 1 ∧
    (_parseConnectionParams appState badMebBody).2.prms.id = 64 ∧
    appState.prms.id = 5 ∧
    (_parseConnectionParams appState badMebBody).2 ≠ appState := by
  decide

/-- C19. A failed `configure` is reported by `handlePhase1` under the key
`error_info`, with the text prefixed by `Phase 1 error: `, while a failed
`connect` is reported by `handleConnect` under the key `err_info`: the reply
to a failed `configure` has no `err_info` key. -/
theorem handlePhase1_error_key :
    handlePhase1 "configure" "Failed to configure MEB" =
      [("error_info", "Phase 1 error: Failed to configure MEB")] ∧
    (handlePhase1 "configure" "Failed to configure MEB").lookup "err_info" = none ∧
    (handleConnect appState badMebBody).2 =
      [("err_info", "Error parsing connect parameters")] := by
  decide

/-- C20. Two contributors with events of up to 2 GiB each: the connect
succeeds, the sum of the event sizes is 4294967296 and that of the transition
sizes 8192, and `_prms.maxBufferSize`, an `unsigned`, is left at 0, which is
not the greater of the two sums. -/
theorem maxBufferSize_truncated :
    (_parseConnectionParams appState bigEventBody).1 = 0 ∧
    (_parseConnectionParams appState bigEventBody).2.prms.maxBufferSize = 0 ∧
    (drpLoop { app := appState, maxTrSize := 0, maxBufferSize := 0 }
      (bigEventBody.drp.getD [])).toOption.map (fun v => (v.maxBufferSize, v.maxTrSize)) =
        some (4294967296, 8192) := by
  decide

end MebApp
end Eb
end Pds
namespace Pds
namespace Eb
namespace MebContributor

/-! ## The transition overload of `MebContributor::post` (C11) -/

/-- The loop of `post(ddg)` over the links does not raise, and posts the same
record on a prefix of the links, which is not empty when there is a link. -/
theorem postAll_posts (E : Env) (mk : Nat → LinkPost) (ls : List Nat) :
    ∀ s : MebContributor,
      ∃ k rc, k ≤ ls.length ∧ (ls ≠ [] → 0 < k) ∧
        (postAll E mk s ls).result = .ok rc ∧
        (postAll E mk s ls).state.posts = s.posts ++ (ls.take k).map mk := by
  induction ls with
  | nil => intro s; exact ⟨0, 0, le_refl _, fun h => absurd rfl h, rfl, by simp [postAll]⟩
  | cons l ls ih =>
    intro s
    unfold postAll
    simp only
    split
    · exact ⟨1, _, by simp, fun _ => by decide, rfl, by simp⟩
    · obtain ⟨k, rc, hk, _, hr, hp⟩ := ih { s with posts := s.posts ++ [mk l] }
      refine ⟨k + 1, rc, by simp [hk], fun _ => by omega, hr, ?_⟩
      rw [hp]
      simp

/-- C11 (as amended). A transition that fits the transition buffer and comes
from this contributor is posted, without an exception, on a prefix of the
links (not empty when there is a link), each time at the remote offset
`_bufRegSize + tr * _maxTrSize` and with the immediate word
`(Transition, _id, tr)`; and the constructor sets `_bufRegSize` to
`maxEvents * roundUpSize(maxEvSize)` and `_maxTrSize` to `maxTrSize`. -/
theorem postTr_offset (E : Env) (s : MebContributor) (ddg : EbDgram)
    (hsz : E.sizeofDgram + ddg.payload ≤ s.maxTrSize) (hsrc : ddg.src = s.id) :
    (∃ k rc, k ≤ s.links.length ∧ (s.links ≠ [] → 0 < k) ∧
      (postTr E s ddg).result = .ok rc ∧
      (postTr E s ddg).state.posts = s.posts ++ (s.links.take k).map (fun l =>
        { link := l, buffer := ddg, size := E.sizeofDgram + ddg.payload,
          offset := (s.bufRegSize + ddg.service.toNat * s.maxTrSize) % 2 ^ 64,
          data := ImmData.value ImmData.Transition s.id ddg.service.toNat })) ∧
    (∀ prms : MebCtrbParams,
      (new E prms).bufRegSize = (prms.maxEvents * E.roundUpSize prms.maxEvSize) % 2 ^ 64 ∧
      (new E prms).maxTrSize = prms.maxTrSize) := by
  refine ⟨?_, fun prms => ⟨rfl, rfl⟩⟩
  have h1 : ¬ (E.sizeofDgram + ddg.payload > s.maxTrSize) := by omega
  have h2 : ¬ (ddg.src ≠ s.id) := by simp [hsrc]
  unfold postTr
  simp only [h1, h2, if_false]
  exact postAll_posts E _ s.links { s with eol := s.eol ++ [ddg] }

/-- C11, witness: the Disable of the example, posted by the example monitor
contributor on both of its links. -/
theorem postTr_offset_witness :
    scenarioEnv.sizeofDgram + (scenarioDgram 111).payload ≤ mebState.maxTrSize ∧
    (scenarioDgram 111).src = mebState.id ∧
    (postTr scenarioEnv mebState (scenarioDgram 111)).state.posts.map (fun p => p.offset) =
      [10496, 10496] ∧
    (new scenarioEnv mebPrms).bufRegSize = 8192 :=
  ⟨by decide, by decide, by decide,
    ((postTr_offset scenarioEnv mebState (scenarioDgram 111) (by decide) (by decide)).2
      mebPrms).1.trans (by decide)⟩

/-- C11, counterexample. The example monitor contributor (eight event buffers
of 1024 bytes, transitions of at most 256 bytes, datagram headers of 32 bytes)
posts a Disable (kind 9) at offset 10496, which is 8192 + 9 * 256, not at
8192 + 9 * 32 = 8480. -/
theorem postTr_offset_counterexample :
    (postTr scenarioEnv mebState (scenarioDgram 111)).state.posts.map (fun p => p.offset) =
      [10496, 10496] ∧
    mebState.bufRegSize + (scenarioDgram 111).service.toNat * scenarioEnv.sizeofDgram = 8480 ∧
    mebState.bufRegSize = mebPrms.maxEvents * mebPrms.maxEvSize := by
  decide

end MebContributor
end Eb
end Pds
namespace Pds
namespace Eb
namespace TebContributor

/-! ## The cases of `process` on the common path (C22, C23, C24) and the batch pointers (C27) -/

/-- With batching enabled an L1Accept or a SlowUpdate does not flush. -/
theorem flush_batched (s : TebContributor) (d : EbDgram) (hb : s.prms.batching = true)
    (hsvc : d.service = TransitionId.L1Accept ∨ d.service = TransitionId.SlowUpdate) :
    flush s d = false := by
  rcases hsvc with h | h <;> simp [flush, hb, h]

/-- The first block of `process` leaves an open batch alone. -/
theorem openBatch_some (s : TebContributor) (d st : EbDgram) (hs : s.batchStart = some st) :
    openBatch s d = s := by
  simp [openBatch, hs]

/-- The first block of `process` opens a batch at the datagram when none is
open, and sets the contractor mask to the datagram's bits. -/
theorem openBatch_none (s : TebContributor) (d : EbDgram) (hs : s.batchStart = none) :
    openBatch s d = { s with batchStart := some d, contractor := ctrBits s d } := by
  simp [openBatch, hs]

/-- The last block of `process` leaves the contractor mask alone. -/
theorem forward_contractor (E : Env) (s : TebContributor) (d : EbDgram) :
    (forward E s d).state.contractor = s.contractor := by
  unfold forward
  split
  · split
    · exact (forward_post_fields E s d).2.2.2.1
    · rfl
  · rfl

/-- The block `if (expired)` on an open batch, with room on the pending queue. -/
theorem expiredBlock_fields (E : Env) (s : TebContributor) (d st : EbDgram)
    (hs : s.batchStart = some st) (hroom : s.pending.length + 1 < E.pendingSize) :
    (expiredBlock E s d).result = .ok () ∧
    (expiredBlock E s d).state.handed =
      s.handed ++ (if s.contractor ≠ 0 then [(st, s.batchEnd.getD st)] else []) ∧
    (expiredBlock E s d).state.pending =
      s.pending ++ (if s.contractor ≠ 0 then [st] else []) ∧
    (expiredBlock E s d).state.posts =
      s.posts ++ (if s.contractor ≠ 0 then [batchPost E s st (s.batchEnd.getD st)] else []) ∧
    (expiredBlock E s d).state.batchStart = some d ∧
    (expiredBlock E s d).state.batchEnd = some d ∧
    (expiredBlock E s d).state.contractor = ctrBits s d := by
  unfold expiredBlock
  simp only [hs, Option.getD_some]
  by_cases h : s.contractor ≠ 0
  · rw [if_pos h, batch_post_room E s _ _ hroom, Outcome.andThen_ok]
    simp [h, ctrBits]
  · rw [if_neg h, Outcome.andThen_ok]
    simp [h, ctrBits]

/-- The block `if (flush)`, with room on the pending queue. -/
theorem flushBlock_fields (E : Env) (s : TebContributor) (d : EbDgram)
    (hroom : s.pending.length + 1 < E.pendingSize) :
    (flushBlock E s d).result = .ok () ∧
    (flushBlock E s d).state.handed =
      s.handed ++ (if s.contractor ||| ctrBits s d ≠ 0 then [(s.batchStart.getD d, d)] else []) ∧
    (flushBlock E s d).state.pending =
      s.pending ++ (if s.contractor ||| ctrBits s d ≠ 0 then [s.batchStart.getD d] else []) ∧
    (flushBlock E s d).state.batchStart = none ∧
    (flushBlock E s d).state.batchEnd = none ∧
    (flushBlock E s d).state.contractor = s.contractor ||| ctrBits s d := by
  unfold flushBlock
  simp only
  by_cases h : s.contractor ||| ctrBits s d ≠ 0
  · have hr := batch_post_room E { s with contractor := s.contractor ||| ctrBits s d }
      (s.batchStart.getD d) d hroom
    rw [if_pos h, hr, Outcome.andThen_ok]
    simp [h]
  · rw [if_neg h, Outcome.andThen_ok]
    simp [h]

/-- The first block of `process` leaves the parameters alone, and the batch
start it leaves is the one there was, or the datagram. -/
theorem openBatch_fields (s : TebContributor) (d : EbDgram) :
    (openBatch s d).prms = s.prms ∧
    (openBatch s d).batchStart = some (s.batchStart.getD d) ∧
    (openBatch s d).batchEnd = s.batchEnd ∧
    (openBatch s d).handed = s.handed ∧
    (openBatch s d).pending = s.pending ∧
    (openBatch s d).contractor = (if s.batchStart = none then ctrBits s d else s.contractor) := by
  rcases hs : s.batchStart with _ | st
  · simp [openBatch, hs]
  · simp [openBatch, hs]

/-- The common branch when the batch is expired and the datagram does not
flush is the block `if (expired)`. -/
theorem common_expired (E : Env) (s : TebContributor) (d st : EbDgram)
    (hs : s.batchStart = some st)
    (hexp : E.expired d.pulseId st.pulseId = true)
    (hfl : flush s d = false) :
    common E s d = expiredBlock E s d := by
  unfold common
  simp only [openBatch_some s d st hs, hs, Option.getD_some, hexp, hfl]
  simp [Outcome.andThen_pure]

/-- The common branch when the batch is not expired and the datagram flushes
is the block `if (flush)` after the first block. -/
theorem common_flush_open (E : Env) (s : TebContributor) (d : EbDgram)
    (hexp : E.expired d.pulseId (s.batchStart.getD d).pulseId = false)
    (hfl : flush s d = true) :
    common E s d = flushBlock E (openBatch s d) d := by
  have hfl1 : flush (openBatch s d) d = true := by
    rw [← hfl]; unfold flush; rw [(openBatch_fields s d).1]
  unfold common
  simp only [(openBatch_fields s d).2.1, Option.getD_some, hexp, hfl1]
  simp [Outcome.andThen_ok]

/-- The common branch when the batch is not expired and the datagram does not
flush: the batch is extended. -/
theorem common_extend (E : Env) (s : TebContributor) (d : EbDgram)
    (hexp : E.expired d.pulseId (s.batchStart.getD d).pulseId = false)
    (hfl : flush s d = false) :
    common E s d =
      { state := { openBatch s d with
                    batchEnd := some d
                    contractor := (openBatch s d).contractor ||| ctrBits (openBatch s d) d },
        result := .ok () } := by
  have hfl1 : flush (openBatch s d) d = false := by
    rw [← hfl]; unfold flush; rw [(openBatch_fields s d).1]
  unfold common
  simp only [(openBatch_fields s d).2.1, Option.getD_some, hexp, hfl1]
  simp

/-- The method `process` on the common path is the common branch followed by
the last block, when the common branch does not throw. -/
theorem process_common (E : Env) (s : TebContributor) (d : EbDgram)
    (hc : d.readoutGroups &&& (1 <<< s.prms.partition) ≠ 0)
    (hok : (common E s d).result = .ok ()) :
    process E s d = forward E (common E s d).state d := by
  unfold process
  simp only [hc, ne_eq, not_false_eq_true, if_true]
  exact Outcome.andThen_of_ok _ _ hok

/-- C22. Expired-only case: for a contribution with the common readout group
whose service is L1Accept or SlowUpdate, with batching enabled, that expires
the open batch, `process` (with room on the pending queue, and the
contribution an event or without payload) returns normally, hands the prior
batch from `batchStart` to `batchEnd` to `_post` if and only if the contractor
mask is not zero, and leaves `batchStart` and `batchEnd` at the contribution
and the contractor mask at `readoutGroups & prms.contractor`. -/
theorem process_expired_only (E : Env) (s : TebContributor) (d st : EbDgram)
    (hc : d.readoutGroups &&& (1 <<< s.prms.partition) ≠ 0)
    (hsvc : d.service = TransitionId.L1Accept ∨ d.service = TransitionId.SlowUpdate)
    (hb : s.prms.batching = true)
    (hs : s.batchStart = some st)
    (hexp : E.expired d.pulseId st.pulseId = true)
    (hroom : s.pending.length + 1 < E.pendingSize)
    (hpay : d.isEvent = true ∨ d.payload = 0) :
    (process E s d).result = .ok () ∧
    (process E s d).state.handed =
      s.handed ++ (if s.contractor ≠ 0 then [(st, s.batchEnd.getD st)] else []) ∧
    (process E s d).state.pending =
      s.pending ++ (if s.contractor ≠ 0 then [st] else []) ∧
    (process E s d).state.batchStart = some d ∧
    (process E s d).state.batchEnd = some d ∧
    (process E s d).state.contractor = d.readoutGroups &&& s.prms.contractor := by
  have hcm := common_expired E s d st hs hexp (flush_batched s d hb hsvc)
  obtain ⟨h1, h2, h3, _, h5, h6, h7⟩ := expiredBlock_fields E s d st hs hroom
  have hp := process_common E s d hc (by rw [hcm]; exact h1)
  rw [hcm] at hp
  obtain ⟨f1, f2, _, f4, f5, f6⟩ := forward_fields E (expiredBlock E s d).state d hpay
  rw [hp]
  exact ⟨f1, f2.trans h2, f4.trans h3, f5.trans h5, f6.trans h6,
    (forward_contractor E _ d).trans h7⟩

/-- C23 (as amended). Flush case: for a contribution with the common readout
group that flushes and does not expire the batch, `process` (with room on the
pending queue, and the contribution an event or without payload) returns
normally; the contractor mask becomes the old mask OR the contribution's bits
if a batch was open and the contribution's bits alone if none was; one batch,
from `batchStart` (the contribution if no batch was open) through the
contribution, is handed to `_post` if that mask is not zero, and none
otherwise; and `batchStart` and `batchEnd` are left null. -/
theorem process_flush_case (E : Env) (s : TebContributor) (d : EbDgram)
    (hc : d.readoutGroups &&& (1 <<< s.prms.partition) ≠ 0)
    (hfl : flush s d = true)
    (hexp : E.expired d.pulseId (s.batchStart.getD d).pulseId = false)
    (hroom : s.pending.length + 1 < E.pendingSize)
    (hpay : d.isEvent = true ∨ d.payload = 0) :
    (process E s d).result = .ok () ∧
    (process E s d).state.contractor =
      (if s.batchStart = none then ctrBits s d else s.contractor ||| ctrBits s d) ∧
    (process E s d).state.handed =
      s.handed ++ (if (process E s d).state.contractor ≠ 0
        then [(s.batchStart.getD d, d)] else []) ∧
    (process E s d).state.batchStart = none ∧
    (process E s d).state.batchEnd = none := by
  have hcm := common_flush_open E s d hexp hfl
  obtain ⟨o1, o2, _, o4, o5, o6⟩ := openBatch_fields s d
  have hroom1 : (openBatch s d).pending.length + 1 < E.pendingSize := by rw [o5]; exact hroom
  obtain ⟨h1, h2, _, h4, h5, h6⟩ := flushBlock_fields E (openBatch s d) d hroom1
  have hp := process_common E s d hc (by rw [hcm]; exact h1)
  rw [hcm] at hp
  obtain ⟨f1, f2, _, _, f5, f6⟩ := forward_fields E (flushBlock E (openBatch s d) d).state d hpay
  have hbits : ctrBits (openBatch s d) d = ctrBits s d := by unfold ctrBits; rw [o1]
  have hctr : (process E s d).state.contractor =
      (if s.batchStart = none then ctrBits s d else s.contractor ||| ctrBits s d) := by
    rw [hp, forward_contractor, h6, o6, hbits]
    by_cases hn : s.batchStart = none
    · simp [hn]
    · simp [hn]
  refine ⟨by rw [hp]; exact f1, hctr, ?_, by rw [hp]; exact f5.trans h4,
    by rw [hp]; exact f6.trans h5⟩
  have hctr2 : (process E s d).state.contractor = (openBatch s d).contractor ||| ctrBits s d := by
    rw [hp, forward_contractor, h6, hbits]
  rw [hctr2]
  rw [hp, f2, h2, o4, hbits, o2, Option.getD_some]

/-- C24 (as amended). Extend case: for a contribution with the common readout
group that neither expires the batch nor flushes, `process` (the contribution
an event or without payload) returns normally, hands no batch to `_post`,
pushes nothing on the pending queue, sets `batchEnd` to the contribution,
keeps `batchStart` (or sets it to the contribution if no batch was open), and
the contractor mask becomes the old mask OR `readoutGroups & prms.contractor`
if a batch was open, and `readoutGroups & prms.contractor` if none was. -/
theorem process_extend_case (E : Env) (s : TebContributor) (d : EbDgram)
    (hc : d.readoutGroups &&& (1 <<< s.prms.partition) ≠ 0)
    (hsvc : d.service = TransitionId.L1Accept ∨ d.service = TransitionId.SlowUpdate)
    (hb : s.prms.batching = true)
    (hexp : E.expired d.pulseId (s.batchStart.getD d).pulseId = false)
    (hpay : d.isEvent = true ∨ d.payload = 0) :
    (process E s d).result = .ok () ∧
    (process E s d).state.handed = s.handed ∧
    (process E s d).state.pending = s.pending ∧
    (process E s d).state.batchEnd = some d ∧
    (process E s d).state.batchStart = some (s.batchStart.getD d) ∧
    (process E s d).state.contractor =
      (if s.batchStart = none then d.readoutGroups &&& s.prms.contractor
       else s.contractor ||| (d.readoutGroups &&& s.prms.contractor)) := by
  have hcm := common_extend E s d hexp (flush_batched s d hb hsvc)
  obtain ⟨o1, o2, _, o4, o5, o6⟩ := openBatch_fields s d
  have hp := process_common E s d hc (by rw [hcm])
  rw [hcm] at hp
  obtain ⟨f1, f2, _, f4, f5, f6⟩ := forward_fields E
    { openBatch s d with
        batchEnd := some d
        contractor := (openBatch s d).contractor ||| ctrBits (openBatch s d) d } d hpay
  have hbits : ctrBits (openBatch s d) d = ctrBits s d := by unfold ctrBits; rw [o1]
  rw [hp]
  refine ⟨f1, f2.trans o4, f4.trans o5, f6, f5.trans o2, ?_⟩
  rw [forward_contractor]
  show (openBatch s d).contractor ||| ctrBits (openBatch s d) d = _
  rw [hbits, o6]
  by_cases hn : s.batchStart = none
  · simp [hn, ctrBits]
  · simp [hn, ctrBits]

/-- C22, witness: the example contributor with the batch 100..101 open, and an
L1Accept at pulse ID 2097152, which expires it. -/
theorem process_expired_only_witness :
    (process scenarioEnv openState bigDgram).result = .ok () ∧
    (process scenarioEnv openState bigDgram).state.handed =
      [(scenarioDgram 100, scenarioDgram 101)] ∧
    (process scenarioEnv openState bigDgram).state.batchStart = some bigDgram ∧
    (process scenarioEnv openState bigDgram).state.batchEnd = some bigDgram :=
  have h := process_expired_only scenarioEnv openState bigDgram (scenarioDgram 100)
    (by decide) (Or.inl rfl) rfl rfl (by decide) (by decide) (Or.inl rfl)
  ⟨h.1, h.2.1.trans (by decide), h.2.2.2.1, h.2.2.2.2.1⟩

/-- C23, witness: the example contributor with the batch 100..101 open, and the
Disable at pulse ID 111. -/
theorem process_flush_case_witness :
    (process scenarioEnv openState (scenarioDgram 111)).result = .ok () ∧
    (process scenarioEnv openState (scenarioDgram 111)).state.contractor = 1 ∧
    (process scenarioEnv openState (scenarioDgram 111)).state.batchStart = none ∧
    (process scenarioEnv openState (scenarioDgram 111)).state.batchEnd = none :=
  have h := process_flush_case scenarioEnv openState (scenarioDgram 111)
    (by decide) (by decide) (by decide) (by decide) (Or.inr rfl)
  ⟨h.1, h.2.1.trans (by decide), h.2.2.2.1, h.2.2.2.2⟩

/-- C23, counterexample. A contributor that is a contractor for group 1 only
has closed a batch and still holds the contractor mask 2; the Disable at pulse
ID 111, with the common group 0 only, flushes and does not expire, and the old
mask OR its bits is 2, but no batch is handed to `_post` and the mask is 0
afterwards. With batching disabled, the L1Accept at pulse ID 100 flushes and
is not handed to `_post` either. -/
theorem process_flush_case_counterexample :
    groupOneClosed.batchStart = none ∧ groupOneClosed.contractor = 2 ∧
    flush groupOneClosed (scenarioDgram 111) = true ∧
    groupOneClosed.contractor ||| ctrBits groupOneClosed (scenarioDgram 111) = 2 ∧
    (process scenarioEnv groupOneClosed (scenarioDgram 111)).raised = false ∧
    (process scenarioEnv groupOneClosed (scenarioDgram 111)).state.handed =
      groupOneClosed.handed ∧
    (process scenarioEnv groupOneClosed (scenarioDgram 111)).state.contractor = 0 ∧
    flush unbatchedState (scenarioDgram 100) = true ∧
    (process scenarioEnv unbatchedState (scenarioDgram 100)).raised = false ∧
    (process scenarioEnv unbatchedState (scenarioDgram 100)).state.handed = [] := by
  decide

/-- C24, witness: the example contributor with the batch 100..101 open, and the
L1Accept at pulse ID 102. -/
theorem process_extend_case_witness :
    (process scenarioEnv openState (scenarioDgram 102)).result = .ok () ∧
    (process scenarioEnv openState (scenarioDgram 102)).state.handed = [] ∧
    (process scenarioEnv openState (scenarioDgram 102)).state.batchEnd =
      some (scenarioDgram 102) ∧
    (process scenarioEnv openState (scenarioDgram 102)).state.batchStart =
      some (scenarioDgram 100) :=
  have h := process_extend_case scenarioEnv openState (scenarioDgram 102)
    (by decide) (Or.inl rfl) rfl (by decide) (Or.inl rfl)
  ⟨h.1, h.2.1, h.2.2.2.1, h.2.2.2.2.1⟩

/-- C24, counterexample. A contributor that is a contractor for the groups 0
and 1 has closed a batch and still holds the contractor mask 3; the L1Accept at
pulse ID 100, with group 0 only, extends: the mask becomes 1, not the old mask
OR the contribution's bits, which is 3. -/
theorem process_extend_case_counterexample :
    twoGroupClosed.batchStart = none ∧ twoGroupClosed.contractor = 3 ∧
    (process scenarioEnv twoGroupClosed (scenarioDgram 100)).raised = false ∧
    (process scenarioEnv twoGroupClosed (scenarioDgram 100)).state.batchStart =
      some (scenarioDgram 100) ∧
    (process scenarioEnv twoGroupClosed (scenarioDgram 100)).state.contractor = 1 ∧
    twoGroupClosed.contractor |||
      ((scenarioDgram 100).readoutGroups &&& twoGroupClosed.prms.contractor) = 3 := by
  decide

/-- Where a sequence returns normally, its first statement did. -/
theorem andThen_result_ok {σ α : Type} (o : Outcome σ Unit) (f : σ → Outcome σ α) (a : α)
    (h : (o.andThen f).result = .ok a) : o.result = .ok () := by
  rcases o with ⟨s, e | u⟩
  · simp [Outcome.andThen] at h
  · rfl

/-- The last block of `process` leaves the batch pointers alone. -/
theorem forward_pointers (E : Env) (s : TebContributor) (d : EbDgram) :
    (forward E s d).state.batchStart = s.batchStart ∧
    (forward E s d).state.batchEnd = s.batchEnd := by
  unfold forward
  split
  · split
    · exact ⟨(forward_post_fields E s d).2.1, (forward_post_fields E s d).2.2.1⟩
    · exact ⟨rfl, rfl⟩
  · exact ⟨rfl, rfl⟩

/-- The block `if (flush)` leaves both batch pointers null when it returns. -/
theorem flushBlock_pointers (E : Env) (s : TebContributor) (d : EbDgram)
    (h : (flushBlock E s d).result = .ok ()) :
    (flushBlock E s d).state.batchStart = none ∧ (flushBlock E s d).state.batchEnd = none := by
  unfold flushBlock at h ⊢
  simp only at h ⊢
  have h1 := andThen_result_ok _ _ _ h
  rw [Outcome.andThen_of_ok _ _ h1]
  exact ⟨rfl, rfl⟩

/-- The block `if (expired)` leaves both batch pointers at the datagram when
it returns. -/
theorem expiredBlock_pointers (E : Env) (s : TebContributor) (d : EbDgram)
    (h : (expiredBlock E s d).result = .ok ()) :
    (expiredBlock E s d).state.batchStart = some d ∧
    (expiredBlock E s d).state.batchEnd = some d := by
  unfold expiredBlock at h ⊢
  simp only at h ⊢
  have h1 := andThen_result_ok _ _ _ h
  rw [Outcome.andThen_of_ok _ _ h1]
  exact ⟨rfl, rfl⟩

/-- The bypass branch leaves both batch pointers null when it returns. -/
theorem bypass_pointers (E : Env) (s : TebContributor) (d : EbDgram)
    (h : (bypass E s d).result = .ok ()) :
    (bypass E s d).state.batchStart = none ∧ (bypass E s d).state.batchEnd = none := by
  unfold bypass at h ⊢
  simp only at h ⊢
  have h1 := andThen_result_ok _ _ _ h
  rw [Outcome.andThen_of_ok _ _ h1] at h ⊢
  have h2 := andThen_result_ok _ _ _ h
  rw [Outcome.andThen_of_ok _ _ h2]
  exact ⟨rfl, rfl⟩

/-- The common branch leaves the batch pointers both null or both set when it
returns. -/
theorem common_pointers (E : Env) (s : TebContributor) (d : EbDgram)
    (h : (common E s d).result = .ok ()) :
    ((common E s d).state.batchStart = none ↔ (common E s d).state.batchEnd = none) := by
  unfold common at h ⊢
  simp only at h ⊢
  split
  · simp [(openBatch_fields s d).2.1]
  · rename_i hcond
    rw [if_neg hcond] at h
    have h1 := andThen_result_ok _ _ _ h
    rw [Outcome.andThen_of_ok _ _ h1] at h ⊢
    by_cases hfl : flush (openBatch s d) d = true
    · rw [if_pos hfl] at h ⊢
      have := flushBlock_pointers E _ d h
      simp [this.1, this.2]
    · rw [if_neg hfl]
      have hexp : E.expired d.pulseId ((openBatch s d).batchStart.getD d).pulseId = true := by
        simp only [Bool.not_eq_true] at hfl
        simpa [hfl] using hcond
      rw [if_pos hexp] at h1 ⊢
      have := expiredBlock_pointers E _ d h1
      simp [this.1, this.2]

/-- The method `process` leaves the batch pointers both null or both set
when it returns. -/
theorem process_pointers (E : Env) (s : TebContributor) (d : EbDgram)
    (h : (process E s d).result = .ok ()) :
    ((process E s d).state.batchStart = none ↔ (process E s d).state.batchEnd = none) := by
  unfold process at h ⊢
  simp only at h ⊢
  have h1 := andThen_result_ok _ _ _ h
  rw [Outcome.andThen_of_ok _ _ h1]
  rw [(forward_pointers E _ d).1, (forward_pointers E _ d).2]
  split
  · rename_i hc
    rw [if_pos hc] at h1
    exact common_pointers E s d h1
  · rename_i hc
    rw [if_neg hc] at h1
    have := bypass_pointers E s d h1
    simp [this.1, this.2]

/-- A run that returns leaves the batch pointers both null or both set, if
they were so at its start. -/
theorem run_pointers (E : Env) (ds : List EbDgram) :
    ∀ s : TebContributor, (s.batchStart = none ↔ s.batchEnd = none) →
      (run E s ds).result = .ok () →
      ((run E s ds).state.batchStart = none ↔ (run E s ds).state.batchEnd = none) := by
  induction ds with
  | nil => intro s hs _; exact hs
  | cons d ds ih =>
    intro s _ h
    rw [run_cons] at h ⊢
    have h1 := andThen_result_ok _ _ _ h
    rw [Outcome.andThen_of_ok _ _ h1] at h ⊢
    exact ih _ (process_pointers E s d h1) h

/-- C27. Batch-pointer invariant: after `startup()` both batch pointers are
null; after every return of `process`, from whatever state, `batchStart` is
null if and only if `batchEnd` is; and so it is after every stream of
contributions fed to `process` after `startup()` that returns. -/
theorem batch_pointers_invariant (E : Env) (s0 : TebContributor) (ds : List EbDgram) :
    ((startup s0).batchStart = none ∧ (startup s0).batchEnd = none) ∧
    (∀ s d, (process E s d).result = .ok () →
      ((process E s d).state.batchStart = none ↔ (process E s d).state.batchEnd = none)) ∧
    ((run E (startup s0) ds).result = .ok () →
      ((run E (startup s0) ds).state.batchStart = none ↔
        (run E (startup s0) ds).state.batchEnd = none)) :=
  ⟨⟨rfl, rfl⟩, fun s d h => process_pointers E s d h,
    run_pointers E ds (startup s0) (by simp [startup])⟩

end TebContributor
end Eb
end Pds
namespace Pds
namespace Eb
namespace MyXtcMonitorServer

/-! ## The round robin of the monitor requests (C25) and the range of the free list (C28) -/

/-- The round-robin loop makes at most `n` posts, each but the last refused by
its link, and leaves the links alone. -/
theorem requestLoop_posts (lnk : List MrqPost → MrqPost → Int) (data n : Nat) :
    ∀ s : MyXtcMonitorServer, ∃ added,
      (requestLoop lnk data n s).posts = s.posts ++ added ∧ added.length ≤ n ∧
      (requestLoop lnk data n s).mrqLinks = s.mrqLinks ∧
      (∀ pre p post, added = pre ++ p :: post → post ≠ [] → lnk (s.posts ++ pre) p ≠ 0) := by
  induction n with
  | zero =>
    intro s
    refine ⟨[], by simp [requestLoop], le_refl _, rfl, ?_⟩
    intro pre p post h
    simp at h
  | succ n ih =>
    intro s
    unfold requestLoop
    simp only
    split
    · refine ⟨[{ link := s.iTeb, data := data }], rfl, by simp, rfl, ?_⟩
      intro pre p post h hpost
      rcases pre with _ | ⟨q, pre⟩
      · simp at h; exact (hpost h.2).elim
      · simp at h
    · rename_i hrc
      obtain ⟨added, h1, h2, h3, h4⟩ := ih
        { s with iTeb := if (s.iTeb + 1) % 2 ^ 32 = s.mrqLinks.length then 0
                         else (s.iTeb + 1) % 2 ^ 32,
                 posts := s.posts ++ [{ link := s.iTeb, data := data }] }
      refine ⟨{ link := s.iTeb, data := data } :: added, ?_, by simp; omega, h3, ?_⟩
      · rw [h1]; simp
      · intro pre p post h hpost
        rcases pre with _ | ⟨q, pre⟩
        · simp only [List.nil_append, List.cons.injEq] at h
          rw [List.append_nil, ← h.1]
          exact hrc
        · simp only [List.cons_append, List.cons.injEq] at h
          have := h4 pre p post h.2 hpost
          rw [← h.1]
          simpa using this

/-- The round-robin loop keeps the cursor below the number of links. -/
theorem requestLoop_cursor (lnk : List MrqPost → MrqPost → Int) (data n : Nat) :
    ∀ s : MyXtcMonitorServer, s.iTeb < s.mrqLinks.length → s.mrqLinks.length < 2 ^ 32 →
      (requestLoop lnk data n s).iTeb < s.mrqLinks.length := by
  induction n with
  | zero => intro s h _; exact h
  | succ n ih =>
    intro s h hL
    have hmod : (s.iTeb + 1) % 2 ^ 32 = s.iTeb + 1 := Nat.mod_eq_of_lt (by omega)
    have hnext : (if (s.iTeb + 1) % 2 ^ 32 = s.mrqLinks.length then 0
        else (s.iTeb + 1) % 2 ^ 32) < s.mrqLinks.length := by
      rw [hmod]
      split
      · omega
      · omega
    unfold requestLoop
    simp only
    split
    · exact hnext
    · exact ih _ hnext hL

/-- A call of `_requestDatagram` makes at most as many posts as there are
links, each but the last refused by its link, and keeps the cursor below the
number of links. -/
theorem requestDatagram_tries (lnk : List MrqPost → MrqPost → Int) (s : MyXtcMonitorServer) :
    (∃ added, (_requestDatagram lnk s).posts = s.posts ++ added ∧
      added.length ≤ s.mrqLinks.length ∧
      (∀ pre p post, added = pre ++ p :: post → post ≠ [] → lnk (s.posts ++ pre) p ≠ 0)) ∧
    (s.iTeb < s.mrqLinks.length → s.mrqLinks.length < 2 ^ 32 →
      (_requestDatagram lnk s).iTeb < s.mrqLinks.length) := by
  unfold _requestDatagram FifoMT.pop
  rcases h : s.bufFreeList.items with _ | ⟨x, xs⟩
  · simp only [h]
    refine ⟨⟨[], by simp, by simp, ?_⟩, fun hi _ => hi⟩
    intro pre p post hh
    simp at hh
  · simp only [h]
    obtain ⟨added, h1, h2, _, h4⟩ := requestLoop_posts lnk
      (ImmData.value ImmData.Buffer s.id x) s.mrqLinks.length
      { s with bufFreeList := { s.bufFreeList with items := xs } }
    exact ⟨⟨added, h1, h2, h4⟩, fun hi hL => requestLoop_cursor lnk _ _ _ hi hL⟩

/-- A release leaves the cursor, the links and the log of posts alone. -/
theorem deleteDatagram_posts (s : MyXtcMonitorServer) (env : Nat) :
    (_deleteDatagram s env).posts = s.posts ∧ (_deleteDatagram s env).iTeb = s.iTeb ∧
    (_deleteDatagram s env).mrqLinks = s.mrqLinks := by
  unfold _deleteDatagram
  simp only
  split
  · exact ⟨rfl, rfl, rfl⟩
  · exact ⟨rfl, rfl, rfl⟩

/-- A freshly configured server is in the round-robin state. -/
theorem RoundRobin_configure (prms : MebParams) (links : List Nat) :
    RoundRobin links (configure prms (.ok links) (new prms)).2 := by
  rw [configure_fresh]
  exact ⟨rfl, by simp, by simp⟩

/-- A request on links that accept every post keeps the round-robin state. -/
theorem RoundRobin_request (lnk : List MrqPost → MrqPost → Int) (links : List Nat)
    (s : MyXtcMonitorServer) (hlnk : ∀ h p, lnk h p = 0)
    (hL : 1 ≤ links.length) (hL2 : links.length < 2 ^ 32) (h : RoundRobin links s) :
    RoundRobin links (_requestDatagram lnk s) := by
  obtain ⟨h1, h2, h3⟩ := h
  rcases hitems : s.bufFreeList.items with _ | ⟨idx, rest⟩
  · rw [requestDatagram_empty lnk s hitems]; exact ⟨h1, h2, h3⟩
  · have hi : s.iTeb < s.mrqLinks.length := by
      rw [h1, h2]; exact Nat.mod_lt _ (by omega)
    rw [requestDatagram_credit lnk s idx rest hlnk hitems hi (by rw [h1]; exact hL2)]
    refine ⟨h1, ?_, ?_⟩
    · simp only [List.length_append, List.length_singleton]
      rw [h1, h2, Nat.mod_add_mod]
    · simp only [List.map_append, List.map_cons, List.map_nil, List.length_append,
        List.length_singleton, List.range_succ, h3, h2]

/-- A release keeps the round-robin state. -/
theorem RoundRobin_delete (links : List Nat) (s : MyXtcMonitorServer) (env : Nat)
    (h : RoundRobin links s) : RoundRobin links (_deleteDatagram s env) := by
  obtain ⟨d1, d2, d3⟩ := deleteDatagram_posts s env
  unfold RoundRobin
  rw [d1, d2, d3]
  exact h

/-- Every sequence of operations on links that accept every post keeps the
round-robin state. -/
theorem RoundRobin_runOps (lnk : List MrqPost → MrqPost → Int) (links : List Nat)
    (hlnk : ∀ h p, lnk h p = 0) (hL : 1 ≤ links.length) (hL2 : links.length < 2 ^ 32)
    (ops : List Op) :
    ∀ s : MyXtcMonitorServer, RoundRobin links s → RoundRobin links (runOps lnk s ops) := by
  induction ops with
  | nil => intro s h; exact h
  | cons op ops ih =>
    intro s h
    unfold runOps
    rw [List.foldl_cons]
    apply ih
    cases op with
    | request => exact RoundRobin_request lnk links s hlnk hL hL2 h
    | delete env => exact RoundRobin_delete links s env h

/-- C25. Monitor request round robin: with `L ≥ 1` request links that all
accept posts, in every state reached from `configure` by requests and
releases, post number `k` of the log went to link `k mod L` and the cursor
`_iTeb` is the number of posts modulo `L`, so below `L`; a further call of
`_requestDatagram` without credit changes nothing, and one with credit makes
exactly one post, to the link that the count of posts so far selects. Whatever
the links answer, a call makes at most as many posts as there are links, each
but the last refused, and keeps the cursor below the number of links. -/
theorem request_round_robin (lnk : List MrqPost → MrqPost → Int) (prms : MebParams)
    (links : List Nat) (ops : List Op) (hlnk : ∀ h p, lnk h p = 0)
    (hL : 1 ≤ links.length) (hL2 : links.length < 2 ^ 32) :
    ((reached lnk prms links ops).posts.map (fun p => p.link) =
      (List.range (reached lnk prms links ops).posts.length).map
        (fun k => k % links.length)) ∧
    (reached lnk prms links ops).iTeb =
      (reached lnk prms links ops).posts.length % links.length ∧
    (reached lnk prms links ops).iTeb < links.length ∧
    ((reached lnk prms links ops).bufFreeList.items = [] →
      _requestDatagram lnk (reached lnk prms links ops) = reached lnk prms links ops) ∧
    (∀ idx rest, (reached lnk prms links ops).bufFreeList.items = idx :: rest →
      (_requestDatagram lnk (reached lnk prms links ops)).posts =
        (reached lnk prms links ops).posts ++
          [{ link := (reached lnk prms links ops).posts.length % links.length,
             data := ImmData.value ImmData.Buffer (reached lnk prms links ops).id idx }]) ∧
    (∀ (answers : List MrqPost → MrqPost → Int) (s : MyXtcMonitorServer),
      (∃ added, (_requestDatagram answers s).posts = s.posts ++ added ∧
        added.length ≤ s.mrqLinks.length ∧
        (∀ pre p post, added = pre ++ p :: post → post ≠ [] →
          answers (s.posts ++ pre) p ≠ 0)) ∧
      (s.iTeb < s.mrqLinks.length → s.mrqLinks.length < 2 ^ 32 →
        (_requestDatagram answers s).iTeb < s.mrqLinks.length)) := by
  have hrr : RoundRobin links (reached lnk prms links ops) :=
    RoundRobin_runOps lnk links hlnk hL hL2 ops _ (RoundRobin_configure prms links)
  obtain ⟨h1, h2, h3⟩ := hrr
  have hlt : (reached lnk prms links ops).iTeb < links.length := by
    rw [h2]; exact Nat.mod_lt _ (by omega)
  refine ⟨h3, h2, hlt, fun he => requestDatagram_empty lnk _ he, ?_,
    fun answers s => requestDatagram_tries answers s⟩
  intro idx rest hitems
  rw [requestDatagram_credit lnk _ idx rest hlnk hitems (by rw [h1]; exact hlt)
    (by rw [h1]; exact hL2), h2]

/-- C25, witness: four buffers and three links that accept every post; two
requests, a release and three more requests make five posts, to the links 0,
1, 2, 0 and 1. -/
theorem request_round_robin_witness :
    (reached acceptAll monPrms [0, 1, 2] requestOps).posts.map (fun p => p.link) =
      [0, 1, 2, 0, 1] ∧
    (reached acceptAll monPrms [0, 1, 2] requestOps).iTeb = 2 :=
  have h := request_round_robin acceptAll monPrms [0, 1, 2] requestOps (fun _ _ => rfl)
    (by decide) (by decide)
  ⟨h.1.trans (by decide), h.2.1.trans (by decide)⟩

/-- C28. On the example server (four event buffers) a request followed by the
release of a datagram whose environment word holds the index 200 leaves 200 in
the free list: the index is beyond the capacity, which `_deleteDatagram` only
logs, and the four requests after it hand out the indices 1, 2, 3 and 200. -/
theorem free_list_out_of_range :
    monPrms.numEvBuffers = 4 ∧ deleteIndex strayEnv = 200 ∧
    (_deleteDatagram (_requestDatagram acceptAll monState) strayEnv).bufFreeList.items =
      [1, 2, 3, 200] ∧
    (requests acceptAll (_deleteDatagram (_requestDatagram acceptAll monState) strayEnv)
      4).posts.map (fun p => ImmData.idx p.data) = [0, 1, 2, 3, 200] := by
  decide

end MyXtcMonitorServer
end Eb
end Pds
namespace Pds
namespace Eb

/-! ## The ageing counter (C26) -/

namespace EbEvent

/-- An `int` value is its own wrap-around. -/
theorem toInt_of_range (x : Int) (hlo : -2 ^ 31 ≤ x) (hhi : x < 2 ^ 31) : toInt x = x := by
  unfold toInt
  omega

/-- The counter after `j` calls of `_alive`, while it has not gone below
zero. -/
theorem aged_living (e : EbEvent) (n : Nat) (hn : e.living = n) (hhi : e.living < 2 ^ 31) :
    ∀ j, j ≤ n → (aged e j).living = (n : Int) - j := by
  intro j
  induction j with
  | zero => intro _; simp [aged, hn]
  | succ j ih =>
    intro hj
    have h := ih (by omega)
    show toInt ((aged e j).living - 1) = _
    rw [h, toInt_of_range _ (by omega) (by omega)]
    push_cast
    omega

/-- C26. Ageing countdown: `_alive()` decrements the counter by exactly one
and returns whether the decremented value is above zero, changing nothing
else; `alive()` returns whether the counter is above zero; and for an event
whose counter is `n ≥ 1`, call number `j + 1` of `_alive()` in a row finds the
counter at `n - j` and returns true if and only if `j + 1 < n`: the calls 1 to
`n - 1` report the event alive and call `n` reports it expired. -/
theorem alive_countdown (e : EbEvent) (hlo : -2 ^ 31 < e.living) (hhi : e.living < 2 ^ 31) :
    (_alive e).2 = { e with living := e.living - 1 } ∧
    (_alive e).1 = decide (e.living - 1 > 0) ∧
    alive e = decide (e.living > 0) ∧
    (∀ n : Nat, e.living = n → 1 ≤ n → ∀ j, j < n →
      (aged e j).living = (n : Int) - j ∧ (_alive (aged e j)).1 = decide (j + 1 < n)) := by
  have h1 : toInt (e.living - 1) = e.living - 1 := toInt_of_range _ (by omega) (by omega)
  refine ⟨by simp [_alive, h1], by simp [_alive, h1], rfl, ?_⟩
  intro n hn _ j hj
  have ha := aged_living e n hn hhi j (by omega)
  refine ⟨ha, ?_⟩
  have h2 : toInt ((aged e j).living - 1) = (n : Int) - j - 1 := by
    rw [ha, toInt_of_range _ (by omega) (by omega)]
  show decide (toInt ((aged e j).living - 1) > 0) = decide (j + 1 < n)
  rw [h2]
  by_cases h : j + 1 < n
  · simp [h]; omega
  · simp [h]; omega

/-- C26, witness: an event whose counter holds 3 is reported alive by the
first two calls of `_alive()` and expired by the third. -/
theorem alive_countdown_witness :
    (_alive (eventWith 3)).1 = true ∧ (_alive (aged (eventWith 3) 1)).1 = true ∧
    (_alive (aged (eventWith 3) 2)).1 = false ∧ (_alive (eventWith 3)).2.living = 2 :=
  have h := alive_countdown (eventWith 3) (by decide) (by decide)
  ⟨(h.2.2.2 3 rfl (by decide) 0 (by decide)).2.trans (by decide),
   (h.2.2.2 3 rfl (by decide) 1 (by decide)).2.trans (by decide),
   (h.2.2.2 3 rfl (by decide) 2 (by decide)).2.trans (by decide),
   by rw [h.1]; rfl⟩

end EbEvent

end Eb
end Pds
namespace Pds
namespace Eb
namespace MyXtcMonitorServer

/-! ## The copy of a built event into shared memory (C21, C29) -/

/-- The sum of the extents of a directory with a first entry. -/
theorem sumExtents_cons (c : Contribution) (dir : List Contribution) :
    sumExtents (c :: dir) = c.extent + sumExtents dir := by
  simp [sumExtents]

/-- The copy loop on a directory that fits the buffer: it returns normally,
and appends the XTCs in the order of the directory. -/
theorem copyLoop_fits (sizeofDgram sizeofBuffers : Nat) (dir : List Contribution) :
    ∀ odg : ShmemDgram, sizeofDgram + odg.sizeofPayload + sumExtents dir ≤ sizeofBuffers →
      (copyLoop sizeofDgram sizeofBuffers odg dir).result = .ok () ∧
      (copyLoop sizeofDgram sizeofBuffers odg dir).state.payload =
        odg.payload ++ (dir.map fun c => c.xtc).flatten ∧
      (copyLoop sizeofDgram sizeofBuffers odg dir).state.sizeofPayload =
        odg.sizeofPayload + sumExtents dir ∧
      (copyLoop sizeofDgram sizeofBuffers odg dir).state.pulseId = odg.pulseId ∧
      (copyLoop sizeofDgram sizeofBuffers odg dir).state.env = odg.env := by
  induction dir with
  | nil => intro odg _; simp [copyLoop, sumExtents]
  | cons c dir ih =>
    intro odg h
    rw [sumExtents_cons] at h
    have hfit : ¬ (sizeofDgram + (odg.sizeofPayload + c.extent) > sizeofBuffers) := by omega
    unfold copyLoop
    simp only [hfit, if_false]
    obtain ⟨h1, h2, h3, h4, h5⟩ := ih
      { odg with damage := odg.damage ||| c.damage,
                 sizeofPayload := odg.sizeofPayload + c.extent,
                 payload := odg.payload ++ c.xtc.take c.extent,
                 copies := odg.copies ++ [(sizeofDgram + odg.sizeofPayload, c.extent)] }
      (by simp only; omega)
    refine ⟨h1, ?_, ?_, h4, h5⟩
    · rw [h2]
      simp [Contribution.extent]
    · rw [h3, sumExtents_cons]
      simp only
      omega

/-- The copy loop throws if and only if the header and the extents, those
allocated before and those of the directory, exceed the buffer. -/
theorem copyLoop_raised (sizeofDgram sizeofBuffers : Nat) (dir : List Contribution) :
    ∀ odg : ShmemDgram, sizeofDgram + odg.sizeofPayload ≤ sizeofBuffers →
      ((copyLoop sizeofDgram sizeofBuffers odg dir).raised = true ↔
        sizeofDgram + odg.sizeofPayload + sumExtents dir > sizeofBuffers) := by
  induction dir with
  | nil =>
    intro odg h
    simp only [copyLoop, Outcome.raised, sumExtents, List.map_nil, List.sum_nil]
    constructor
    · intro h1; cases h1
    · intro h1; omega
  | cons c dir ih =>
    intro odg h
    rw [sumExtents_cons]
    unfold copyLoop
    simp only
    split
    · rename_i hbig
      simp only [Outcome.raised, true_iff]
      omega
    · rename_i hfit
      rw [ih _ (by simp only; omega)]
      simp only
      omega

/-- Every `memcpy` of the copy loop ends within the buffer. -/
theorem copyLoop_copies (sizeofDgram sizeofBuffers : Nat) (dir : List Contribution) :
    ∀ odg : ShmemDgram, (∀ c ∈ odg.copies, c.1 + c.2 ≤ sizeofBuffers) →
      ∀ c ∈ (copyLoop sizeofDgram sizeofBuffers odg dir).state.copies,
        c.1 + c.2 ≤ sizeofBuffers := by
  induction dir with
  | nil => intro odg h; exact h
  | cons d dir ih =>
    intro odg h
    unfold copyLoop
    simp only
    split
    · exact h
    · rename_i hfit
      apply ih
      intro c hc
      simp only [List.mem_append, List.mem_singleton] at hc
      rcases hc with hc | hc
      · exact h c hc
      · rw [hc]
        simp only
        omega

/-- C21 (as amended). For every built event whose header and XTCs fit the
buffer, `_copyDatagram` returns normally and the payload of the datagram it
builds is the concatenation of the contributions' XTCs, each its full extent,
in the order of the directory; this is the order of the source ids when the
directory is in that order. -/
theorem copyDatagram_payload (sizeofDgram : Nat) (s : MyXtcMonitorServer)
    (first : Contribution) (rest : List Contribution)
    (hfit : sizeofDgram + sumExtents (first :: rest) ≤ s.sizeofBuffers) :
    (_copyDatagram sizeofDgram s first rest).result = .ok () ∧
    (_copyDatagram sizeofDgram s first rest).state.payload =
      ((first :: rest).map fun c => c.xtc).flatten ∧
    (_copyDatagram sizeofDgram s first rest).state.sizeofPayload =
      sumExtents (first :: rest) ∧
    ((first :: rest).Sorted (fun a b => a.src ≤ b.src) →
      (_copyDatagram sizeofDgram s first rest).state.payload =
        sourceOrderPayload (first :: rest)) := by
  obtain ⟨h1, h2, h3, _, _⟩ := copyLoop_fits sizeofDgram s.sizeofBuffers (first :: rest)
    { pulseId := first.pulseId, env := first.env, damage := first.damage,
      sizeofPayload := 0, payload := [], copies := [] }
    (by simp only; omega)
  refine ⟨h1, ?_, ?_, ?_⟩
  · unfold _copyDatagram; rw [h2]; simp
  · unfold _copyDatagram; rw [h3]; simp
  · intro hs
    unfold _copyDatagram sourceOrderPayload
    rw [h2, List.Sorted.insertionSort_eq hs]
    simp [Contribution.extent]

/-- C21, witness: the contributions from the sources 0 and 1, in this order,
in a buffer of 1000 bytes. -/
theorem copyDatagram_payload_witness :
    (_copyDatagram 24 monState ctrbZero [ctrbOne]).state.payload = [1, 2, 3, 11, 12] ∧
    (_copyDatagram 24 monState ctrbZero [ctrbOne]).state.sizeofPayload = 5 :=
  have h := copyDatagram_payload 24 monState ctrbZero [ctrbOne] (by decide)
  ⟨h.2.1.trans (by decide), h.2.2.1.trans (by decide)⟩

/-- C21, counterexample. The contribution from source 1 arrived before the one
from source 0: the payload holds the XTC of source 1 first, while the XTCs in
the order of the source ids are the other way round. -/
theorem copyDatagram_payload_counterexample :
    (_copyDatagram 24 monState ctrbOne [ctrbZero]).raised = false ∧
    (_copyDatagram 24 monState ctrbOne [ctrbZero]).state.payload = [11, 12, 1, 2, 3] ∧
    sourceOrderPayload [ctrbOne, ctrbZero] = [1, 2, 3, 11, 12] := by
  decide

/-- C29. Shared-memory bound: for every built event `_copyDatagram` throws if
and only if the size of the datagram header plus the sum of the contributions'
extents exceeds the buffer size; in every run, throwing or not, every `memcpy`
of a contribution ends within the buffer; and when it does not throw the
payload size is the number of bytes copied and the header, built in place
before the first check, lies within the buffer as well. -/
theorem copyDatagram_bound (sizeofDgram : Nat) (s : MyXtcMonitorServer)
    (first : Contribution) (rest : List Contribution) :
    ((_copyDatagram sizeofDgram s first rest).raised = true ↔
      sizeofDgram + sumExtents (first :: rest) > s.sizeofBuffers) ∧
    (∀ c ∈ (_copyDatagram sizeofDgram s first rest).state.copies,
      c.1 + c.2 ≤ s.sizeofBuffers) ∧
    ((_copyDatagram sizeofDgram s first rest).raised = false →
      sizeofDgram + (_copyDatagram sizeofDgram s first rest).state.payload.length
        ≤ s.sizeofBuffers) := by
  have hc := copyLoop_copies sizeofDgram s.sizeofBuffers (first :: rest)
    { pulseId := first.pulseId, env := first.env, damage := first.damage,
      sizeofPayload := 0, payload := [], copies := [] }
    (by intro c hc; simp at hc)
  have hiff : (_copyDatagram sizeofDgram s first rest).raised = true ↔
      sizeofDgram + sumExtents (first :: rest) > s.sizeofBuffers := by
    by_cases hhdr : sizeofDgram ≤ s.sizeofBuffers
    · have h := copyLoop_raised sizeofDgram s.sizeofBuffers (first :: rest)
        { pulseId := first.pulseId, env := first.env, damage := first.damage,
          sizeofPayload := 0, payload := [], copies := [] }
        (by simp only; omega)
      simp only [Nat.add_zero] at h
      exact h
    · have hbig : sizeofDgram + (0 + first.extent) > s.sizeofBuffers := by omega
      unfold _copyDatagram copyLoop
      simp only [hbig, if_true, Outcome.raised, true_iff]
      omega
  refine ⟨hiff, hc, ?_⟩
  intro hr
  have hfit : sizeofDgram + sumExtents (first :: rest) ≤ s.sizeofBuffers := by
    by_contra hn
    have := hiff.mpr (by omega)
    rw [hr] at this
    cases this
  obtain ⟨_, h2, _, _, _⟩ := copyLoop_fits sizeofDgram s.sizeofBuffers (first :: rest)
    { pulseId := first.pulseId, env := first.env, damage := first.damage,
      sizeofPayload := 0, payload := [], copies := [] }
    (by simp only; omega)
  have hlen : ((first :: rest).map fun c => c.xtc).flatten.length =
      sumExtents (first :: rest) := by
    simp only [sumExtents, Contribution.extent, List.length_flatten, List.map_map]
    rfl
  unfold _copyDatagram
  rw [h2]
  simp only [List.nil_append]
  omega

/-- C29, illustration: with buffers of 28 bytes and headers of 24 bytes the
two example contributions do not fit; the first is copied to the bytes 24 to
26, the second is not copied, and the function throws. -/
theorem copyDatagram_bound_example :
    (_copyDatagram 24 tightState ctrbZero [ctrbOne]).raised = true ∧
    (_copyDatagram 24 tightState ctrbZero [ctrbOne]).state.copies = [(24, 3)] ∧
    (_copyDatagram 24 tightState ctrbZero [ctrbOne]).state.payload = [1, 2, 3] := by
  decide

end MyXtcMonitorServer
end Eb
end Pds
namespace Pds
namespace Eb
namespace Drp

/-! ## The keyword arguments of the DRP (C30) -/

/-- C30. The item `sim` has no equal sign, and `get_kwargs` does not throw: it
stores the item as its own value (`find` returns `npos`, which `!pos` does not
catch, and `npos + 1` wraps to 0). The item `=7` has an equal sign, at position
0, and `get_kwargs` throws its error about a missing equal sign. For items
with an equal sign behind a key the keys and values are stored as described,
a later item overriding an earlier one. -/
theorem get_kwargs_equal_sign :
    (get_kwargs [] "sim".toList).raised = false ∧
    (get_kwargs [] "sim".toList).state = [("sim".toList, "sim".toList)] ∧
    (get_kwargs [] "=7".toList).raised = true ∧
    (get_kwargs [] "a=1,sim".toList).raised = false ∧
    (get_kwargs [] "a=1, b = 2,a=3".toList).state =
      [("a".toList, "3".toList), ("b".toList, "2".toList)] := by
  decide

end Drp
end Eb
end Pds
